import Mathlib

/-!
# Tablet bootstrap replay and tablet operations (yb/tablet)

A shallow embedding of the log-replay state machine of `TabletBootstrap`
(yb/tablet/tablet_bootstrap.cc): `ReplayState`, `HandleReplicateMessage`,
`HandleCommitMessage`, the end of `PlaySegments`, the write replay of the
legacy backend (`FilterAndApplyOperations`) and `PlayChangeConfigRequest`; of
the parts of `Tablet` (yb/tablet/tablet.cc) that carry the tablet lifecycle,
the shutdown guard, row mutations, the swap of row sets, the monotonic
counter, the table of active readers, the document write path and the
statistics of `CompactRowSetsOp`; and of `PTQualifiedName::AnalyzeName`
(yb/ql/ptree/pt_name.cc); followed by the properties proved about them.

Conventions of the embedding
* `int64_t` values are `Int`.  The only arithmetic the replay code performs on
  them is `x + 1` on raft indexes; signed overflow is undefined in the source,
  so the model agrees with the source wherever the source is defined.
* `std::map<int64_t, unique_ptr<LogEntryPB>>` is an association list kept in
  strictly increasing key order (`MapWF`); the map operations used by the
  source (`lower_bound`, `erase`, `emplace`, `find`, `begin`) are list
  functions which coincide with the `std::map` ones on such lists.
* A function returning `Status` and mutating `*state` / `this` returns the
  status together with the new values.  A failed `CHECK` (process abort) is
  `none`.
* Collaborators whose code is outside this file (the log, the tablet, the
  clock, the MVCC manager) are an abstract world `W` with the operations the
  bootstrap calls on it collected in `Env`; the collaborators of `Tablet`
  (RocksDB, docdb, the row stores, the compaction policy) are collected the
  same way in `TabletEnv`, `DocEnv`, `RowStoreEnv` and `CompactionEnv`.
-/

namespace yb

/-! ## Protobuf messages and plain data -/

/-- The status codes of the error taxonomy (yb/util/status.h). -/
inductive Status where
  | OK
  | Corruption
  | IllegalState
  | NotFound
  | AlreadyPresent
  | InvalidArgument
  | IOError
deriving DecidableEq, Repr

/-- The member function Status::ok(). -/
def Status.ok (s : Status) : Bool :=
  match s with
  | Status.OK => true
  | _ => false

/-- A position in the replicated log: consensus::OpId (term, index). -/
structure OpId where
  term : Int
  index : Int
deriving DecidableEq, Repr

/-- The value of consensus::MinimumOpId(), term 0 and index 0 (the same value
OpenNewLog builds by hand). -/
def MinimumOpId : OpId := ⟨0, 0⟩

/-- Modelled from the spec: consensus::OpIdLessThan (yb/consensus/opid_util.cc
is not part of the sources); the spec orders OpIds by (term, index). -/
def OpIdLessThan (left right : OpId) : Bool :=
  if left.term < right.term then true
  else if left.term > right.term then false
  else decide (left.index < right.index)

/-- Modelled from the spec: consensus::OpIdCompare (yb/consensus/opid_util.cc
is not part of the sources), the three-way comparison of the (term, index)
order: negative, zero or positive. -/
def OpIdCompare (first second : OpId) : Int :=
  if first.term = second.term then
    (if first.index < second.index then -1
     else if first.index = second.index then 0 else 1)
  else if first.term < second.term then -1 else 1

/-- Modelled from the spec: consensus::OpIdEquals (yb/consensus/opid_util.cc
is not part of the sources), equality of term and index. -/
def OpIdEquals (left right : OpId) : Bool :=
  decide (left.term = right.term) && decide (left.index = right.index)

/-- The (term, index) order a ≤ b on OpIds, used to state properties. -/
def OpId.le (a b : OpId) : Prop :=
  a.term < b.term ∨ (a.term = b.term ∧ a.index ≤ b.index)

instance (a b : OpId) : Decidable (OpId.le a b) := by
  unfold OpId.le; infer_instance

abbrev HybridTime := Nat

/-- The values of consensus::OperationType that HandleOperation switches on. -/
inductive OperationType where
  | UNKNOWN_OP
  | NO_OP
  | WRITE_OP
  | ALTER_SCHEMA_OP
  | CHANGE_CONFIG_OP
  | UPDATE_TRANSACTION_OP
  | SNAPSHOT_OP
deriving DecidableEq, Repr

inductive ExternalConsistencyMode where
  | CLIENT_PROPAGATED
  | COMMIT_WAIT
deriving DecidableEq, Repr

/-- MemStoreTargetPB: the store a row operation went to.  The integer fields
are the values returned by the protobuf accessors. -/
structure MemStoreTargetPB where
  has_mrs_id : Bool
  mrs_id : Int
  rs_id : Int
  dms_id : Int
deriving DecidableEq, Repr

/-- OperationResultPB, reduced to the fields the replay code reads. -/
structure OperationResultPB where
  flushed : Bool
  has_failed_status : Bool
  mutated_stores : List MemStoreTargetPB
deriving DecidableEq, Repr

/-- ReplicateMsg, reduced to the fields the replay code reads.  The field
external_consistency_mode is write_request().external_consistency_mode(). -/
structure ReplicateMsg where
  id : OpId
  hybrid_time : HybridTime
  op_type : OperationType
  has_committed_op_id : Bool
  committed_op_id : OpId
  monotonic_counter : Int
  external_consistency_mode : ExternalConsistencyMode
deriving DecidableEq, Repr

/-- CommitMsg; result is result().ops(). -/
structure CommitMsg where
  op_type : OperationType
  commited_op_id : OpId
  result : List OperationResultPB
deriving DecidableEq, Repr

inductive LogEntryTypePB where
  | UNKNOWN
  | REPLICATE
  | COMMIT
deriving DecidableEq, Repr

/-- LogEntryPB: replicate and commit are what the accessors replicate() and
commit() return (the default message when the field is absent). -/
structure LogEntryPB where
  type : LogEntryTypePB
  replicate : ReplicateMsg
  has_commit : Bool
  commit : CommitMsg
deriving DecidableEq, Repr

inductive TableType where
  | KUDU_COLUMNAR_TABLE_TYPE
  | YQL_TABLE_TYPE
  | REDIS_TABLE_TYPE
deriving DecidableEq, Repr

/-! ## OpIndexToEntryMap: std::map keyed by raft index -/

abbrev OpIndexToEntryMap := List (Int × LogEntryPB)

/-- The keys of a map, in iteration order. -/
def keys (m : OpIndexToEntryMap) : List Int := m.map Prod.fst

/-- Well-formedness of the list as a std::map: keys strictly increasing. -/
def MapWF (m : OpIndexToEntryMap) : Prop := (keys m).Pairwise (fun a b => a < b)

instance (m : OpIndexToEntryMap) : Decidable (MapWF m) := by
  unfold MapWF; infer_instance

/-- The range [lower_bound(k), end()): the entries with key not less than k. -/
def lower_bound (m : OpIndexToEntryMap) (k : Int) : OpIndexToEntryMap :=
  m.dropWhile (fun p => decide (p.1 < k))

/-- The map after erase(lower_bound(k), end()): the entries before lower_bound(k). -/
def erase_from_lower_bound (m : OpIndexToEntryMap) (k : Int) : OpIndexToEntryMap :=
  m.takeWhile (fun p => decide (p.1 < k))

/-- The member find(k), as the mapped entry if present. -/
def find (m : OpIndexToEntryMap) (k : Int) : Option LogEntryPB :=
  match m with
  | [] => none
  | (k', v) :: rest => if k' = k then some v else find rest k

/-- The helper ContainsKey(m, k). -/
def ContainsKey (m : OpIndexToEntryMap) (k : Int) : Bool := (find m k).isSome

/-- The member erase(find(k)) for a key that is present. -/
def erase_key (m : OpIndexToEntryMap) (k : Int) : OpIndexToEntryMap :=
  m.filter (fun p => decide (p.1 ≠ k))

/-- The member emplace(k, v): inserts in key order unless the key is present;
the Bool is the `.second` of the returned pair. -/
def emplace (m : OpIndexToEntryMap) (k : Int) (v : LogEntryPB) : OpIndexToEntryMap × Bool :=
  match m with
  | [] => ([(k, v)], true)
  | (k', v') :: rest =>
    if k < k' then ((k, v) :: (k', v') :: rest, true)
    else if k = k' then ((k', v') :: rest, false)
    else ((k', v') :: (emplace rest k v).1, (emplace rest k v).2)

/-! ## ReplayState -/

/-- The struct ReplayState (fields as used by tablet_bootstrap.cc). -/
structure ReplayState where
  prev_op_id : OpId
  committed_op_id : OpId
  pending_replicates : OpIndexToEntryMap
  pending_commits : OpIndexToEntryMap
  last_stored_op_id : OpId
  rocksdb_applied_index : Int
  rocksdb_last_entry_hybrid_time : HybridTime
  num_entries_applied_to_rocksdb : Int
deriving DecidableEq, Repr

namespace ReplayState

/-- The constructor ReplayState::ReplayState(last_op_id).  The constants
yb::OpId::kUnknownTerm and HybridTime::kMin come from headers outside the
sources and are parameters.  The members the constructor does not assign take
the default initialisers of the struct (declared in tablet_bootstrap.h):
MinimumOpId() for the two OpIds, empty maps, HybridTime::kMin and zero. -/
def new (kUnknownTerm : Int) (kMin : HybridTime) (last_op_id : OpId) : ReplayState :=
  if last_op_id.term > kUnknownTerm then
    { prev_op_id := MinimumOpId, committed_op_id := last_op_id,
      pending_replicates := [], pending_commits := [],
      last_stored_op_id := last_op_id, rocksdb_applied_index := -1,
      rocksdb_last_entry_hybrid_time := kMin, num_entries_applied_to_rocksdb := 0 }
  else
    { prev_op_id := MinimumOpId, committed_op_id := MinimumOpId,
      pending_replicates := [], pending_commits := [],
      last_stored_op_id := last_op_id, rocksdb_applied_index := last_op_id.index,
      rocksdb_last_entry_hybrid_time := kMin, num_entries_applied_to_rocksdb := 0 }

/-- ReplayState::IsValidSequence: true if b is allowed to immediately follow a
in the log. -/
def IsValidSequence (a b : OpId) : Bool :=
  if a.term = 0 ∧ a.index = 0 then true
  else if b.term = a.term ∧ b.index > a.index + 1 then false
  else true

/-- ReplayState::CheckSequentialReplicateId: Corruption when msg.id is out of
sequence after prev_op_id, otherwise prev_op_id becomes msg.id. -/
def CheckSequentialReplicateId (state : ReplayState) (msg : ReplicateMsg) :
    Status × ReplayState :=
  if !IsValidSequence state.prev_op_id msg.id then
    (Status.Corruption, state)
  else
    (Status.OK, { state with prev_op_id := msg.id })

/-- ReplayState::UpdateCommittedOpId. -/
def UpdateCommittedOpId (state : ReplayState) (id : OpId) : ReplayState :=
  if OpIdLessThan state.committed_op_id id then
    { state with committed_op_id := id }
  else state

/-- ReplayState::CanApply. -/
def CanApply (state : ReplayState) (index : Int) (entry : LogEntryPB) : Bool :=
  if state.rocksdb_applied_index ≠ -1 ∧ index ≠ state.rocksdb_applied_index + 1 then false
  else decide (OpIdCompare entry.replicate.id state.committed_op_id ≤ 0)

/-- Modelled from the spec: ReplayState::ApplyCommittedPendingReplicates is a
template in tablet_bootstrap.h, which is not part of the sources.  Following
the spec (an entry is applicable only under CanApply) and the comment that
opens PlaySegments, it hands the first pending replicate to the handler and
erases it for as long as CanApply accepts it, advancing rocksdb_applied_index
(when it is in use) and the count of applied entries.  The loop is written
over the entries that are still pending. -/
def ApplyCommittedLoop {W : Type} (handler : W → LogEntryPB → W)
    (state : ReplayState) (w : W) : OpIndexToEntryMap → ReplayState × W
  | [] => ({ state with pending_replicates := [] }, w)
  | (k, e) :: rest =>
    if CanApply state k e then
      ApplyCommittedLoop handler
        { state with
          rocksdb_applied_index :=
            if state.rocksdb_applied_index ≠ -1 then state.rocksdb_applied_index + 1
            else state.rocksdb_applied_index,
          num_entries_applied_to_rocksdb := state.num_entries_applied_to_rocksdb + 1 }
        (handler w e) rest
    else ({ state with pending_replicates := (k, e) :: rest }, w)

/-- Modelled from the spec: the entry point of the loop above, starting at
pending_replicates.begin(). -/
def ApplyCommittedPendingReplicates {W : Type} (handler : W → LogEntryPB → W)
    (state : ReplayState) (w : W) : ReplayState × W :=
  ApplyCommittedLoop handler state w state.pending_replicates

end ReplayState

/-! ## FlushedStoresSnapshot -/

/-- The class FlushedStoresSnapshot: last_durable_mrs_id_ and the map
flushed_dms_by_drs_id_ from row-set id to last durable redo delta-store id. -/
structure FlushedStoresSnapshot where
  last_durable_mrs_id_ : Int
  flushed_dms_by_drs_id_ : List (Int × Int)
deriving DecidableEq, Repr

/-- The helper FindCopy on flushed_dms_by_drs_id_. -/
def FindCopy (m : List (Int × Int)) (k : Int) : Option Int :=
  match m with
  | [] => none
  | (k', v) :: rest => if k' = k then some v else FindCopy rest k

/-- FlushedStoresSnapshot::WasStoreAlreadyFlushed. -/
def FlushedStoresSnapshot.WasStoreAlreadyFlushed (fs : FlushedStoresSnapshot)
    (target : MemStoreTargetPB) : Bool :=
  if target.has_mrs_id then
    decide (target.mrs_id ≤ fs.last_durable_mrs_id_)
  else
    match FindCopy fs.flushed_dms_by_drs_id_ target.rs_id with
    | none => true
    | some last_durable_dms_id =>
      if target.dms_id ≤ last_durable_dms_id then true else false

/-- The helper InsertIfNotPresent on flushed_dms_by_drs_id_: the Bool tells
whether the key was absent and the pair was inserted. -/
def InsertIfNotPresent (m : List (Int × Int)) (k v : Int) : List (Int × Int) × Bool :=
  match FindCopy m k with
  | some _ => (m, false)
  | none => (m ++ [(k, v)], true)

/-- The part of TabletMetadata that FlushedStoresSnapshot::InitFrom reads:
last_durable_mrs_id() and, for each row set, id() and
last_durable_redo_dms_id(). -/
structure TabletMetadata where
  last_durable_mrs_id : Int
  rowsets : List (Int × Int)
deriving DecidableEq, Repr

/-- The loop of FlushedStoresSnapshot::InitFrom over the row sets of the
metadata: Corruption at the first duplicate row-set id. -/
def FlushedStoresSnapshot.InitFromLoop (fs : FlushedStoresSnapshot) :
    List (Int × Int) → Status × FlushedStoresSnapshot
  | [] => (Status.OK, fs)
  | (id, last_durable_redo_dms_id) :: rest =>
    if !(InsertIfNotPresent fs.flushed_dms_by_drs_id_ id last_durable_redo_dms_id).2 then
      (Status.Corruption, fs)
    else
      FlushedStoresSnapshot.InitFromLoop
        { fs with
          flushed_dms_by_drs_id_ :=
            (InsertIfNotPresent fs.flushed_dms_by_drs_id_ id last_durable_redo_dms_id).1 }
        rest

/-- FlushedStoresSnapshot::InitFrom.  The result none is the failed CHECK on a
snapshot that is already initialised. -/
def FlushedStoresSnapshot.InitFrom (fs : FlushedStoresSnapshot) (tablet_meta : TabletMetadata) :
    Option (Status × FlushedStoresSnapshot) :=
  if fs.flushed_dms_by_drs_id_ ≠ [] then none
  else
    some (FlushedStoresSnapshot.InitFromLoop
      { fs with last_durable_mrs_id_ := tablet_meta.last_durable_mrs_id } tablet_meta.rowsets)

/-! ## TabletBootstrap -/

/-- The struct TabletBootstrap::Stats. -/
structure Stats where
  ops_read : Nat
  ops_overwritten : Nat
  ops_committed : Nat
  inserts_seen : Nat
  inserts_ignored : Nat
  mutations_seen : Nat
  mutations_ignored : Nat
  orphaned_commits : Nat
deriving DecidableEq, Repr

/-- One log segment as PlaySegments sees it: the entries ReadEntries produced
and the status ReadEntries returned. -/
structure Segment where
  entries : List LogEntryPB
  read_status : Status
deriving DecidableEq, Repr

/-- The collaborators of TabletBootstrap whose code is outside this file,
as operations on an abstract world W (tablet, log, clock, MVCC manager,
consensus metadata), and the constants taken from headers and flags. -/
structure Env (W : Type) where
  table_type : TableType
  kUnknownTerm : Int
  kMin : HybridTime
  max_clock_sync_error_usec : Int
  UpdateClock : W → HybridTime → W
  UpdateMonotonicCounter : W → Int → W
  LogAppend : W → LogEntryPB → Status × W
  Play : W → OperationType → ReplicateMsg → Option CommitMsg → Status × W
  AddPhysicalTimeToHybridTime : HybridTime → Int → HybridTime
  OfflineAdjustSafeTime : W → HybridTime → W
  GetMaxSafeTimeToReadAt : W → HybridTime
  MaxPersistentOpId : W → OpId
  RewindSchemaForBootstrap : W → Segment → Status × W
  OpenNewLog : W → Status × W

/-- The members of TabletBootstrap that replay reads and writes: the world
behind tablet_, log_, data_.clock and cmeta_, the statistics and the
flushed-stores snapshot. -/
structure TabletBootstrap (W : Type) where
  world : W
  stats_ : Stats
  flushed_stores_ : FlushedStoresSnapshot
deriving DecidableEq, Repr

/-- The struct consensus::ConsensusBootstrapInfo. -/
structure ConsensusBootstrapInfo where
  last_id : OpId
  last_committed_id : OpId
  orphaned_replicates : List ReplicateMsg
deriving DecidableEq, Repr

namespace TabletBootstrap

variable {W : Type}

/-- The test non_kudu of the source: table_type() != KUDU_COLUMNAR_TABLE_TYPE. -/
def non_kudu (env : Env W) : Bool :=
  decide (env.table_type ≠ TableType.KUDU_COLUMNAR_TABLE_TYPE)

/-- TabletBootstrap::HandleOperation: dispatch on the operation type; the
bodies of the Play functions act on the tablet and are env.Play. -/
def HandleOperation (env : Env W) (w : W) (op_type : OperationType)
    (replicate : ReplicateMsg) (commit : Option CommitMsg) : Status × W :=
  match op_type with
  | OperationType.WRITE_OP => env.Play w op_type replicate commit
  | OperationType.ALTER_SCHEMA_OP => env.Play w op_type replicate commit
  | OperationType.CHANGE_CONFIG_OP => env.Play w op_type replicate commit
  | OperationType.NO_OP => env.Play w op_type replicate commit
  | OperationType.UPDATE_TRANSACTION_OP => env.Play w op_type replicate commit
  | OperationType.SNAPSHOT_OP => (Status.IllegalState, w)
  | OperationType.UNKNOWN_OP => (Status.IllegalState, w)

/-- TabletBootstrap::HandleEntryPair: replay one operation, then advance the
MVCC safe time unless the operation is a NO_OP or a CHANGE_CONFIG_OP. -/
def HandleEntryPair (env : Env W) (w : W) (replicate_entry : LogEntryPB)
    (commit_entry : Option LogEntryPB) : Status × W :=
  let replicate := replicate_entry.replicate
  let commit : Option CommitMsg := commit_entry.map (fun c => c.commit)
  let op_type : OperationType :=
    match commit with
    | none => replicate.op_type
    | some c => c.op_type
  let r := HandleOperation env w op_type replicate commit
  if !r.1.ok then (r.1, r.2)
  else if op_type = OperationType.NO_OP ∨ op_type = OperationType.CHANGE_CONFIG_OP then
    (Status.OK, r.2)
  else
    let safe_time : HybridTime :=
      if replicate.external_consistency_mode ≠ ExternalConsistencyMode.COMMIT_WAIT then
        replicate.hybrid_time
      else
        env.AddPhysicalTimeToHybridTime replicate.hybrid_time (-env.max_clock_sync_error_usec)
    (Status.OK, env.OfflineAdjustSafeTime r.2 safe_time)

/-- Lines 522-552 of HandleReplicateMessage: on a RocksDB-backed table an entry
whose index equals last_stored_op_id.index bumps committed_op_id to its own id
and records its hybrid time. -/
def NoteLastStoredIndex (env : Env W) (state : ReplayState) (replicate : ReplicateMsg) :
    ReplayState :=
  if non_kudu env ∧ replicate.id.index = state.last_stored_op_id.index then
    { state.UpdateCommittedOpId replicate.id with
      rocksdb_last_entry_hybrid_time := replicate.hybrid_time }
  else state

/-- Lines 565-579 of HandleReplicateMessage: when an entry with the same index
is pending, erase it and all entries after it; the second component is
std::distance(iter, end), the number of entries overwritten. -/
def OverwritePending (pending : OpIndexToEntryMap) (index : Int) : OpIndexToEntryMap × Nat :=
  match lower_bound pending index with
  | [] => (pending, 0)
  | (k, e) :: rest =>
    if k = index then (erase_from_lower_bound pending index, ((k, e) :: rest).length)
    else (pending, 0)

/-- Lines 565-581 of HandleReplicateMessage: the overwrite step followed by the
checked emplace of the new entry; none is the failed CHECK, the Nat is the
number of overwritten entries. -/
def InsertPendingReplicate (state : ReplayState) (replicate_entry : LogEntryPB) :
    Option (ReplayState × Nat) :=
  let index := replicate_entry.replicate.id.index
  let ov := OverwritePending state.pending_replicates index
  let ins := emplace ov.1 index replicate_entry
  if !ins.2 then none
  else some ({ state with pending_replicates := ins.1 }, ov.2)

/-- The value of pending_replicates that lines 565-581 produce from the map m
for a new entry at index i: the entries below i, the new entry and, only when
no entry was pending at index i itself, the entries above i. -/
def PendingAfterInsert (m : OpIndexToEntryMap) (i : Int) (entry : LogEntryPB) :
    OpIndexToEntryMap :=
  erase_from_lower_bound m i ++ (i, entry) ::
    (match lower_bound m i with
     | [] => []
     | (k, v) :: rest => if k = i then [] else (k, v) :: rest)

/-- TabletBootstrap::HandleReplicateMessage.  The result none is a failed
CHECK. -/
def HandleReplicateMessage (env : Env W) (tb : TabletBootstrap W) (state : ReplayState)
    (replicate_entry : LogEntryPB) : Option (Status × TabletBootstrap W × ReplayState) :=
  let tb1 : TabletBootstrap W :=
    { tb with stats_ := { tb.stats_ with ops_read := tb.stats_.ops_read + 1 } }
  let replicate := replicate_entry.replicate
  match state.CheckSequentialReplicateId replicate with
  | (Status.OK, state1) =>
    let w1 := env.UpdateClock tb1.world replicate.hybrid_time
    let w2 := env.UpdateMonotonicCounter w1 replicate.monotonic_counter
    let state2 := NoteLastStoredIndex env state1 replicate
    match env.LogAppend w2 replicate_entry with
    | (Status.OK, w3) =>
      if non_kudu env ∧ replicate.id.index ≤ state2.last_stored_op_id.index then
        some (Status.OK, { tb1 with world := w3 }, state2)
      else
        match InsertPendingReplicate state2 replicate_entry with
        | none => none
        | some (state3, overwritten) =>
          let tb2 : TabletBootstrap W :=
            { tb1 with
              world := w3,
              stats_ :=
                { tb1.stats_ with ops_overwritten := tb1.stats_.ops_overwritten + overwritten } }
          if non_kudu env then
            if !replicate.has_committed_op_id then none
            else
              let state4 := state3.UpdateCommittedOpId replicate.committed_op_id
              let r := state4.ApplyCommittedPendingReplicates
                (fun w e => (HandleEntryPair env w e none).2) tb2.world
              some (Status.OK, { tb2 with world := r.2 }, r.1)
          else some (Status.OK, tb2, state3)
    | (s, w3) => some (s, { tb1 with world := w3 }, state2)
  | (s, state1) => some (s, tb1, state1)

/-- TabletBootstrap::AreAllStoresAlreadyFlushed. -/
def AreAllStoresAlreadyFlushed (fs : FlushedStoresSnapshot) (commit : CommitMsg) : Bool :=
  commit.result.all (fun op_result =>
    op_result.mutated_stores.all (fun mutated_store => fs.WasStoreAlreadyFlushed mutated_store))

/-- TabletBootstrap::AreAnyStoresAlreadyFlushed. -/
def AreAnyStoresAlreadyFlushed (fs : FlushedStoresSnapshot) (commit : CommitMsg) : Bool :=
  commit.result.any (fun op_result =>
    op_result.mutated_stores.any (fun mutated_store => fs.WasStoreAlreadyFlushed mutated_store))

/-- TabletBootstrap::CheckOrphanedCommitAlreadyFlushed. -/
def CheckOrphanedCommitAlreadyFlushed (fs : FlushedStoresSnapshot) (commit : CommitMsg) :
    Status :=
  if !AreAllStoresAlreadyFlushed fs commit then Status.Corruption else Status.OK

/-- TabletBootstrap::ApplyCommitMessage.  The LOG(DFATAL) before the
Corruption return only logs in a release build. -/
def ApplyCommitMessage (env : Env W) (tb : TabletBootstrap W) (state : ReplayState)
    (commit_entry : LogEntryPB) : Status × TabletBootstrap W × ReplayState :=
  let committed_op_id := commit_entry.commit.commited_op_id
  match find state.pending_replicates committed_op_id.index with
  | some pending_replicate_entry =>
    let state1 : ReplayState :=
      { state with
        pending_replicates := erase_key state.pending_replicates committed_op_id.index }
    if !OpIdEquals committed_op_id pending_replicate_entry.replicate.id then
      (Status.Corruption, tb, state1)
    else
      let r := HandleEntryPair env tb.world pending_replicate_entry (some commit_entry)
      if !r.1.ok then (r.1, { tb with world := r.2 }, state1)
      else
        (Status.OK,
         { tb with
           world := r.2,
           stats_ := { tb.stats_ with ops_committed := tb.stats_.ops_committed + 1 } },
         state1)
  | none =>
    (CheckOrphanedCommitAlreadyFlushed tb.flushed_stores_ commit_entry.commit,
     { tb with
       stats_ := { tb.stats_ with orphaned_commits := tb.stats_.orphaned_commits + 1 } },
     state)

/-- The while loop that ends HandleCommitMessage, written over the buffered
commits still to be visited (iter always stands at pending_commits.begin()). -/
def ApplyBufferedCommits (env : Env W) (tb : TabletBootstrap W) (state : ReplayState)
    (last_applied : OpId) : OpIndexToEntryMap → Status × TabletBootstrap W × ReplayState
  | [] => (Status.OK, tb, { state with pending_commits := [] })
  | (k, buffered_commit_entry) :: rest =>
    if k = last_applied.index + 1 then
      let r := ApplyCommitMessage env tb { state with pending_commits := rest }
        buffered_commit_entry
      if !r.1.ok then r
      else ApplyBufferedCommits env r.2.1 r.2.2 buffered_commit_entry.commit.commited_op_id rest
    else (Status.OK, tb, { state with pending_commits := (k, buffered_commit_entry) :: rest })

/-- The in-order flush of the buffered commits in the words of the spec, to be
compared with ApplyBufferedCommits: apply and remove the buffered commits at
the indexes last + 1, last + 2, ... in ascending order, stopping at the first
index with no buffered commit, or at the first commit that fails to apply.
The fuel bounds the number of commits applied; the number of buffered commits
is enough. -/
def ApplyConsecutiveCommits (env : Env W) :
    Nat → TabletBootstrap W → ReplayState → Int → Status × TabletBootstrap W × ReplayState
  | 0, tb, state, _ => (Status.OK, tb, state)
  | fuel + 1, tb, state, last =>
    match find state.pending_commits (last + 1) with
    | none => (Status.OK, tb, state)
    | some buffered_commit_entry =>
      let r := ApplyCommitMessage env tb
        { state with pending_commits := erase_key state.pending_commits (last + 1) }
        buffered_commit_entry
      if !r.1.ok then r
      else ApplyConsecutiveCommits env fuel r.2.1 r.2.2 (last + 1)

/-- The orphaned-commit branch of HandleCommitMessage (lines 614-621). -/
def HandleOrphanedCommit (tb : TabletBootstrap W) (state : ReplayState)
    (commit_entry : LogEntryPB) : Status × TabletBootstrap W × ReplayState :=
  let s := CheckOrphanedCommitAlreadyFlushed tb.flushed_stores_ commit_entry.commit
  if !s.ok then (s, tb, state)
  else
    (Status.OK,
     { tb with
       stats_ := { tb.stats_ with orphaned_commits := tb.stats_.orphaned_commits + 1 } },
     state)

/-- TabletBootstrap::HandleCommitMessage.  The result none is a failed CHECK. -/
def HandleCommitMessage (env : Env W) (tb : TabletBootstrap W) (state : ReplayState)
    (commit_entry : LogEntryPB) : Option (Status × TabletBootstrap W × ReplayState) :=
  if env.table_type ≠ TableType.KUDU_COLUMNAR_TABLE_TYPE then none
  else
    let committed_op_id := commit_entry.commit.commited_op_id
    let state1 := state.UpdateCommittedOpId committed_op_id
    match state1.pending_replicates with
    | [] => some (HandleOrphanedCommit tb state1 commit_entry)
    | (first, _) :: _ =>
      if first > committed_op_id.index then
        some (HandleOrphanedCommit tb state1 commit_entry)
      else if first ≠ committed_op_id.index then
        if !ContainsKey state1.pending_replicates committed_op_id.index then
          some (Status.Corruption, tb, state1)
        else
          let ins := emplace state1.pending_commits committed_op_id.index commit_entry
          if !ins.2 then none
          else some (Status.OK, tb, { state1 with pending_commits := ins.1 })
      else
        let r := ApplyCommitMessage env tb state1 commit_entry
        if !r.1.ok then some r
        else some (ApplyBufferedCommits env r.2.1 r.2.2 committed_op_id r.2.2.pending_commits)

/-- TabletBootstrap::HandleEntry.  MAYBE_FAULT is a test-only crash injection
(flag default 0.0) and is left out. -/
def HandleEntry (env : Env W) (tb : TabletBootstrap W) (state : ReplayState)
    (entry : LogEntryPB) : Option (Status × TabletBootstrap W × ReplayState) :=
  match entry.type with
  | LogEntryTypePB.REPLICATE => HandleReplicateMessage env tb state entry
  | LogEntryTypePB.COMMIT =>
    if env.table_type = TableType.KUDU_COLUMNAR_TABLE_TYPE then
      HandleCommitMessage env tb state entry
    else if entry.has_commit ∧ entry.commit.op_type = OperationType.NO_OP then
      some (Status.OK, tb, state)
    else none
  | LogEntryTypePB.UNKNOWN => some (Status.Corruption, tb, state)

/-- The inner loop of PlaySegments over the entries of one segment: stops at
the first entry whose HandleEntry does not return OK. -/
def ReplayEntries (env : Env W) (tb : TabletBootstrap W) (state : ReplayState) :
    List LogEntryPB → Option (Status × TabletBootstrap W × ReplayState)
  | [] => some (Status.OK, tb, state)
  | entry :: rest =>
    match HandleEntry env tb state entry with
    | none => none
    | some (Status.OK, tb1, state1) => ReplayEntries env tb1 state1 rest
    | some (s, tb1, state1) => some (s, tb1, state1)

/-- The outer loop of PlaySegments over the segments: a segment whose
ReadEntries failed is replayed as far as it was read and then ends the replay
with Corruption. -/
def ReplaySegments (env : Env W) (tb : TabletBootstrap W) (state : ReplayState) :
    List Segment → Option (Status × TabletBootstrap W × ReplayState)
  | [] => some (Status.OK, tb, state)
  | segment :: rest =>
    match ReplayEntries env tb state segment.entries with
    | none => none
    | some (Status.OK, tb1, state1) =>
      if !segment.read_status.ok then some (Status.Corruption, tb1, state1)
      else ReplaySegments env tb1 state1 rest
    | some (s, tb1, state1) => some (s, tb1, state1)

/-- The check of lines 921-938 of PlaySegments over the buffered commits:
Corruption at the first one without a pending replicate or with an already
flushed store. -/
def CheckPendingCommits (fs : FlushedStoresSnapshot) (pending_replicates : OpIndexToEntryMap) :
    OpIndexToEntryMap → Status
  | [] => Status.OK
  | (k, entry) :: rest =>
    if !ContainsKey pending_replicates k then Status.Corruption
    else if AreAnyStoresAlreadyFlushed fs entry.commit then Status.Corruption
    else CheckPendingCommits fs pending_replicates rest

/-- The loop of lines 983-993 of PlaySegments: the pending replicates handed
to consensus as orphaned replicates. -/
def OrphanedReplicates (env : Env W) (state : ReplayState) : List ReplicateMsg :=
  (state.pending_replicates.filter (fun e =>
      decide (env.table_type = TableType.KUDU_COLUMNAR_TABLE_TYPE) ||
      decide (e.1 > state.rocksdb_applied_index))).map (fun e => e.2.replicate)

/-- The end of PlaySegments (lines 918-1013), once every segment is replayed. -/
def FinishPlaySegments (env : Env W) (tb : TabletBootstrap W) (state : ReplayState)
    (consensus_info : ConsensusBootstrapInfo) :
    Status × TabletBootstrap W × ConsensusBootstrapInfo :=
  match CheckPendingCommits tb.flushed_stores_ state.pending_replicates state.pending_commits with
  | Status.OK =>
    let info1 : ConsensusBootstrapInfo :=
      { consensus_info with
        orphaned_replicates := consensus_info.orphaned_replicates ++ OrphanedReplicates env state }
    if env.table_type ≠ TableType.KUDU_COLUMNAR_TABLE_TYPE then
      let w1 := env.OfflineAdjustSafeTime tb.world state.rocksdb_last_entry_hybrid_time
      if env.GetMaxSafeTimeToReadAt w1 = env.kMin ∧ state.rocksdb_applied_index > 0 then
        (Status.Corruption, { tb with world := w1 }, info1)
      else
        (Status.OK, { tb with world := w1 },
         { info1 with last_id := state.prev_op_id, last_committed_id := state.committed_op_id })
    else
      (Status.OK, tb,
       { info1 with last_id := state.prev_op_id, last_committed_id := state.committed_op_id })
  | s => (s, tb, consensus_info)

/-- Lines 875-1013 of PlaySegments: the replay loop over the segments, and,
when it ends with OK, the end of PlaySegments. -/
def ReplayAndFinish (env : Env W) (tb : TabletBootstrap W) (state : ReplayState)
    (segments : List Segment) (consensus_info : ConsensusBootstrapInfo) :
    Option (Status × TabletBootstrap W × ConsensusBootstrapInfo) :=
  match ReplaySegments env tb state segments with
  | none => none
  | some (Status.OK, tb1, state1) => some (FinishPlaySegments env tb1 state1 consensus_info)
  | some (s, tb1, _) => some (s, tb1, consensus_info)

/-- The schema rewind of lines 859-868 of PlaySegments, done on the legacy
backend when there is at least one segment. -/
def RewindSchema (env : Env W) (w : W) (segments : List Segment) : Status × W :=
  match segments with
  | segment :: _ =>
    if env.table_type = TableType.KUDU_COLUMNAR_TABLE_TYPE then
      env.RewindSchemaForBootstrap w segment
    else (Status.OK, w)
  | [] => (Status.OK, w)

/-- TabletBootstrap::PlaySegments.  snapshot_status and segments are what
log_reader_->GetSegmentsSnapshot returned. -/
def PlaySegments (env : Env W) (tb : TabletBootstrap W) (snapshot_status : Status)
    (segments : List Segment) (consensus_info : ConsensusBootstrapInfo) :
    Option (Status × TabletBootstrap W × ConsensusBootstrapInfo) :=
  let persistent_op_id : OpId :=
    if non_kudu env then
      { term := (env.MaxPersistentOpId tb.world).term,
        index := (env.MaxPersistentOpId tb.world).index }
    else MinimumOpId
  let state := ReplayState.new env.kUnknownTerm env.kMin persistent_op_id
  if !snapshot_status.ok then some (snapshot_status, tb, consensus_info)
  else
    let rw := RewindSchema env tb.world segments
    if !rw.1.ok then some (rw.1, { tb with world := rw.2 }, consensus_info)
    else
      let ol := env.OpenNewLog rw.2
      if !ol.1.ok then some (ol.1, { tb with world := ol.2 }, consensus_info)
      else ReplayAndFinish env { tb with world := ol.2 } state segments consensus_info

end TabletBootstrap

/-! ## Tablet (yb/tablet/tablet.cc) -/

/-- Modelled from the spec: the enum Tablet::State is declared in tablet.h,
which is not part of the sources; the spec gives the lifecycle
Initialized, Bootstrapping, Open, Shutdown. -/
inductive TabletState where
  | kInitialized
  | kBootstrapping
  | kOpen
  | kShutdown
deriving DecidableEq, Repr

/-- The position of a state in the lifecycle order. -/
def TabletState.rank : TabletState → Nat
  | TabletState.kInitialized => 0
  | TabletState.kBootstrapping => 1
  | TabletState.kOpen => 2
  | TabletState.kShutdown => 3

inductive FlushMode where
  | kSync
  | kAsync
deriving DecidableEq, Repr

/-- The members of Tablet that the functions below read and write.  The world
S stands for what lies behind rocksdb_, components_, metadata_, mvcc_, clock_
and the transaction participant; schema_version and is_transactional are
metadata_->schema_version() and the is_transactional() table property. -/
structure Tablet (S : Type) where
  table_type_ : TableType
  state_ : TabletState
  shutdown_requested_ : Bool
  pending_op_counter_ : Nat
  schema_version : Nat
  is_transactional : Bool
  monotonic_counter_ : Int
  active_readers_cnt_ : List (HybridTime × Int)
  world : S
deriving DecidableEq, Repr

/-- The collaborators of Tablet whose code is outside tablet.cc, as operations
on the world S, and the bodies (everything after the shutdown guard, for the
arguments of the call at hand) of the guarded functions that are not modelled
further. -/
structure TabletEnv (S : Type) where
  schema_has_column_ids : S → Bool
  OpenKeyValueTablet : S → Status × S
  OpenKuduColumnarTablet : S → Status × S
  UnregisterMaintenanceOps : S → S
  WaitForAllOpsToFinish : S → Nat → Status
  ReleaseStorage : S → S
  RocksDBFlush : S → FlushMode → S
  ReplaceMemRowSetUnlocked : S → Status × S
  WaitForApplyingOperationsToCommit : S → S
  FlushInternal : S → Status × S
  CreateCheckpointBody : S → Status × S
  HandleRedisReadRequestBody : S → Status × S
  HandleQLReadRequestBody : S → Status × S
  KeyValueBatchFromRedisWriteBatchBody : S → Status × S
  KeyValueBatchFromKuduRowOpsBody : S → Status × S
  NewDocRowwiseIterator : S → S

namespace Tablet

variable {S : Type}

/-- Tablet::Open.  The result none is a failed CHECK (the tablet is not in the
state kInitialized, or the schema has no column ids). -/
def Open (env : TabletEnv S) (t : Tablet S) : Option (Status × Tablet S) :=
  if t.state_ ≠ TabletState.kInitialized then none
  else if !env.schema_has_column_ids t.world then none
  else
    let r : Status × S :=
      match t.table_type_ with
      | TableType.YQL_TABLE_TYPE => env.OpenKeyValueTablet t.world
      | TableType.REDIS_TABLE_TYPE => env.OpenKeyValueTablet t.world
      | TableType.KUDU_COLUMNAR_TABLE_TYPE => env.OpenKuduColumnarTablet t.world
    if !r.1.ok then some (r.1, { t with world := r.2 })
    else some (Status.OK, { t with world := r.2, state_ := TabletState.kBootstrapping })

/-- Tablet::MarkFinishedBootstrapping.  The result none is the failed CHECK_EQ
on a tablet that is not bootstrapping. -/
def MarkFinishedBootstrapping (t : Tablet S) : Option (Tablet S) :=
  if t.state_ ≠ TabletState.kBootstrapping then none
  else some { t with state_ := TabletState.kOpen }

/-- Tablet::SetShutdownRequestedFlag. -/
def SetShutdownRequestedFlag (t : Tablet S) : Tablet S :=
  { t with shutdown_requested_ := true }

/-- Modelled from the spec: Tablet::IsShutdownRequested is defined in tablet.h;
it reads the flag that SetShutdownRequestedFlag stores. -/
def IsShutdownRequested (t : Tablet S) : Bool := t.shutdown_requested_

/-- Tablet::Shutdown.  The result none is the failed CHECK_OK when the pending
operations do not drain within the timeout. -/
def Shutdown (env : TabletEnv S) (t : Tablet S) : Option (Tablet S) :=
  let t1 := t.SetShutdownRequestedFlag
  let w1 := env.UnregisterMaintenanceOps t1.world
  if !(env.WaitForAllOpsToFinish w1 t1.pending_op_counter_).ok then none
  else some { t1 with world := env.ReleaseStorage w1, state_ := TabletState.kShutdown }

/-- The macro GUARD_AGAINST_ROCKSDB_SHUTDOWN around the rest of a function
body: IllegalState when shutdown has been requested; otherwise the body runs
under a ScopedPendingOperation, which (modelled from the spec, its class being
outside the sources) increments pending_op_counter_ for the duration of the
body. -/
def GuardAgainstRocksDBShutdown (t : Tablet S) (body : Tablet S → Status × Tablet S) :
    Status × Tablet S :=
  if t.IsShutdownRequested then (Status.IllegalState, t)
  else
    let r := body { t with pending_op_counter_ := t.pending_op_counter_ + 1 }
    (r.1, { r.2 with pending_op_counter_ := r.2.pending_op_counter_ - 1 })

/-- Tablet::CreateCheckpoint. -/
def CreateCheckpoint (env : TabletEnv S) (t : Tablet S) : Status × Tablet S :=
  GuardAgainstRocksDBShutdown t (fun t1 =>
    ((env.CreateCheckpointBody t1.world).1, { t1 with world := (env.CreateCheckpointBody t1.world).2 }))

/-- Tablet::HandleRedisReadRequest. -/
def HandleRedisReadRequest (env : TabletEnv S) (t : Tablet S) : Status × Tablet S :=
  GuardAgainstRocksDBShutdown t (fun t1 =>
    ((env.HandleRedisReadRequestBody t1.world).1,
     { t1 with world := (env.HandleRedisReadRequestBody t1.world).2 }))

/-- Tablet::HandleQLReadRequest. -/
def HandleQLReadRequest (env : TabletEnv S) (t : Tablet S) : Status × Tablet S :=
  GuardAgainstRocksDBShutdown t (fun t1 =>
    ((env.HandleQLReadRequestBody t1.world).1,
     { t1 with world := (env.HandleQLReadRequestBody t1.world).2 }))

/-- Tablet::KeyValueBatchFromRedisWriteBatch. -/
def KeyValueBatchFromRedisWriteBatch (env : TabletEnv S) (t : Tablet S) : Status × Tablet S :=
  GuardAgainstRocksDBShutdown t (fun t1 =>
    ((env.KeyValueBatchFromRedisWriteBatchBody t1.world).1,
     { t1 with world := (env.KeyValueBatchFromRedisWriteBatchBody t1.world).2 }))

/-- Tablet::KeyValueBatchFromKuduRowOps. -/
def KeyValueBatchFromKuduRowOps (env : TabletEnv S) (t : Tablet S) : Status × Tablet S :=
  GuardAgainstRocksDBShutdown t (fun t1 =>
    ((env.KeyValueBatchFromKuduRowOpsBody t1.world).1,
     { t1 with world := (env.KeyValueBatchFromKuduRowOpsBody t1.world).2 }))

/-- Tablet::QLCaptureConsistentIterators: one DocRowwiseIterator is created;
it is given &pending_op_counter_ and keeps the counter incremented while it
exists. -/
def QLCaptureConsistentIterators (env : TabletEnv S) (t : Tablet S) : Status × Tablet S :=
  GuardAgainstRocksDBShutdown t (fun t1 =>
    (Status.OK,
     { t1 with
       world := env.NewDocRowwiseIterator t1.world,
       pending_op_counter_ := t1.pending_op_counter_ + 1 }))

/-- Tablet::FlushUnlocked.  On a RocksDB-backed table the status of
rocksdb_->Flush is dropped. -/
def FlushUnlocked (env : TabletEnv S) (t : Tablet S) (mode : FlushMode) : Status × Tablet S :=
  if t.table_type_ ≠ TableType.KUDU_COLUMNAR_TABLE_TYPE then
    (Status.OK, { t with world := env.RocksDBFlush t.world mode })
  else
    let r := env.ReplaceMemRowSetUnlocked t.world
    if !r.1.ok then (r.1, { t with world := r.2 })
    else
      let f := env.FlushInternal (env.WaitForApplyingOperationsToCommit r.2)
      (f.1, { t with world := f.2 })

/-- Tablet::Flush: FlushUnlocked, on the legacy backend under rowsets_flush_sem_. -/
def Flush (env : TabletEnv S) (t : Tablet S) (mode : FlushMode) : Status × Tablet S :=
  if t.table_type_ ≠ TableType.KUDU_COLUMNAR_TABLE_TYPE then t.FlushUnlocked env mode
  else t.FlushUnlocked env mode

end Tablet

/-! ### Row mutations of a columnar tablet -/

/-- Modelled from the spec: RowChangeListDecoder is defined outside
tablet.cc; of a change list only the status of RowChangeListDecoder::Init and
the answer of is_reinsert() are kept. -/
structure RowChangeList where
  init_status : Status
  is_reinsert : Bool
deriving DecidableEq, Repr

/-- The default instance of OperationResultPB. -/
def OperationResultPB.empty : OperationResultPB :=
  { flushed := false, has_failed_status := false, mutated_stores := [] }

/-- Modelled from the spec: the outcome recorded on a RowOp by SetFailed and
SetMutateSucceeded, which are defined outside tablet.cc. -/
inductive RowOpResult where
  | unset
  | failed (s : Status)
  | mutated (result : OperationResultPB)
deriving DecidableEq, Repr

/-- The values of RowOperationsPB::Type. -/
inductive RowOperationType where
  | UNKNOWN
  | INSERT
  | UPDATE
  | DELETE
  | SPLIT_ROW
deriving DecidableEq, Repr

/-- A decoded row operation: its type (decoded_op.type), the key it probes,
its change list and its recorded outcome. -/
structure RowOp where
  type : RowOperationType
  key : Nat
  changelist : RowChangeList
  result : RowOpResult
deriving DecidableEq, Repr

/-- RowOp::SetFailed. -/
def RowOp.SetFailed (op : RowOp) (s : Status) : RowOp := { op with result := RowOpResult.failed s }

/-- Modelled from the spec: RowOp::SetAlreadyFlushed, defined outside the
sources, records a fresh result whose flushed flag is set. -/
def RowOp.SetAlreadyFlushed (op : RowOp) : RowOp :=
  { op with result := RowOpResult.mutated { OperationResultPB.empty with flushed := true } }

/-- The test op->result->has_failed_status() on a recorded result. -/
def RowOp.has_failed_status (op : RowOp) : Bool :=
  match op.result with
  | RowOpResult.failed _ => true
  | RowOpResult.mutated r => r.has_failed_status
  | RowOpResult.unset => false

/-- RowOp::SetMutateSucceeded. -/
def RowOp.SetMutateSucceeded (op : RowOp) (result : OperationResultPB) : RowOp :=
  { op with result := RowOpResult.mutated result }

/-- TabletComponents: the in-memory row set and the tree of on-disk row sets,
both named by handles. -/
structure TabletComponents where
  memrowset : Nat
  rowsets : Nat
deriving DecidableEq, Repr

/-- The row stores of a columnar tablet: MutateRow of a store (the
MemRowSet or a RowSet) on the world S, and the row sets of a tree whose key
range contains a key. -/
structure RowStoreEnv (S : Type) where
  MutateRow : S → Nat → Nat → RowChangeList → OperationResultPB → Status × OperationResultPB × S
  FindRowSetsWithKeyInRange : Nat → Nat → List Nat

/-- The probing of Tablet::MutateRowUnlocked: MutateRow on the stores in
order; the first status that is OK or an error other than NotFound ends it. -/
def MutateRowSets {S : Type} (env : RowStoreEnv S) (mutate : RowOp) :
    List Nat → OperationResultPB → S → Status × RowOp × S
  | [], _, w => (Status.NotFound, mutate.SetFailed Status.NotFound, w)
  | rs :: rest, result, w =>
    let m := env.MutateRow w rs mutate.key mutate.changelist result
    if m.1.ok then (m.1, mutate.SetMutateSucceeded m.2.1, m.2.2)
    else if m.1 ≠ Status.NotFound then (m.1, mutate.SetFailed m.1, m.2.2)
    else MutateRowSets env mutate rest m.2.1 m.2.2

/-- Tablet::MutateRowUnlocked: the status, the row operation and the world
after the call. -/
def MutateRowUnlocked {S : Type} (env : RowStoreEnv S) (comps : TabletComponents) (w : S)
    (mutate : RowOp) : Status × RowOp × S :=
  let s := mutate.changelist.init_status
  let s := if mutate.changelist.is_reinsert then Status.InvalidArgument else s
  if !s.ok then (s, mutate.SetFailed s, w)
  else
    let m := env.MutateRow w comps.memrowset mutate.key mutate.changelist
      OperationResultPB.empty
    if m.1.ok then (m.1, mutate.SetMutateSucceeded m.2.1, m.2.2)
    else if m.1 ≠ Status.NotFound then (m.1, mutate.SetFailed m.1, m.2.2)
    else
      MutateRowSets env mutate (env.FindRowSetsWithKeyInRange comps.rowsets mutate.key)
        m.2.1 m.2.2

/-- What the stores report when MutateRow is called on each of them in order,
each one on the result and the world left by the one before. -/
def ConsultStores {S : Type} (env : RowStoreEnv S) (key : Nat) (changelist : RowChangeList) :
    List Nat → OperationResultPB → S → List (Status × OperationResultPB × S)
  | [], _, _ => []
  | rs :: rest, result, w =>
    let m := env.MutateRow w rs key changelist result
    m :: ConsultStores env key changelist rest m.2.1 m.2.2

/-! ### The swap of row sets in the row-set tree -/

/-- Modelled from the spec: RowSetTree is defined outside tablet.cc; a tree
is the list all_rowsets() of its row sets, each named by its pointer. -/
structure RowSetTree where
  all_rowsets : List Nat
deriving DecidableEq, Repr

/-- The first loop of Tablet::ModifyRowSetTree over the row sets of the old
tree: the row sets that are not in rowsets_to_remove, in order (post_swap),
and the number of those that are (num_removed). -/
def ModifyRowSetTreeLoop (rowsets_to_remove : List Nat) : List Nat → List Nat × Nat
  | [] => ([], 0)
  | rs :: rest =>
    let should_remove := rowsets_to_remove.any (fun to_remove => decide (to_remove = rs))
    let r := ModifyRowSetTreeLoop rowsets_to_remove rest
    if should_remove then (r.1, r.2 + 1) else (rs :: r.1, r.2)

/-- Tablet::ModifyRowSetTree: the new tree.  Reset is the status of
RowSetTree::Reset on a list of row sets, after which (modelled from the spec)
the tree holds that list; none is a failed CHECK_EQ or CHECK_OK. -/
def ModifyRowSetTree (Reset : List Nat → Status) (old_tree : RowSetTree)
    (rowsets_to_remove rowsets_to_add : List Nat) : Option RowSetTree :=
  let r := ModifyRowSetTreeLoop rowsets_to_remove old_tree.all_rowsets
  if r.2 ≠ rowsets_to_remove.length then none
  else
    let post_swap := r.1 ++ rowsets_to_add
    if !(Reset post_swap).ok then none
    else some { all_rowsets := post_swap }

/-- Tablet::AtomicSwapRowSetsUnlocked on the components of the tablet, the
MemRowSet and the row-set tree. -/
def AtomicSwapRowSetsUnlocked (Reset : List Nat → Status) (table_type_ : TableType)
    (components_ : Nat × RowSetTree) (to_remove to_add : List Nat) :
    Option (Nat × RowSetTree) :=
  if table_type_ ≠ TableType.KUDU_COLUMNAR_TABLE_TYPE then some components_
  else
    (ModifyRowSetTree Reset components_.2 to_remove to_add).map
      (fun new_tree => (components_.1, new_tree))

/-! ### The document write path of a RocksDB-backed tablet -/

inductive IsolationLevel where
  | NON_TRANSACTIONAL
  | SNAPSHOT_ISOLATION
  | SERIALIZABLE_ISOLATION
deriving DecidableEq, Repr

/-- TransactionMetadataPB, reduced to the fields tablet.cc reads; the
transaction id is its byte string. -/
structure TransactionMetadataPB where
  has_transaction_id : Bool
  transaction_id : List Nat
  has_isolation : Bool
  isolation : IsolationLevel
deriving DecidableEq, Repr

/-- KeyValueWriteBatchPB: the optional transaction and the key-value pairs
the document operations produce. -/
structure KeyValueWriteBatchPB where
  has_transaction : Bool
  transaction : TransactionMetadataPB
  kv_pairs : List (Nat × Nat)
deriving DecidableEq, Repr

/-- The default instance of KeyValueWriteBatchPB. -/
def KeyValueWriteBatchPB.empty : KeyValueWriteBatchPB :=
  { has_transaction := false,
    transaction :=
      { has_transaction_id := false, transaction_id := [], has_isolation := false,
        isolation := IsolationLevel.NON_TRANSACTIONAL },
    kv_pairs := [] }

abbrev TransactionId := Nat

/-- The lock batch of a write: the keys locked; LockBatch() is the empty one. -/
abbrev LockBatch := List Nat

inductive QLStatus where
  | YQL_STATUS_OK
  | YQL_STATUS_SCHEMA_VERSION_MISMATCH
  | YQL_STATUS_RUNTIME_ERROR
deriving DecidableEq, Repr

structure QLWriteRequestPB where
  schema_version : Nat
  payload : Nat
deriving DecidableEq, Repr

structure QLResponsePB where
  status : QLStatus
  rows : Nat
deriving DecidableEq, Repr

/-- The default instance of QLResponsePB, as add_ql_response_batch creates it. -/
def QLResponsePB.empty : QLResponsePB := { status := QLStatus.YQL_STATUS_OK, rows := 0 }

/-- WriteRequestPB, reduced to the QL write batch and the key-value write
batch. -/
structure WriteRequestPB where
  ql_write_batch : List QLWriteRequestPB
  write_batch : KeyValueWriteBatchPB
deriving DecidableEq, Repr

structure WriteResponsePB where
  ql_response_batch : List QLResponsePB
deriving DecidableEq, Repr

/-- A docdb::QLWriteOperation as tablet.cc sees it: the request it was built
for, its response pointer as the position of the response in
ql_response_batch together with the content it has written there, its
transaction operation context and whether it holds a rowblock. -/
structure QLWriteOperation where
  request : QLWriteRequestPB
  response_index : Nat
  response : QLResponsePB
  txn_op_context : Option TransactionId
  has_rowblock : Bool
deriving DecidableEq, Repr

/-- The docdb and transaction collaborators of the write path, as operations
on the world S over document operations of type Op. -/
structure DocEnv (S Op : Type) where
  kInvalidHybridTime : HybridTime
  FullyDecodeTransactionId : List Nat → Except Status TransactionId
  GenerateTransactionId : S → TransactionId × S
  ParticipantMetadata : S → TransactionId → Option IsolationLevel
  PrepareDocWriteOperation :
    S → List Op → IsolationLevel → LockBatch → LockBatch × Bool × S
  SafeTimestampToRead : S → HybridTime
  ClockNow : S → HybridTime × S
  ClockUpdate : S → HybridTime → S
  ResolveOperationConflicts : S → List Op → HybridTime → Except Status HybridTime × S
  ApplyDocWriteOperation :
    S → List Op → HybridTime → KeyValueWriteBatchPB → Int →
      Status × S × List Op × KeyValueWriteBatchPB × Int
  ResolveTransactionConflicts : S → KeyValueWriteBatchPB → HybridTime → Status × S

/-- The function GetIsolationLevel of tablet.cc; Result<IsolationLevel> is
Except Status IsolationLevel. -/
def GetIsolationLevel {S Op : Type} (env : DocEnv S Op) (w : S)
    (write_batch : KeyValueWriteBatchPB) : Except Status IsolationLevel :=
  if !write_batch.has_transaction then Except.ok IsolationLevel.NON_TRANSACTIONAL
  else if write_batch.transaction.has_isolation then Except.ok write_batch.transaction.isolation
  else
    match env.FullyDecodeTransactionId write_batch.transaction.transaction_id with
    | Except.error s => Except.error s
    | Except.ok id =>
      match env.ParticipantMetadata w id with
      | none => Except.error Status.IllegalState
      | some isolation => Except.ok isolation

/-- The operator active_readers_cnt_[k] += d of std::map: a missing key starts
at 0. -/
def AddToReaderCount (m : List (HybridTime × Int)) (k : HybridTime) (d : Int) :
    List (HybridTime × Int) :=
  match m with
  | [] => [(k, d)]
  | (k2, c) :: rest =>
    if k < k2 then (k, d) :: (k2, c) :: rest
    else if k = k2 then (k2, c + d) :: rest
    else (k2, c) :: AddToReaderCount rest k d

/-- The count stored for a read point, none if the key is absent. -/
def ReaderCount (m : List (HybridTime × Int)) (k : HybridTime) : Option Int :=
  match m with
  | [] => none
  | (k2, c) :: rest => if k2 = k then some c else ReaderCount rest k

namespace Tablet

variable {S : Type}

/-- Tablet::RegisterReaderTimestamp. -/
def RegisterReaderTimestamp (t : Tablet S) (read_point : HybridTime) : Tablet S :=
  { t with active_readers_cnt_ := AddToReaderCount t.active_readers_cnt_ read_point 1 }

/-- Tablet::UnregisterReader. -/
def UnregisterReader (t : Tablet S) (timestamp : HybridTime) : Tablet S :=
  let m := AddToReaderCount t.active_readers_cnt_ timestamp (-1)
  if ReaderCount m timestamp = some 0 then
    { t with active_readers_cnt_ := m.filter (fun p => decide (p.1 ≠ timestamp)) }
  else { t with active_readers_cnt_ := m }

end Tablet

/-- The member compare_exchange_weak of std::atomic<int64_t> as the C++
standard defines it, seen from one thread: when the atomic holds the expected
value and the call does not fail spuriously the desired value is stored and
true is returned; otherwise the value held is loaded into expected and false
is returned.  Returns the answer, the atomic and expected. -/
def compare_exchange_weak (atomic expected desired : Int) (spurious : Bool) :
    Bool × Int × Int :=
  if atomic = expected ∧ spurious = false then (true, desired, expected)
  else (false, atomic, atomic)

/-- The loop of Tablet::UpdateMonotonicCounter on the atomic
monotonic_counter_ and the local counter.  The list tells for each call of
compare_exchange_weak whether it fails spuriously, no call failing so once
the list is used up; the fuel bounds the number of iterations. -/
def UpdateMonotonicCounterLoop (value : Int) : Nat → List Bool → Int → Int → Option Int
  | 0, _, _, _ => none
  | fuel + 1, spurious, monotonic_counter_, counter =>
    if counter ≥ value then some monotonic_counter_
    else
      let r := compare_exchange_weak monotonic_counter_ counter value (spurious.headD false)
      if r.1 then some r.2.1
      else UpdateMonotonicCounterLoop value fuel spurious.tail r.2.1 r.2.2

namespace Tablet

variable {S : Type}

/-- Tablet::UpdateMonotonicCounter, for the given spurious failures of
compare_exchange_weak; the fuel is one iteration per listed failure and two
more. -/
def UpdateMonotonicCounter (spurious : List Bool) (t : Tablet S) (value : Int) :
    Option (Tablet S) :=
  (UpdateMonotonicCounterLoop value (spurious.length + 2) spurious t.monotonic_counter_
      t.monotonic_counter_).map
    (fun counter => { t with monotonic_counter_ := counter })

/-- The tablet after a sequence of UpdateMonotonicCounter calls, each with its
spurious failures; none if one of them does not return. -/
def UpdateMonotonicCounters (t : Tablet S) : List (List Bool × Int) → Option (Tablet S)
  | [] => some t
  | (spurious, value) :: rest =>
    match t.UpdateMonotonicCounter spurious value with
    | none => none
    | some t1 => UpdateMonotonicCounters t1 rest

/-- Tablet::OldestReadPoint; SafeTimestampToRead is the MVCC safe read time. -/
def OldestReadPoint (SafeTimestampToRead : S → HybridTime) (t : Tablet S) : HybridTime :=
  match t.active_readers_cnt_ with
  | [] => SafeTimestampToRead t.world
  | (read_point, _) :: _ => read_point

end Tablet

/-- One call on the table of active readers. -/
inductive ReaderCall where
  | register (read_point : HybridTime)
  | unregister (timestamp : HybridTime)
deriving DecidableEq, Repr

/-- The effect of one call: RegisterReaderTimestamp or UnregisterReader. -/
def RunReaderCall {S : Type} (t : Tablet S) : ReaderCall → Tablet S
  | ReaderCall.register read_point => t.RegisterReaderTimestamp read_point
  | ReaderCall.unregister timestamp => t.UnregisterReader timestamp

/-- The tablet after a sequence of calls on the table of active readers. -/
def RunReaderCalls {S : Type} (t : Tablet S) : List ReaderCall → Tablet S
  | [] => t
  | call :: rest => RunReaderCalls (RunReaderCall t call) rest

/-- The number of registrations of a timestamp in a sequence of calls minus
the number of its unregistrations. -/
def NetRegistrations (ts : HybridTime) : List ReaderCall → Int
  | [] => 0
  | ReaderCall.register read_point :: rest =>
    (if read_point = ts then 1 else 0) + NetRegistrations ts rest
  | ReaderCall.unregister timestamp :: rest =>
    (if timestamp = ts then -1 else 0) + NetRegistrations ts rest

/-- Every unregistration of the calls still to come matches a registration of
the same timestamp made earlier (in done or in the calls before it) and not
yet unregistered. -/
def MatchedReaderCalls (done : List ReaderCall) : List ReaderCall → Bool
  | [] => true
  | ReaderCall.register read_point :: rest =>
    MatchedReaderCalls (done ++ [ReaderCall.register read_point]) rest
  | ReaderCall.unregister timestamp :: rest =>
    decide (0 < NetRegistrations timestamp done) &&
      MatchedReaderCalls (done ++ [ReaderCall.unregister timestamp]) rest

/-- What Tablet::StartDocWriteOperation leaves behind: the status, the tablet,
the caller's lock batch, the write batch and the document operations. -/
structure DocWriteResult (S Op : Type) where
  status : Status
  tablet : Tablet S
  keys_locked : LockBatch
  write_batch : KeyValueWriteBatchPB
  doc_ops : List Op

namespace Tablet

variable {S Op : Type}

/-- Tablet::StartDocWriteOperation from the conflict resolution of a
non-transactional write on (line 2487) to its end, with the read
operation, if any, still registered. -/
def ResolveApplyResolve (env : DocEnv S Op) (t : Tablet S) (doc_ops : List Op)
    (keys_locked : LockBatch) (write_batch : KeyValueWriteBatchPB)
    (isolation_level : IsolationLevel) (hybrid_time : HybridTime) : DocWriteResult S Op :=
  let conflicts : Status × S :=
    if isolation_level = IsolationLevel.NON_TRANSACTIONAL ∧ t.is_transactional then
      let now := env.ClockNow t.world
      let result := env.ResolveOperationConflicts now.2 doc_ops now.1
      match result.1 with
      | Except.error s => (s, result.2)
      | Except.ok resolved =>
        (Status.OK, if now.1 ≠ resolved then env.ClockUpdate result.2 resolved else result.2)
    else (Status.OK, t.world)
  if !conflicts.1.ok then
    { status := conflicts.1, tablet := { t with world := conflicts.2 },
      keys_locked := keys_locked, write_batch := write_batch, doc_ops := doc_ops }
  else
    let a := env.ApplyDocWriteOperation conflicts.2 doc_ops hybrid_time write_batch
      t.monotonic_counter_
    let t1 : Tablet S := { t with world := a.2.1, monotonic_counter_ := a.2.2.2.2 }
    if !a.1.ok then
      { status := a.1, tablet := t1, keys_locked := keys_locked,
        write_batch := a.2.2.2.1, doc_ops := a.2.2.1 }
    else if isolation_level ≠ IsolationLevel.NON_TRANSACTIONAL then
      let now := env.ClockNow t1.world
      let result := env.ResolveTransactionConflicts now.2 a.2.2.2.1 now.1
      if !result.1.ok then
        { status := result.1, tablet := { t1 with world := result.2 }, keys_locked := [],
          write_batch := a.2.2.2.1, doc_ops := a.2.2.1 }
      else
        { status := Status.OK, tablet := { t1 with world := result.2 },
          keys_locked := keys_locked, write_batch := a.2.2.2.1, doc_ops := a.2.2.1 }
    else
      { status := Status.OK, tablet := t1, keys_locked := keys_locked,
        write_batch := a.2.2.2.1, doc_ops := a.2.2.1 }

/-- Tablet::StartDocWriteOperation.  The ScopedReadOperation created when a
read snapshot is needed registers the safe read time on construction and
unregisters it when the function returns, on every path. -/
def StartDocWriteOperation (env : DocEnv S Op) (t : Tablet S) (doc_ops : List Op)
    (keys_locked : LockBatch) (write_batch : KeyValueWriteBatchPB) : DocWriteResult S Op :=
  match GetIsolationLevel env t.world write_batch with
  | Except.error s =>
    { status := s, tablet := t, keys_locked := keys_locked, write_batch := write_batch,
      doc_ops := doc_ops }
  | Except.ok isolation_level =>
    let p := env.PrepareDocWriteOperation t.world doc_ops isolation_level keys_locked
    let t1 : Tablet S := { t with world := p.2.2 }
    if p.2.1 then
      let timestamp := env.SafeTimestampToRead t1.world
      let r := ResolveApplyResolve env (t1.RegisterReaderTimestamp timestamp) doc_ops p.1
        write_batch isolation_level timestamp
      { r with tablet := r.tablet.UnregisterReader timestamp }
    else
      ResolveApplyResolve env t1 doc_ops p.1 write_batch isolation_level env.kInvalidHybridTime

end Tablet

/-- SetupKeyValueBatch: the write request is swapped into the batch request
and only the transaction is swapped back.  Returns the write request and the
batch request after the call. -/
def SetupKeyValueBatch (write_request : WriteRequestPB) : WriteRequestPB × WriteRequestPB :=
  if write_request.write_batch.has_transaction then
    ({ ql_write_batch := [],
       write_batch :=
         { KeyValueWriteBatchPB.empty with
           has_transaction := true, transaction := write_request.write_batch.transaction } },
     { write_request with
       write_batch :=
         { write_request.write_batch with
           transaction := KeyValueWriteBatchPB.empty.transaction } })
  else ({ ql_write_batch := [], write_batch := KeyValueWriteBatchPB.empty }, write_request)

/-- The loop of Tablet::KeyValueBatchFromQLWriteBatch over the requests of the
batch (lines 1068-1076): one response is added per request; a request with
another schema version has its response set to SCHEMA_VERSION_MISMATCH, every
other request gets a QLWriteOperation pointing at its response. -/
def BuildQLWriteOps (schema_version : Nat) (txn_op_ctx : Option TransactionId) :
    List QLWriteRequestPB → List QLResponsePB → List QLWriteOperation →
      List QLResponsePB × List QLWriteOperation
  | [], responses, doc_ops => (responses, doc_ops)
  | req :: rest, responses, doc_ops =>
    if schema_version ≠ req.schema_version then
      BuildQLWriteOps schema_version txn_op_ctx rest
        (responses ++
          [{ QLResponsePB.empty with status := QLStatus.YQL_STATUS_SCHEMA_VERSION_MISMATCH }])
        doc_ops
    else
      BuildQLWriteOps schema_version txn_op_ctx rest (responses ++ [QLResponsePB.empty])
        (doc_ops ++
          [{ request := req, response_index := responses.length,
             response := QLResponsePB.empty, txn_op_context := txn_op_ctx,
             has_rowblock := false }])

/-- The writes the executed operations made through their response pointers:
the response of the operation created at position j of doc_ops is the content
found in the j-th operation after the execution. -/
def StoreResponses (responses : List QLResponsePB) :
    List (QLWriteOperation × QLWriteOperation) → List QLResponsePB
  | [] => responses
  | (created, executed) :: rest =>
    StoreResponses (responses.set created.response_index executed.response) rest

/-- What Tablet::KeyValueBatchFromQLWriteBatch leaves behind. -/
structure QLBatchResult (S : Type) where
  status : Status
  tablet : Tablet S
  ql_write_request : WriteRequestPB
  keys_locked : LockBatch
  write_response : WriteResponsePB
  ql_write_ops : List QLWriteOperation

namespace Tablet

variable {S : Type}

/-- Tablet::CreateTransactionOperationContext(const TransactionMetadataPB&);
the context is identified by its transaction id. -/
def CreateTransactionOperationContext (env : DocEnv S QLWriteOperation) (t : Tablet S)
    (transaction_metadata : TransactionMetadataPB) :
    Except Status (Option TransactionId) × Tablet S :=
  if t.is_transactional then
    if transaction_metadata.has_transaction_id then
      match env.FullyDecodeTransactionId transaction_metadata.transaction_id with
      | Except.error s => (Except.error s, t)
      | Except.ok txn_id => (Except.ok (some txn_id), t)
    else
      let g := env.GenerateTransactionId t.world
      (Except.ok (some g.1), { t with world := g.2 })
  else (Except.ok none, t)

/-- Tablet::KeyValueBatchFromQLWriteBatch after the shutdown guard. -/
def KeyValueBatchFromQLWriteBatchBody (env : DocEnv S QLWriteOperation) (t : Tablet S)
    (ql_write_request : WriteRequestPB) (keys_locked : LockBatch)
    (write_response : WriteResponsePB) (ql_write_ops : List QLWriteOperation) :
    QLBatchResult S :=
  let setup := SetupKeyValueBatch ql_write_request
  let ql_write_batch := setup.2.ql_write_batch
  let c := t.CreateTransactionOperationContext env setup.1.write_batch.transaction
  match c.1 with
  | Except.error s =>
    { status := s, tablet := c.2, ql_write_request := setup.1, keys_locked := keys_locked,
      write_response := write_response, ql_write_ops := ql_write_ops }
  | Except.ok txn_op_ctx =>
    let built := BuildQLWriteOps t.schema_version txn_op_ctx ql_write_batch
      write_response.ql_response_batch []
    let r := c.2.StartDocWriteOperation env built.2 keys_locked setup.1.write_batch
    let responses := StoreResponses built.1 (built.2.zip r.doc_ops)
    if !r.status.ok then
      { status := r.status, tablet := r.tablet,
        ql_write_request := { setup.1 with write_batch := r.write_batch },
        keys_locked := r.keys_locked, write_response := { ql_response_batch := responses },
        ql_write_ops := ql_write_ops }
    else
      { status := Status.OK, tablet := r.tablet,
        ql_write_request := { setup.1 with write_batch := r.write_batch },
        keys_locked := r.keys_locked, write_response := { ql_response_batch := responses },
        ql_write_ops := ql_write_ops ++ r.doc_ops.filter (fun op => op.has_rowblock) }

/-- Tablet::KeyValueBatchFromQLWriteBatch. -/
def KeyValueBatchFromQLWriteBatch (env : DocEnv S QLWriteOperation) (t : Tablet S)
    (ql_write_request : WriteRequestPB) (keys_locked : LockBatch)
    (write_response : WriteResponsePB) (ql_write_ops : List QLWriteOperation) :
    QLBatchResult S :=
  if t.IsShutdownRequested then
    { status := Status.IllegalState, tablet := t, ql_write_request := ql_write_request,
      keys_locked := keys_locked, write_response := write_response,
      ql_write_ops := ql_write_ops }
  else
    let r := KeyValueBatchFromQLWriteBatchBody env
      { t with pending_op_counter_ := t.pending_op_counter_ + 1 } ql_write_request keys_locked
      write_response ql_write_ops
    { r with tablet := { r.tablet with pending_op_counter_ := r.tablet.pending_op_counter_ - 1 } }

end Tablet

/-! ### CompactRowSetsOp -/

/-- Modelled from the spec: MaintenanceOpStats is defined outside tablet.cc.
The statistics are valid once a setter has been called and invalid again
after Clear; of the figures only runnable and perf_improvement, the ones
tablet.cc sets, are kept. -/
structure MaintenanceOpStats where
  valid_ : Bool
  runnable_ : Bool
  perf_improvement_ : Int
deriving DecidableEq, Repr

namespace MaintenanceOpStats

/-- Modelled from the spec: the statistics of a new MaintenanceOpStats, and
the ones Clear leaves: not valid, every figure reset. -/
def Clear (_ : MaintenanceOpStats) : MaintenanceOpStats :=
  { valid_ := false, runnable_ := false, perf_improvement_ := 0 }

def valid (s : MaintenanceOpStats) : Bool := s.valid_

/-- Modelled from the spec: set_runnable stores the flag and marks the
statistics valid. -/
def set_runnable (s : MaintenanceOpStats) (runnable : Bool) : MaintenanceOpStats :=
  { s with valid_ := true, runnable_ := runnable }

/-- Modelled from the spec: set_perf_improvement stores the figure and marks
the statistics valid. -/
def set_perf_improvement (s : MaintenanceOpStats) (perf_improvement : Int) :
    MaintenanceOpStats :=
  { s with valid_ := true, perf_improvement_ := perf_improvement }

end MaintenanceOpStats

/-- What CompactRowSetsOp asks of the tablet and its metrics: the quality of
the best compaction found by the compaction policy (PickRowSets, which acts on
the world), and the tablet metrics if there are any, as the total counts of
flush_mrs_duration and compact_rs_duration. -/
structure CompactionEnv (S : Type) where
  PickRowSets : S → Int × S
  metrics : S → Option (Nat × Nat)

/-- Tablet::UpdateCompactionStats: the statistics and the tablet after the
call. -/
def Tablet.UpdateCompactionStats {S : Type} (env : CompactionEnv S) (t : Tablet S)
    (stats : MaintenanceOpStats) : MaintenanceOpStats × Tablet S :=
  if t.table_type_ ≠ TableType.KUDU_COLUMNAR_TABLE_TYPE then (stats, t)
  else
    let picked := env.PickRowSets t.world
    ((stats.set_runnable (decide (picked.1 ≥ 0))).set_perf_improvement picked.1,
     { t with world := picked.2 })

/-- The fields of CompactRowSetsOp that UpdateStats and Prepare use. -/
structure CompactRowSetsOp where
  prev_stats_ : MaintenanceOpStats
  last_num_mrs_flushed_ : Nat
  last_num_rs_compacted_ : Nat
deriving DecidableEq, Repr

namespace CompactRowSetsOp

/-- The constructor of CompactRowSetsOp: both counts 0, statistics not yet
valid. -/
def new : CompactRowSetsOp :=
  { prev_stats_ := { valid_ := false, runnable_ := false, perf_improvement_ := 0 },
    last_num_mrs_flushed_ := 0, last_num_rs_compacted_ := 0 }

/-- CompactRowSetsOp::UpdateStats: the operation, the statistics handed to the
caller and the tablet after the call. -/
def UpdateStats {S : Type} (env : CompactionEnv S) (t : Tablet S) (op : CompactRowSetsOp) :
    CompactRowSetsOp × MaintenanceOpStats × Tablet S :=
  match env.metrics t.world with
  | some (new_num_mrs_flushed, new_num_rs_compacted) =>
    if op.prev_stats_.valid ∧ new_num_mrs_flushed = op.last_num_mrs_flushed_ ∧
        new_num_rs_compacted = op.last_num_rs_compacted_ then
      (op, op.prev_stats_, t)
    else
      let u := t.UpdateCompactionStats env op.prev_stats_
      ({ prev_stats_ := u.1, last_num_mrs_flushed_ := new_num_mrs_flushed,
         last_num_rs_compacted_ := new_num_rs_compacted }, u.1, u.2)
  | none =>
    let u := t.UpdateCompactionStats env op.prev_stats_
    ({ op with prev_stats_ := u.1 }, u.1, u.2)

/-- CompactRowSetsOp::Prepare. -/
def Prepare (op : CompactRowSetsOp) : Bool × CompactRowSetsOp :=
  (true, { op with prev_stats_ := op.prev_stats_.Clear })

end CompactRowSetsOp

/-- One call on a tablet, for sequences of calls. -/
inductive TabletCall where
  | Open
  | MarkFinishedBootstrapping
  | Shutdown
  | SetShutdownRequestedFlag
  | CreateCheckpoint
  | HandleRedisReadRequest
  | HandleQLReadRequest
  | KeyValueBatchFromRedisWriteBatch
  | KeyValueBatchFromKuduRowOps
  | QLCaptureConsistentIterators
  | Flush (mode : FlushMode)
deriving DecidableEq, Repr

/-- The tablet after one call, whatever status the call returns; none when a
CHECK aborts the process. -/
def RunTabletCall {S : Type} (env : TabletEnv S) (t : Tablet S) : TabletCall → Option (Tablet S)
  | TabletCall.Open => (t.Open env).map (fun r => r.2)
  | TabletCall.MarkFinishedBootstrapping => t.MarkFinishedBootstrapping
  | TabletCall.Shutdown => t.Shutdown env
  | TabletCall.SetShutdownRequestedFlag => some t.SetShutdownRequestedFlag
  | TabletCall.CreateCheckpoint => some (t.CreateCheckpoint env).2
  | TabletCall.HandleRedisReadRequest => some (t.HandleRedisReadRequest env).2
  | TabletCall.HandleQLReadRequest => some (t.HandleQLReadRequest env).2
  | TabletCall.KeyValueBatchFromRedisWriteBatch => some (t.KeyValueBatchFromRedisWriteBatch env).2
  | TabletCall.KeyValueBatchFromKuduRowOps => some (t.KeyValueBatchFromKuduRowOps env).2
  | TabletCall.QLCaptureConsistentIterators => some (t.QLCaptureConsistentIterators env).2
  | TabletCall.Flush mode => some (t.Flush env mode).2

/-- The tablets after each call of a sequence of calls; the sequence ends
early when a CHECK aborts the process. -/
def RunTabletCalls {S : Type} (env : TabletEnv S) (t : Tablet S) :
    List TabletCall → List (Tablet S)
  | [] => []
  | call :: rest =>
    match RunTabletCall env t call with
    | none => []
    | some t1 => t1 :: RunTabletCalls env t1 rest

/-! ## Write replay on the legacy backend (tablet_bootstrap.cc) -/

/-- What the write replay asks of the tablet: Tablet::ApplyKuduRowOperation on
the world, giving the operation with its result recorded, and StatusFromPB of
the failed_status of an original operation result (a field this file does not
keep in OperationResultPB). -/
structure RowReplayEnv (W : Type) where
  ApplyKuduRowOperation : W → RowOp → RowOp × W
  StatusFromPB : OperationResultPB → Status

namespace TabletBootstrap

variable {W : Type}

/-- TabletBootstrap::FilterInsert. -/
def FilterInsert (tb : TabletBootstrap W) (op : RowOp) (op_result : Option OperationResultPB) :
    Status × TabletBootstrap W × RowOp :=
  match op_result with
  | none => (Status.OK, tb, op)
  | some r =>
    match r.mutated_stores with
    | [store] =>
      if !store.has_mrs_id then (Status.Corruption, tb, op)
      else if tb.flushed_stores_.WasStoreAlreadyFlushed store then
        (Status.OK,
         { tb with
           stats_ := { tb.stats_ with inserts_ignored := tb.stats_.inserts_ignored + 1 } },
         op.SetAlreadyFlushed)
      else (Status.OK, tb, op)
    | _ => (Status.Corruption, tb, op)

/-- The count num_unflushed_stores of FilterMutate. -/
def NumUnflushedStores (fs : FlushedStoresSnapshot) (stores : List MemStoreTargetPB) : Nat :=
  (stores.filter (fun mutated_store => !fs.WasStoreAlreadyFlushed mutated_store)).length

/-- TabletBootstrap::FilterMutate.  The LOG(DFATAL) of the case where both
targets are unflushed only logs in a release build. -/
def FilterMutate (tb : TabletBootstrap W) (op : RowOp) (op_result : Option OperationResultPB) :
    Status × TabletBootstrap W × RowOp :=
  match op_result with
  | none => (Status.OK, tb, op)
  | some r =>
    let num_mutated_stores := r.mutated_stores.length
    if num_mutated_stores = 0 ∨ num_mutated_stores > 2 then (Status.Corruption, tb, op)
    else
      let num_unflushed_stores := NumUnflushedStores tb.flushed_stores_ r.mutated_stores
      if num_unflushed_stores = 0 then
        (Status.OK,
         { tb with
           stats_ := { tb.stats_ with mutations_ignored := tb.stats_.mutations_ignored + 1 } },
         op.SetFailed Status.AlreadyPresent)
      else (Status.OK, tb, op)

/-- The end of the loop body of FilterAndApplyOperations (lines 1229-1246): an
operation that already has a result is left alone, any other is applied; none
is the use of a result that ApplyKuduRowOperation did not record. -/
def ApplyUnlessFiltered (env : RowReplayEnv W) (tb : TabletBootstrap W) (op : RowOp) :
    Option (Status × TabletBootstrap W × RowOp) :=
  if op.result ≠ RowOpResult.unset then some (Status.OK, tb, op)
  else
    let a := env.ApplyKuduRowOperation tb.world op
    if a.1.result = RowOpResult.unset then none
    else if a.1.has_failed_status then some (Status.Corruption, { tb with world := a.2 }, a.1)
    else some (Status.OK, { tb with world := a.2 }, a.1)

/-- The body of the loop of FilterAndApplyOperations for one operation and its
original result, if any.  The status OK stands for the next iteration, any
other status is returned by the function; none is the LOG(FATAL) on an
operation that is neither an INSERT nor an UPDATE or DELETE. -/
def FilterAndApplyOne (env : RowReplayEnv W) (tb : TabletBootstrap W) (op : RowOp)
    (orig_op_result : Option OperationResultPB) :
    Option (Status × TabletBootstrap W × RowOp) :=
  if (orig_op_result.map (fun r => r.has_failed_status)).getD false then
    some (Status.OK, tb,
      op.SetFailed (env.StatusFromPB (orig_op_result.getD OperationResultPB.empty)))
  else
    match op.type with
    | RowOperationType.INSERT =>
      let tb1 : TabletBootstrap W :=
        { tb with stats_ := { tb.stats_ with inserts_seen := tb.stats_.inserts_seen + 1 } }
      if (orig_op_result.map (fun r => !r.flushed)).getD true then
        let f := FilterInsert tb1 op orig_op_result
        if !f.1.ok then some f else ApplyUnlessFiltered env f.2.1 f.2.2
      else
        some (Status.OK,
          { tb1 with
            stats_ := { tb1.stats_ with inserts_ignored := tb1.stats_.inserts_ignored + 1 } },
          op.SetAlreadyFlushed)
    | RowOperationType.UPDATE | RowOperationType.DELETE =>
      let tb1 : TabletBootstrap W :=
        { tb with stats_ := { tb.stats_ with mutations_seen := tb.stats_.mutations_seen + 1 } }
      if (orig_op_result.map (fun r => !r.flushed)).getD true then
        let f := FilterMutate tb1 op orig_op_result
        if !f.1.ok then some f else ApplyUnlessFiltered env f.2.1 f.2.2
      else
        some (Status.OK,
          { tb1 with
            stats_ :=
              { tb1.stats_ with mutations_ignored := tb1.stats_.mutations_ignored + 1 } },
          op.SetAlreadyFlushed)
    | _ => none

/-- TabletBootstrap::FilterAndApplyOperations over the row operations still
to be visited and the original results from op_idx on (none when there is no
original result).  Returns the status, the bootstrap and the row operations;
none is a process abort (LOG(FATAL), or an index past the original results). -/
def FilterAndApplyOperations (env : RowReplayEnv W) (tb : TabletBootstrap W) :
    List RowOp → Option (List OperationResultPB) →
      Option (Status × TabletBootstrap W × List RowOp)
  | [], _ => some (Status.OK, tb, [])
  | op :: rest, orig_result =>
    match orig_result with
    | some [] => none
    | _ =>
      match FilterAndApplyOne env tb op (orig_result.bind (fun l => l.head?)) with
      | none => none
      | some (Status.OK, tb1, op1) =>
        (FilterAndApplyOperations env tb1 rest (orig_result.map (fun l => l.tail))).map
          (fun r => (r.1, r.2.1, op1 :: r.2.2))
      | some (s, tb1, op1) => some (s, tb1, op1 :: rest)

end TabletBootstrap

/-! ## Replay of a configuration change (tablet_bootstrap.cc) -/

/-- RaftConfigPB, reduced to opid_index and the peers; opid_index is the value
returned by the protobuf accessor, 0 when the field is not set. -/
structure RaftConfigPB where
  has_opid_index : Bool
  opid_index : Int
  peers : List Nat
deriving DecidableEq, Repr

/-- The consensus metadata cmeta_ as the replay uses it: the committed
configuration. -/
structure ConsensusMetadata where
  committed_config : RaftConfigPB
deriving DecidableEq, Repr

/-- TabletBootstrap::PlayChangeConfigRequest.  The configuration new_config is
change_config_record().new_config() of the replicate message, a field the
ReplicateMsg of this file does not keep; AppendCommitMsg acts on the log. -/
def PlayChangeConfigRequest {W : Type} (AppendCommitMsg : W → CommitMsg → Status × W)
    (cmeta : ConsensusMetadata) (w : W) (replicate_msg : ReplicateMsg)
    (new_config : RaftConfigPB) (commit_msg : Option CommitMsg) :
    Status × ConsensusMetadata × W :=
  let config := new_config
  let cmeta_opid_index := cmeta.committed_config.opid_index
  let cmeta1 : ConsensusMetadata :=
    if replicate_msg.id.index > cmeta_opid_index then
      { cmeta with
        committed_config :=
          { config with has_opid_index := true, opid_index := replicate_msg.id.index } }
    else cmeta
  match commit_msg with
  | none => (Status.OK, cmeta1, w)
  | some c => ((AppendCommitMsg w c).1, cmeta1, (AppendCommitMsg w c).2)

/-- The consensus metadata and the world after a sequence of
PlayChangeConfigRequest calls, whatever status each call returns. -/
def PlayChangeConfigRequests {W : Type} (AppendCommitMsg : W → CommitMsg → Status × W) :
    ConsensusMetadata → W → List (ReplicateMsg × RaftConfigPB × Option CommitMsg) →
      ConsensusMetadata × W
  | cmeta, w, [] => (cmeta, w)
  | cmeta, w, (replicate_msg, new_config, commit_msg) :: rest =>
    let r := PlayChangeConfigRequest AppendCommitMsg cmeta w replicate_msg new_config commit_msg
    PlayChangeConfigRequests AppendCommitMsg r.2.1 r.2.2 rest

/-! ## PTQualifiedName (yb/ql/ptree/pt_name.cc) -/

/-- The object types AnalyzeName switches on. -/
inductive ObjectType where
  | OBJECT_SCHEMA
  | OBJECT_TABLE
  | OBJECT_TYPE
  | OBJECT_AGGREGATE
  | OBJECT_AMOP
  | OBJECT_AMPROC
  | OBJECT_ATTRIBUTE
  | OBJECT_CAST
  | OBJECT_COLUMN
  | OBJECT_COLLATION
  | OBJECT_CONVERSION
  | OBJECT_DATABASE
  | OBJECT_DEFAULT
  | OBJECT_DEFACL
  | OBJECT_DOMAIN
  | OBJECT_DOMCONSTRAINT
  | OBJECT_EVENT_TRIGGER
  | OBJECT_EXTENSION
  | OBJECT_FDW
  | OBJECT_FOREIGN_SERVER
  | OBJECT_FOREIGN_TABLE
  | OBJECT_FUNCTION
  | OBJECT_INDEX
  | OBJECT_LANGUAGE
  | OBJECT_LARGEOBJECT
  | OBJECT_MATVIEW
  | OBJECT_OPCLASS
  | OBJECT_OPERATOR
  | OBJECT_OPFAMILY
  | OBJECT_POLICY
  | OBJECT_ROLE
  | OBJECT_RULE
  | OBJECT_SEQUENCE
  | OBJECT_TABCONSTRAINT
  | OBJECT_TABLESPACE
  | OBJECT_TRANSFORM
  | OBJECT_TRIGGER
  | OBJECT_TSCONFIGURATION
  | OBJECT_TSDICTIONARY
  | OBJECT_TSPARSER
  | OBJECT_TSTEMPLATE
  | OBJECT_USER_MAPPING
  | OBJECT_VIEW
deriving DecidableEq, Repr

/-- The error codes AnalyzeName reports; SUCCESS is the code of Status::OK(). -/
inductive ErrorCode where
  | SUCCESS
  | INVALID_ARGUMENTS
  | SQL_STATEMENT_INVALID
  | NO_NAMESPACE_USED
  | FEATURE_NOT_SUPPORTED
deriving DecidableEq, Repr

/-- The semantic context as AnalyzeName reads it: the current keyspace. -/
structure SemContext where
  current_keyspace : String
deriving DecidableEq, Repr

/-- A qualified name: the names of its components (ptnames_), first one
first. -/
structure PTQualifiedName where
  ptnames_ : List String
deriving DecidableEq, Repr

/-- The member c_str() of std::string followed by the construction of a
string from it: the characters before the first NUL. -/
def c_str (s : String) : String :=
  String.mk (s.data.takeWhile (fun ch => decide (ch ≠ Char.ofNat 0)))

namespace PTQualifiedName

/-- PTQualifiedName::Append. -/
def Append (n : PTQualifiedName) (ptname : String) : PTQualifiedName :=
  { ptnames_ := n.ptnames_ ++ [ptname] }

/-- PTQualifiedName::Prepend. -/
def Prepend (n : PTQualifiedName) (ptname : String) : PTQualifiedName :=
  { ptnames_ := ptname :: n.ptnames_ }

/-- The constructors of PTQualifiedName: a name of one component. -/
def new (ptname : String) : PTQualifiedName := Append { ptnames_ := [] } ptname

/-- PTQualifiedName::Analyze, as the error code of the status returned. -/
def Analyze (n : PTQualifiedName) : ErrorCode :=
  if n.ptnames_.length ≥ 3 then ErrorCode.FEATURE_NOT_SUPPORTED else ErrorCode.SUCCESS

/-- The test of the reserved keyspace at the end of a case of AnalyzeName;
none is front() on an empty list, which is undefined. -/
def CheckReservedKeyspace (kRedisKeyspaceName : String) (n : PTQualifiedName) :
    Option (ErrorCode × PTQualifiedName) :=
  match n.ptnames_ with
  | [] => none
  | front :: _ =>
    if front = kRedisKeyspaceName then some (ErrorCode.INVALID_ARGUMENTS, n)
    else some (ErrorCode.SUCCESS, n)

/-- PTQualifiedName::AnalyzeName: the error code of the status returned
(modelled from the spec: SemContext::Error, defined outside the sources,
returns a status with the code it is given) and the name after the call.
The constant kRedisKeyspaceName comes from a header outside the sources. -/
def AnalyzeName (kRedisKeyspaceName : String) (sem_context : SemContext)
    (n : PTQualifiedName) (object_type : ObjectType) : Option (ErrorCode × PTQualifiedName) :=
  match object_type with
  | ObjectType.OBJECT_SCHEMA =>
    if n.ptnames_.length ≠ 1 then some (ErrorCode.INVALID_ARGUMENTS, n)
    else CheckReservedKeyspace kRedisKeyspaceName n
  | ObjectType.OBJECT_TABLE | ObjectType.OBJECT_TYPE =>
    if n.ptnames_.length > 2 then some (ErrorCode.SQL_STATEMENT_INVALID, n)
    else if n.ptnames_.length = 1 then
      let current_keyspace := sem_context.current_keyspace
      if current_keyspace = "" then some (ErrorCode.NO_NAMESPACE_USED, n)
      else CheckReservedKeyspace kRedisKeyspaceName (n.Prepend (c_str current_keyspace))
    else CheckReservedKeyspace kRedisKeyspaceName n
  | _ => some (ErrorCode.FEATURE_NOT_SUPPORTED, n)

end PTQualifiedName

/-! ## Sequences of replay calls -/

/-- One call made on the replay state while a log is played. -/
inductive ReplayCall where
  | replicate (entry : LogEntryPB)
  | commit (entry : LogEntryPB)
deriving DecidableEq, Repr

/-- The effect of one call: HandleReplicateMessage or HandleCommitMessage. -/
def RunCall {W : Type} (env : Env W) (tb : TabletBootstrap W) (state : ReplayState)
    (call : ReplayCall) : Option (Status × TabletBootstrap W × ReplayState) :=
  match call with
  | ReplayCall.replicate entry => TabletBootstrap.HandleReplicateMessage env tb state entry
  | ReplayCall.commit entry => TabletBootstrap.HandleCommitMessage env tb state entry

/-- The replay states after each call of a sequence of calls, whatever status
each call returns; the sequence ends early when a CHECK aborts the process. -/
def RunCalls {W : Type} (env : Env W) (tb : TabletBootstrap W) (state : ReplayState) :
    List ReplayCall → List ReplayState
  | [] => []
  | call :: rest =>
    match RunCall env tb state call with
    | none => []
    | some r => r.2.2 :: RunCalls env r.2.1 r.2.2 rest

/-- The status HandleEntry returns for each entry of a sequence fed to it one
after the other, as the replay loop does: the sequence ends at the first
status that is not OK; none is a failed CHECK. -/
def EntryOutcomes {W : Type} (env : Env W) (tb : TabletBootstrap W) (state : ReplayState) :
    List LogEntryPB → List (Option Status)
  | [] => []
  | entry :: rest =>
    match TabletBootstrap.HandleEntry env tb state entry with
    | none => [none]
    | some (Status.OK, tb1, state1) => some Status.OK :: EntryOutcomes env tb1 state1 rest
    | some (s, _, _) => [some s]

/-! ## Two runs of the replay -/

/-- Two runs see the same collaborators: on worlds related by R the two
environments have the same table type and constants, return the same statuses
and values, and leave worlds related by R. -/
structure EnvAgree {W1 W2 : Type} (R : W1 → W2 → Prop) (e1 : Env W1) (e2 : Env W2) :
    Prop where
  table_type : e1.table_type = e2.table_type
  kUnknownTerm : e1.kUnknownTerm = e2.kUnknownTerm
  kMin : e1.kMin = e2.kMin
  max_clock_sync_error_usec : e1.max_clock_sync_error_usec = e2.max_clock_sync_error_usec
  AddPhysicalTimeToHybridTime :
    e1.AddPhysicalTimeToHybridTime = e2.AddPhysicalTimeToHybridTime
  UpdateClock : ∀ w1 w2 h, R w1 w2 → R (e1.UpdateClock w1 h) (e2.UpdateClock w2 h)
  UpdateMonotonicCounter :
    ∀ w1 w2 c, R w1 w2 → R (e1.UpdateMonotonicCounter w1 c) (e2.UpdateMonotonicCounter w2 c)
  LogAppend :
    ∀ w1 w2 entry, R w1 w2 →
      (e1.LogAppend w1 entry).1 = (e2.LogAppend w2 entry).1 ∧
      R (e1.LogAppend w1 entry).2 (e2.LogAppend w2 entry).2
  Play :
    ∀ w1 w2 op_type replicate commit, R w1 w2 →
      (e1.Play w1 op_type replicate commit).1 = (e2.Play w2 op_type replicate commit).1 ∧
      R (e1.Play w1 op_type replicate commit).2 (e2.Play w2 op_type replicate commit).2
  OfflineAdjustSafeTime :
    ∀ w1 w2 h, R w1 w2 → R (e1.OfflineAdjustSafeTime w1 h) (e2.OfflineAdjustSafeTime w2 h)
  GetMaxSafeTimeToReadAt :
    ∀ w1 w2, R w1 w2 → e1.GetMaxSafeTimeToReadAt w1 = e2.GetMaxSafeTimeToReadAt w2
  MaxPersistentOpId : ∀ w1 w2, R w1 w2 → e1.MaxPersistentOpId w1 = e2.MaxPersistentOpId w2
  RewindSchemaForBootstrap :
    ∀ w1 w2 segment, R w1 w2 →
      (e1.RewindSchemaForBootstrap w1 segment).1 = (e2.RewindSchemaForBootstrap w2 segment).1 ∧
      R (e1.RewindSchemaForBootstrap w1 segment).2 (e2.RewindSchemaForBootstrap w2 segment).2
  OpenNewLog :
    ∀ w1 w2, R w1 w2 →
      (e1.OpenNewLog w1).1 = (e2.OpenNewLog w2).1 ∧ R (e1.OpenNewLog w1).2 (e2.OpenNewLog w2).2

/-- Two bootstraps in the same situation: worlds related by R, the same
statistics and the same snapshot of flushed stores. -/
def TbAgree {W1 W2 : Type} (R : W1 → W2 → Prop) (tb1 : TabletBootstrap W1)
    (tb2 : TabletBootstrap W2) : Prop :=
  R tb1.world tb2.world ∧ tb1.stats_ = tb2.stats_ ∧ tb1.flushed_stores_ = tb2.flushed_stores_

/-- Two runs end alike: both abort on a CHECK, or both return the same status
and the same result (the replay state, or the consensus bootstrap information)
with bootstraps in the same situation. -/
def OutcomeAgree {W1 W2 α : Type} (R : W1 → W2 → Prop) :
    Option (Status × TabletBootstrap W1 × α) → Option (Status × TabletBootstrap W2 × α) → Prop
  | none, none => True
  | some a, some b => a.1 = b.1 ∧ TbAgree R a.2.1 b.2.1 ∧ a.2.2 = b.2.2
  | _, _ => False

/-! ## Concrete inputs used by the witnesses -/

/-- An environment whose world is the list of raft indexes replayed so far;
every collaborator call succeeds. -/
def sampleEnv (table_type : TableType) : Env (List Int) :=
  { table_type := table_type, kUnknownTerm := -1, kMin := 0, max_clock_sync_error_usec := 0,
    UpdateClock := fun w _ => w,
    UpdateMonotonicCounter := fun w _ => w,
    LogAppend := fun w _ => (Status.OK, w),
    Play := fun w _ r _ => (Status.OK, w ++ [r.id.index]),
    AddPhysicalTimeToHybridTime := fun h _ => h,
    OfflineAdjustSafeTime := fun w _ => w,
    GetMaxSafeTimeToReadAt := fun _ => 1,
    MaxPersistentOpId := fun _ => ⟨1, 2⟩,
    RewindSchemaForBootstrap := fun w _ => (Status.OK, w),
    OpenNewLog := fun w => (Status.OK, w) }

/-- An environment that keeps no record of what was replayed (its world is
Unit) and answers every collaborator call as sampleEnv does. -/
def quietEnv (table_type : TableType) : Env Unit :=
  { table_type := table_type, kUnknownTerm := -1, kMin := 0, max_clock_sync_error_usec := 0,
    UpdateClock := fun w _ => w,
    UpdateMonotonicCounter := fun w _ => w,
    LogAppend := fun w _ => (Status.OK, w),
    Play := fun w _ _ _ => (Status.OK, w),
    AddPhysicalTimeToHybridTime := fun h _ => h,
    OfflineAdjustSafeTime := fun w _ => w,
    GetMaxSafeTimeToReadAt := fun _ => 1,
    MaxPersistentOpId := fun _ => ⟨1, 2⟩,
    RewindSchemaForBootstrap := fun w _ => (Status.OK, w),
    OpenNewLog := fun w => (Status.OK, w) }

/-- A REPLICATE log entry for a write with the given id and piggybacked
committed OpId. -/
def replicateEntry (id committed : OpId) : LogEntryPB :=
  { type := LogEntryTypePB.REPLICATE,
    replicate :=
      { id := id, hybrid_time := 0, op_type := OperationType.WRITE_OP,
        has_committed_op_id := true, committed_op_id := committed, monotonic_counter := 0,
        external_consistency_mode := ExternalConsistencyMode.CLIENT_PROPAGATED },
    has_commit := false,
    commit := { op_type := OperationType.UNKNOWN_OP, commited_op_id := MinimumOpId, result := [] } }

/-- A COMMIT log entry for the write with the given id and operation results. -/
def commitEntry (id : OpId) (result : List OperationResultPB) : LogEntryPB :=
  { type := LogEntryTypePB.COMMIT,
    replicate :=
      { id := MinimumOpId, hybrid_time := 0, op_type := OperationType.UNKNOWN_OP,
        has_committed_op_id := false, committed_op_id := MinimumOpId, monotonic_counter := 0,
        external_consistency_mode := ExternalConsistencyMode.CLIENT_PROPAGATED },
    has_commit := true,
    commit := { op_type := OperationType.WRITE_OP, commited_op_id := id, result := result } }

/-- A bootstrap that has replayed nothing, with the given snapshot of flushed
stores. -/
def freshBootstrap (fs : FlushedStoresSnapshot) : TabletBootstrap (List Int) :=
  { world := [], stats_ := ⟨0, 0, 0, 0, 0, 0, 0, 0⟩, flushed_stores_ := fs }

/-- The replay state PlaySegments starts from on the legacy backend. -/
def legacyStart : ReplayState := ReplayState.new (-1) 0 MinimumOpId

/-- The storage operations recorded by the sample tablet environment. -/
inductive StorageOp where
  | opened
  | flushed
  | checkpointed
  | read
  | written
  | iterated
  | released
deriving DecidableEq, Repr

/-- A tablet environment whose world is the list of storage operations
performed so far; every collaborator call succeeds. -/
def sampleTabletEnv : TabletEnv (List StorageOp) :=
  { schema_has_column_ids := fun _ => true,
    OpenKeyValueTablet := fun w => (Status.OK, w ++ [StorageOp.opened]),
    OpenKuduColumnarTablet := fun w => (Status.OK, w ++ [StorageOp.opened]),
    UnregisterMaintenanceOps := fun w => w,
    WaitForAllOpsToFinish := fun _ n => if n = 0 then Status.OK else Status.IOError,
    ReleaseStorage := fun w => w ++ [StorageOp.released],
    RocksDBFlush := fun w _ => w ++ [StorageOp.flushed],
    ReplaceMemRowSetUnlocked := fun w => (Status.OK, w),
    WaitForApplyingOperationsToCommit := fun w => w,
    FlushInternal := fun w => (Status.OK, w ++ [StorageOp.flushed]),
    CreateCheckpointBody := fun w => (Status.OK, w ++ [StorageOp.checkpointed]),
    HandleRedisReadRequestBody := fun w => (Status.OK, w ++ [StorageOp.read]),
    HandleQLReadRequestBody := fun w => (Status.OK, w ++ [StorageOp.read]),
    KeyValueBatchFromRedisWriteBatchBody := fun w => (Status.OK, w ++ [StorageOp.written]),
    KeyValueBatchFromKuduRowOpsBody := fun w => (Status.OK, w ++ [StorageOp.written]),
    NewDocRowwiseIterator := fun w => w ++ [StorageOp.iterated] }

/-- A tablet of the given table type as its constructor leaves it: state
kInitialized, no shutdown requested, no pending operation. -/
def freshTablet (table_type : TableType) : Tablet (List StorageOp) :=
  { table_type_ := table_type, state_ := TabletState.kInitialized,
    shutdown_requested_ := false, pending_op_counter_ := 0, schema_version := 7,
    is_transactional := false, monotonic_counter_ := 0, active_readers_cnt_ := [],
    world := [] }

/-- An open RocksDB-backed tablet on which shutdown has just been requested. -/
def shutdownRequestedTablet : Tablet (List StorageOp) :=
  { freshTablet TableType.YQL_TABLE_TYPE with
    state_ := TabletState.kOpen, shutdown_requested_ := true,
    world := [StorageOp.opened] }

/-- A docdb environment over the same world: a transaction id decodes from a
single byte, the participant knows transaction 1 only (snapshot isolation),
every operation locks the key named by its payload and needs a read snapshot,
applying an operation writes one key-value pair and one row into its
response, and the transaction conflict resolution returns the given status. -/
def sampleDocEnv (conflict : Status) : DocEnv (List StorageOp) QLWriteOperation :=
  { kInvalidHybridTime := 0,
    FullyDecodeTransactionId := fun bytes =>
      match bytes with
      | [id] => Except.ok id
      | _ => Except.error Status.Corruption,
    GenerateTransactionId := fun w => (99, w),
    ParticipantMetadata := fun _ id =>
      if id = 1 then some IsolationLevel.SNAPSHOT_ISOLATION else none,
    PrepareDocWriteOperation := fun w ops _ _ =>
      (ops.map (fun op => op.request.payload), true, w),
    SafeTimestampToRead := fun w => 10 + w.length,
    ClockNow := fun w => (20, w),
    ClockUpdate := fun w _ => w,
    ResolveOperationConflicts := fun w _ now => (Except.ok now, w),
    ApplyDocWriteOperation := fun w ops _ wb counter =>
      (Status.OK, w ++ [StorageOp.written],
       ops.map (fun op => { op with response := { op.response with rows := 1 } }),
       { wb with
         kv_pairs := wb.kv_pairs ++ ops.map (fun op => (op.request.payload, op.request.payload)) },
       counter),
    ResolveTransactionConflicts := fun w _ _ => (conflict, w) }

/-- An open tablet of a transactional YQL table, schema version 7. -/
def openTransactionalTablet : Tablet (List StorageOp) :=
  { freshTablet TableType.YQL_TABLE_TYPE with
    state_ := TabletState.kOpen, is_transactional := true, world := [StorageOp.opened] }

/-- A write batch of transaction 1 that states its isolation level. -/
def snapshotWriteBatch : KeyValueWriteBatchPB :=
  { has_transaction := true,
    transaction :=
      { has_transaction_id := true, transaction_id := [1], has_isolation := true,
        isolation := IsolationLevel.SNAPSHOT_ISOLATION },
    kv_pairs := [] }

/-- A QL write request of three operations; the second one was prepared
against schema version 6. -/
def threeQLWrites : WriteRequestPB :=
  { ql_write_batch :=
      [{ schema_version := 7, payload := 1 }, { schema_version := 6, payload := 2 },
       { schema_version := 7, payload := 3 }],
    write_batch := KeyValueWriteBatchPB.empty }

/-- Row stores over a world that logs the stores consulted: the MemRowSet 0
holds key 1, row set 1 holds key 2, row set 2 holds keys 2 and 3, row set 3
fails on key 4 with IOError; every key is in the range of row sets 1, 2, 3. -/
def sampleRowStoreEnv : RowStoreEnv (List Nat) :=
  { MutateRow := fun w store key _ result =>
      if (store, key) ∈ [(0, 1), (1, 2), (2, 2), (2, 3)] then
        (Status.OK,
         { result with
           mutated_stores :=
             result.mutated_stores ++
               [{ has_mrs_id := decide (store = 0), mrs_id := 0, rs_id := store, dms_id := 0 }] },
         w ++ [store])
      else if (store, key) = (3, 4) then (Status.IOError, result, w ++ [store])
      else (Status.NotFound, result, w ++ [store]),
    FindRowSetsWithKeyInRange := fun _ _ => [1, 2, 3] }

/-- An UPDATE of the given key whose change list decodes. -/
def updateOf (key : Nat) : RowOp :=
  { type := RowOperationType.UPDATE, key := key, changelist := { init_status := Status.OK, is_reinsert := false },
    result := RowOpResult.unset }

/-- A compaction environment over the world of storage operations: the
policy finds a compaction of quality 4 and reads the row sets, the metrics
count the flushes and the checkpoints logged in the world. -/
def sampleCompactionEnv : CompactionEnv (List StorageOp) :=
  { PickRowSets := fun w => (4, w ++ [StorageOp.read]),
    metrics := fun w =>
      some (w.count StorageOp.flushed, w.count StorageOp.checkpointed) }

/-- A write replay environment over the world of replayed raft indexes: an
applied row operation records the MemRowSet 9 as its mutated store and logs
its key; a failed original result decodes to IOError. -/
def sampleRowReplayEnv : RowReplayEnv (List Int) :=
  { ApplyKuduRowOperation := fun w op =>
      (op.SetMutateSucceeded { OperationResultPB.empty with mutated_stores := [⟨true, 9, 0, 0⟩] },
       w ++ [(op.key : Int)]),
    StatusFromPB := fun _ => Status.IOError }

/-- An INSERT of the given key. -/
def insertOf (key : Nat) : RowOp :=
  { type := RowOperationType.INSERT, key := key,
    changelist := { init_status := Status.OK, is_reinsert := false },
    result := RowOpResult.unset }

/-- The replay state reached on the legacy backend after the replicates
(1,1), (1,2), (1,3). -/
def pendingOneToThree : ReplayState :=
  { legacyStart with
    prev_op_id := ⟨1, 3⟩,
    pending_replicates :=
      [(1, replicateEntry ⟨1, 1⟩ ⟨0, 0⟩), (2, replicateEntry ⟨1, 2⟩ ⟨0, 0⟩),
       (3, replicateEntry ⟨1, 3⟩ ⟨0, 0⟩)] }

/-- A legacy replay state with the replicates (1,5), (1,6) pending and the
commits of the given indexes buffered. -/
def pendingFiveSix (buffered : List Int) : ReplayState :=
  { legacyStart with
    prev_op_id := ⟨1, 6⟩,
    pending_replicates :=
      [(5, replicateEntry ⟨1, 5⟩ ⟨0, 0⟩), (6, replicateEntry ⟨1, 6⟩ ⟨0, 0⟩)],
    pending_commits := buffered.map (fun i => (i, commitEntry ⟨1, i⟩ [])) }

/-- The invariant of pending_replicates on a RocksDB-backed table: every key
is above last_stored_op_id.index and is the index of the entry stored under
it. -/
def PendingAboveStored (state : ReplayState) : Prop :=
  ∀ p ∈ state.pending_replicates,
    state.last_stored_op_id.index < p.1 ∧ p.2.replicate.id.index = p.1

/-! ## Properties -/

open ReplayState TabletBootstrap

/-! ### The (term, index) order -/

theorem OpId.le_refl (a : OpId) : OpId.le a a := Or.inr ⟨rfl, Int.le_refl _⟩

theorem OpId.le_trans {a b c : OpId} (h1 : OpId.le a b) (h2 : OpId.le b c) : OpId.le a c := by
  unfold OpId.le at *
  omega

theorem OpIdLessThan_eq_true_iff (a b : OpId) :
    OpIdLessThan a b = true ↔ (a.term < b.term ∨ (a.term = b.term ∧ a.index < b.index)) := by
  unfold OpIdLessThan
  split_ifs <;> simp <;> omega

theorem OpIdCompare_le_zero_iff (a b : OpId) : OpIdCompare a b ≤ 0 ↔ OpId.le a b := by
  unfold OpIdCompare OpId.le
  split_ifs <;> simp <;> omega

theorem UpdateCommittedOpId_le (state : ReplayState) (id : OpId) :
    OpId.le state.committed_op_id (state.UpdateCommittedOpId id).committed_op_id := by
  unfold UpdateCommittedOpId
  split_ifs with h
  · rw [OpIdLessThan_eq_true_iff] at h
    unfold OpId.le
    simp only
    omega
  · exact OpId.le_refl _

/-! ### IsValidSequence and CheckSequentialReplicateId -/

/-- C2: IsValidSequence(a, b) is false exactly when a is not the uninitialised
OpId (0,0), b.term = a.term and b.index > a.index + 1, and true in every other
case; replaying (1,1),(1,2),(1,4) accepts the first two ids and rejects (1,4)
with Corruption. -/
theorem C2_IsValidSequence_false_iff :
    (∀ a b : OpId, IsValidSequence a b = false ↔
      (a ≠ MinimumOpId ∧ b.term = a.term ∧ b.index > a.index + 1)) ∧
    (∀ a b : OpId, IsValidSequence a b = true ↔
      (a = MinimumOpId ∨ b.term ≠ a.term ∨ b.index ≤ a.index + 1)) ∧
    (let s1 := legacyStart.CheckSequentialReplicateId (replicateEntry ⟨1, 1⟩ ⟨0, 0⟩).replicate
     let s2 := s1.2.CheckSequentialReplicateId (replicateEntry ⟨1, 2⟩ ⟨0, 0⟩).replicate
     let s3 := s2.2.CheckSequentialReplicateId (replicateEntry ⟨1, 4⟩ ⟨0, 0⟩).replicate
     s1.1 = Status.OK ∧ s2.1 = Status.OK ∧ s3.1 = Status.Corruption) := by
  have key : ∀ a : OpId, a = MinimumOpId ↔ (a.term = 0 ∧ a.index = 0) := by
    intro a
    cases a with
    | mk t i => simp [MinimumOpId]
  refine ⟨?_, ?_, by decide⟩
  · intro a b
    rw [Ne, key]
    unfold IsValidSequence
    split_ifs <;> simp <;> omega
  · intro a b
    rw [key]
    unfold IsValidSequence
    split_ifs <;> simp <;> omega

/-- C3 as stated fails: after the initialised (1,5) the check accepts (1,3),
an index rewind inside the same term, and also (0,3) from a lower term. -/
theorem C3_rewind_accepted_in_same_term :
    ¬ (∀ a b : OpId, a ≠ MinimumOpId → IsValidSequence a b = true →
        (b.index ≤ a.index → a.term < b.term) ∧
        (b.term = a.term → b.index = a.index + 1)) := by
  intro h
  have h1 := h ⟨1, 5⟩ ⟨1, 3⟩ (by decide) (by decide)
  exact absurd (h1.1 (by decide)) (by decide)

/-- C3 amended: for an initialised a, b is accepted after a exactly when its
term differs from a.term or its index is at most a.index + 1.  Hence an index
that does not advance is accepted whatever the term of b, and within the term
of a the accepted indexes are exactly those up to a.index + 1. -/
theorem C3_accepts_iff (a b : OpId) (ha : a ≠ MinimumOpId) :
    (IsValidSequence a b = true ↔ (b.term ≠ a.term ∨ b.index ≤ a.index + 1)) ∧
    (b.index ≤ a.index → IsValidSequence a b = true) ∧
    (b.term = a.term → (IsValidSequence a b = true ↔ b.index ≤ a.index + 1)) := by
  have hne : ¬ (a.term = 0 ∧ a.index = 0) := by
    intro h
    apply ha
    cases a with
    | mk t i =>
      simp only at h
      simp [MinimumOpId, h.1, h.2]
  unfold IsValidSequence
  rw [if_neg hne]
  refine ⟨?_, ?_, ?_⟩
  · split_ifs <;> simp <;> omega
  · intro h
    split_ifs with h2
    · omega
    · rfl
  · intro h
    split_ifs <;> simp <;> omega

/-- C3 amended, at a = (1,5) and b = (1,3): the rewind inside term 1 is accepted. -/
theorem C3_accepts_iff_witness :
    (⟨1, 5⟩ : OpId) ≠ MinimumOpId ∧ IsValidSequence ⟨1, 5⟩ ⟨1, 3⟩ = true :=
  ⟨by decide, (C3_accepts_iff ⟨1, 5⟩ ⟨1, 3⟩ (by decide)).2.1 (by decide)⟩

/-- C4: CheckSequentialReplicateId returns Corruption if and only if
IsValidSequence(prev_op_id, msg.id) is false, and then leaves the state as it
was; otherwise it returns OK and changes prev_op_id to msg.id and nothing
else. -/
theorem C4_CheckSequentialReplicateId (state : ReplayState) (msg : ReplicateMsg) :
    ((state.CheckSequentialReplicateId msg).1 = Status.Corruption ↔
      IsValidSequence state.prev_op_id msg.id = false) ∧
    ((state.CheckSequentialReplicateId msg).1 = Status.Corruption ∧
        (state.CheckSequentialReplicateId msg).2 = state ∨
      (state.CheckSequentialReplicateId msg).1 = Status.OK ∧
        (state.CheckSequentialReplicateId msg).2 =
          { prev_op_id := msg.id,
            committed_op_id := state.committed_op_id,
            pending_replicates := state.pending_replicates,
            pending_commits := state.pending_commits,
            last_stored_op_id := state.last_stored_op_id,
            rocksdb_applied_index := state.rocksdb_applied_index,
            rocksdb_last_entry_hybrid_time := state.rocksdb_last_entry_hybrid_time,
            num_entries_applied_to_rocksdb := state.num_entries_applied_to_rocksdb }) := by
  unfold CheckSequentialReplicateId
  cases h : IsValidSequence state.prev_op_id msg.id <;> simp

/-- C6 as stated fails.  With rocksdb_applied_index = -1 (the state built from
a last stored OpId whose term is known) CanApply accepts index 100, which is
one past neither rocksdb_applied_index nor last_stored_op_id.index; and with
rocksdb_applied_index = 4 it accepts the entry (1,5) whose piggybacked
committed OpId (1,20) is above the state's committed_op_id (1,10). -/
theorem C6_CanApply_accepts_other_entries :
    (let s := (ReplayState.new (-1) 0 ⟨1, 5⟩).UpdateCommittedOpId ⟨1, 200⟩
     CanApply s 100 (replicateEntry ⟨1, 100⟩ ⟨1, 5⟩) = true ∧
     (100 : Int) ≠ s.rocksdb_applied_index + 1 ∧
     (100 : Int) ≠ s.last_stored_op_id.index + 1) ∧
    (let s := (ReplayState.new (-1) 0 ⟨-1, 4⟩).UpdateCommittedOpId ⟨1, 10⟩
     let e := replicateEntry ⟨1, 5⟩ ⟨1, 20⟩
     s.rocksdb_applied_index = 4 ∧
     CanApply s 5 e = true ∧
     ¬ OpId.le e.replicate.committed_op_id s.committed_op_id) := by
  decide

/-- C6 amended: CanApply(index, entry) is true exactly when the index check
passes (rocksdb_applied_index is -1, or index is rocksdb_applied_index + 1)
and the OpId of the entry itself is at most committed_op_id in the
(term, index) order. -/
theorem C6_CanApply_iff (state : ReplayState) (index : Int) (entry : LogEntryPB) :
    CanApply state index entry = true ↔
      ((state.rocksdb_applied_index = -1 ∨ index = state.rocksdb_applied_index + 1) ∧
        OpId.le entry.replicate.id state.committed_op_id) := by
  unfold CanApply
  split_ifs with h
  · simp only [Bool.false_eq_true, false_iff, not_and]
    intro h2
    omega
  · rw [decide_eq_true_iff, OpIdCompare_le_zero_iff]
    constructor
    · intro h2
      refine ⟨?_, h2⟩
      by_contra h3
      apply h
      constructor <;> omega
    · intro h2
      exact h2.2

/-! ### The ordered map -/

theorem emplace_eq (m : OpIndexToEntryMap) (i : Int) (e : LogEntryPB) :
    emplace m i e =
      match lower_bound m i with
      | [] => (erase_from_lower_bound m i ++ [(i, e)], true)
      | (k, v) :: rest =>
        if k = i then (m, false)
        else (erase_from_lower_bound m i ++ (i, e) :: (k, v) :: rest, true) := by
  induction m with
  | nil => simp [emplace, lower_bound, erase_from_lower_bound]
  | cons p rest ih =>
    obtain ⟨k', v'⟩ := p
    unfold emplace
    by_cases h1 : i < k'
    · have h2 : ¬ k' < i := by omega
      have h3 : ¬ k' = i := by omega
      simp [lower_bound, erase_from_lower_bound, List.dropWhile, List.takeWhile, h1, h2, h3]
    · by_cases h2 : i = k'
      · subst h2
        simp [lower_bound, List.dropWhile]
      · have h3 : k' < i := by omega
        rw [if_neg h1, if_neg h2, ih]
        simp only [lower_bound, erase_from_lower_bound, List.dropWhile, List.takeWhile, h3,
          decide_True]
        cases hlb : List.dropWhile (fun p : Int × LogEntryPB => decide (p.1 < i)) rest with
        | nil => simp
        | cons q rest2 =>
          obtain ⟨k, v⟩ := q
          by_cases h4 : k = i <;> simp [h4]

theorem InsertPendingReplicate_eq (state : ReplayState) (entry : LogEntryPB) :
    InsertPendingReplicate state entry =
      some ({ state with
              pending_replicates :=
                PendingAfterInsert state.pending_replicates entry.replicate.id.index entry },
            (OverwritePending state.pending_replicates entry.replicate.id.index).2) := by
  unfold InsertPendingReplicate PendingAfterInsert OverwritePending
  simp only [emplace_eq]
  cases hlb : lower_bound state.pending_replicates entry.replicate.id.index with
  | nil =>
    simp [hlb]
  | cons q rest =>
    obtain ⟨k, v⟩ := q
    by_cases h : k = entry.replicate.id.index
    · subst h
      have h1 : lower_bound (erase_from_lower_bound state.pending_replicates
          entry.replicate.id.index) entry.replicate.id.index = [] := by
        unfold lower_bound erase_from_lower_bound
        rw [List.dropWhile_eq_nil_iff]
        intro x hx
        simpa using List.mem_takeWhile_imp hx
      have h2 : erase_from_lower_bound (erase_from_lower_bound state.pending_replicates
          entry.replicate.id.index) entry.replicate.id.index =
          erase_from_lower_bound state.pending_replicates entry.replicate.id.index := by
        unfold erase_from_lower_bound
        rw [List.takeWhile_eq_self_iff]
        intro x hx
        simpa using List.mem_takeWhile_imp hx
      simp [h1, h2]
    · simp [h, hlb]

/-! ### Frame properties of the replay steps -/

theorem NoteLastStoredIndex_frame {W : Type} (env : Env W) (state : ReplayState)
    (replicate : ReplicateMsg) :
    (NoteLastStoredIndex env state replicate).prev_op_id = state.prev_op_id ∧
    (NoteLastStoredIndex env state replicate).pending_replicates = state.pending_replicates ∧
    (NoteLastStoredIndex env state replicate).pending_commits = state.pending_commits ∧
    (NoteLastStoredIndex env state replicate).last_stored_op_id = state.last_stored_op_id ∧
    (NoteLastStoredIndex env state replicate).rocksdb_applied_index =
      state.rocksdb_applied_index ∧
    OpId.le state.committed_op_id (NoteLastStoredIndex env state replicate).committed_op_id := by
  unfold NoteLastStoredIndex
  split_ifs with h
  · have hle := UpdateCommittedOpId_le state replicate.id
    unfold UpdateCommittedOpId at hle ⊢
    split_ifs at hle ⊢ <;> simp_all
  · exact ⟨rfl, rfl, rfl, rfl, rfl, OpId.le_refl _⟩

theorem UpdateCommittedOpId_frame (state : ReplayState) (id : OpId) :
    (state.UpdateCommittedOpId id).prev_op_id = state.prev_op_id ∧
    (state.UpdateCommittedOpId id).pending_replicates = state.pending_replicates ∧
    (state.UpdateCommittedOpId id).pending_commits = state.pending_commits ∧
    (state.UpdateCommittedOpId id).last_stored_op_id = state.last_stored_op_id ∧
    (state.UpdateCommittedOpId id).rocksdb_applied_index = state.rocksdb_applied_index := by
  unfold UpdateCommittedOpId
  split_ifs <;> simp

theorem ApplyCommittedLoop_frame {W : Type} (handler : W → LogEntryPB → W)
    (l : OpIndexToEntryMap) :
    ∀ (state : ReplayState) (w : W),
      (ApplyCommittedLoop handler state w l).1.committed_op_id = state.committed_op_id ∧
      (ApplyCommittedLoop handler state w l).1.prev_op_id = state.prev_op_id ∧
      (ApplyCommittedLoop handler state w l).1.pending_commits = state.pending_commits ∧
      (ApplyCommittedLoop handler state w l).1.last_stored_op_id = state.last_stored_op_id ∧
      ∃ applied, applied ++ (ApplyCommittedLoop handler state w l).1.pending_replicates = l := by
  induction l with
  | nil =>
    intro state w
    exact ⟨rfl, rfl, rfl, rfl, [], rfl⟩
  | cons p rest ih =>
    intro state w
    obtain ⟨k, e⟩ := p
    unfold ApplyCommittedLoop
    by_cases h : CanApply state k e = true
    · rw [if_pos h]
      obtain ⟨h1, h2, h3, h4, applied, h5⟩ := ih
        { state with
          rocksdb_applied_index :=
            if state.rocksdb_applied_index ≠ -1 then state.rocksdb_applied_index + 1
            else state.rocksdb_applied_index,
          num_entries_applied_to_rocksdb := state.num_entries_applied_to_rocksdb + 1 }
        (handler w e)
      refine ⟨h1, h2, h3, h4, (k, e) :: applied, ?_⟩
      rw [List.cons_append, h5]
    · rw [if_neg h]
      exact ⟨rfl, rfl, rfl, rfl, [], rfl⟩

/-- The outcomes of HandleReplicateMessage: rejected by the sequence check;
accepted but not inserted (the log append failed, or the entry is already
stored in RocksDB); inserted on the legacy backend; inserted and followed by
the application of the committed pending replicates on a RocksDB-backed
table. -/
theorem HandleReplicateMessage_cases {W : Type} (env : Env W) (tb : TabletBootstrap W)
    (state : ReplayState) (e : LogEntryPB) (r : Status × TabletBootstrap W × ReplayState)
    (h : HandleReplicateMessage env tb state e = some r) :
    (IsValidSequence state.prev_op_id e.replicate.id = false ∧
      r.1 = Status.Corruption ∧ r.2.2 = state) ∨
    (IsValidSequence state.prev_op_id e.replicate.id = true ∧
      r.2.2 = NoteLastStoredIndex env { state with prev_op_id := e.replicate.id } e.replicate ∧
      (r.1 ≠ Status.OK ∨
        (non_kudu env = true ∧ e.replicate.id.index ≤ state.last_stored_op_id.index))) ∨
    (IsValidSequence state.prev_op_id e.replicate.id = true ∧ r.1 = Status.OK ∧
      non_kudu env = false ∧
      r.2.2 =
        { NoteLastStoredIndex env { state with prev_op_id := e.replicate.id } e.replicate with
          pending_replicates :=
            PendingAfterInsert state.pending_replicates e.replicate.id.index e }) ∨
    (IsValidSequence state.prev_op_id e.replicate.id = true ∧ r.1 = Status.OK ∧
      non_kudu env = true ∧ state.last_stored_op_id.index < e.replicate.id.index ∧
      ∃ w : W, r.2.2 =
        (ApplyCommittedPendingReplicates (fun w e => (HandleEntryPair env w e none).2)
          (UpdateCommittedOpId
            { NoteLastStoredIndex env { state with prev_op_id := e.replicate.id } e.replicate with
              pending_replicates :=
                PendingAfterInsert state.pending_replicates e.replicate.id.index e }
            e.replicate.committed_op_id) w).1) := by
  have hfr := NoteLastStoredIndex_frame env { state with prev_op_id := e.replicate.id } e.replicate
  obtain ⟨-, hpr, -, hls, -, -⟩ := hfr
  simp only at hpr hls
  unfold HandleReplicateMessage at h
  unfold CheckSequentialReplicateId at h
  cases hv : IsValidSequence state.prev_op_id e.replicate.id with
  | false =>
    left
    simp only [hv, Bool.not_false, if_true] at h
    injection h with h
    subst h
    exact ⟨rfl, rfl, rfl⟩
  | true =>
    right
    simp only [hv, Bool.not_true, Bool.false_eq_true, if_false] at h
    rcases hla : env.LogAppend
        (env.UpdateMonotonicCounter (env.UpdateClock tb.world e.replicate.hybrid_time)
          e.replicate.monotonic_counter) e with ⟨st, w3⟩
    simp only [hla] at h
    cases st with
    | OK =>
      simp only [InsertPendingReplicate_eq, hls, hpr] at h
      by_cases hk : non_kudu env = true
      · by_cases hidx : e.replicate.id.index ≤ state.last_stored_op_id.index
        · simp only [hk, hidx, and_self, if_true] at h
          injection h with h
          subst h
          left
          exact ⟨rfl, rfl, Or.inr ⟨hk, hidx⟩⟩
        · simp only [hk, hidx, and_false, if_false, if_true] at h
          right; right
          by_cases hc : e.replicate.has_committed_op_id = true
          · simp only [hc, Bool.not_true, Bool.false_eq_true, if_false] at h
            injection h with h
            subst h
            refine ⟨rfl, rfl, hk, by omega, w3, ?_⟩
            simp only [hls, hpr]
          · simp [hc] at h
      · have hk2 : non_kudu env = false := by simpa using hk
        simp only [hk2, Bool.false_eq_true, false_and, if_false] at h
        injection h with h
        subst h
        right; left
        refine ⟨rfl, rfl, hk2, ?_⟩
        simp only [hls, hpr]
    | _ =>
      simp only [] at h
      injection h with h
      subst h
      left
      exact ⟨rfl, rfl, Or.inl (by simp)⟩

theorem ApplyCommitMessage_frame {W : Type} (env : Env W) (tb : TabletBootstrap W)
    (state : ReplayState) (c : LogEntryPB) :
    (ApplyCommitMessage env tb state c).2.2.committed_op_id = state.committed_op_id ∧
    (ApplyCommitMessage env tb state c).2.2.prev_op_id = state.prev_op_id ∧
    (ApplyCommitMessage env tb state c).2.2.pending_commits = state.pending_commits ∧
    (ApplyCommitMessage env tb state c).2.2.last_stored_op_id = state.last_stored_op_id ∧
    (ApplyCommitMessage env tb state c).2.1.flushed_stores_ = tb.flushed_stores_ := by
  unfold ApplyCommitMessage
  simp only
  split
  · split_ifs <;> exact ⟨rfl, rfl, rfl, rfl, rfl⟩
  · exact ⟨rfl, rfl, rfl, rfl, rfl⟩

theorem ApplyBufferedCommits_frame {W : Type} (env : Env W) (l : OpIndexToEntryMap) :
    ∀ (tb : TabletBootstrap W) (state : ReplayState) (last_applied : OpId),
      (ApplyBufferedCommits env tb state last_applied l).2.2.committed_op_id =
        state.committed_op_id ∧
      (ApplyBufferedCommits env tb state last_applied l).2.2.prev_op_id = state.prev_op_id ∧
      (ApplyBufferedCommits env tb state last_applied l).2.2.last_stored_op_id =
        state.last_stored_op_id := by
  induction l with
  | nil =>
    intro tb state last_applied
    exact ⟨rfl, rfl, rfl⟩
  | cons p rest ih =>
    intro tb state last_applied
    obtain ⟨k, c⟩ := p
    unfold ApplyBufferedCommits
    by_cases hk : k = last_applied.index + 1
    · rw [if_pos hk]
      have hf := ApplyCommitMessage_frame env tb { state with pending_commits := rest } c
      obtain ⟨h1, h2, -, h4, -⟩ := hf
      simp only at h1 h2 h4
      by_cases hok : (ApplyCommitMessage env tb { state with pending_commits := rest } c).1.ok
          = true
      · simp only [hok, Bool.not_true, Bool.false_eq_true, if_false]
        obtain ⟨i1, i2, i3⟩ := ih
          (ApplyCommitMessage env tb { state with pending_commits := rest } c).2.1
          (ApplyCommitMessage env tb { state with pending_commits := rest } c).2.2
          c.commit.commited_op_id
        exact ⟨i1.trans h1, i2.trans h2, i3.trans h4⟩
      · have hok2 : (ApplyCommitMessage env tb { state with pending_commits := rest } c).1.ok
            = false := by simpa using hok
        simp only [hok2, Bool.not_false, if_true]
        exact ⟨h1, h2, h4⟩
    · rw [if_neg hk]
      exact ⟨rfl, rfl, rfl⟩

theorem HandleOrphanedCommit_state {W : Type} (tb : TabletBootstrap W) (state : ReplayState)
    (c : LogEntryPB) : (HandleOrphanedCommit tb state c).2.2 = state := by
  unfold HandleOrphanedCommit
  simp only
  split_ifs <;> rfl

theorem HandleCommitMessage_committed_le {W : Type} (env : Env W) (tb : TabletBootstrap W)
    (state : ReplayState) (c : LogEntryPB) (r : Status × TabletBootstrap W × ReplayState)
    (h : HandleCommitMessage env tb state c = some r) :
    OpId.le state.committed_op_id r.2.2.committed_op_id := by
  have hle := UpdateCommittedOpId_le state c.commit.commited_op_id
  unfold HandleCommitMessage at h
  split_ifs at h with hk
  simp only at h
  split at h
  · injection h with h
    subst h
    rw [HandleOrphanedCommit_state]
    exact hle
  · split_ifs at h with h1 h2 h3 h4 h5
    · injection h with h
      subst h
      rw [HandleOrphanedCommit_state]
      exact hle
    · injection h with h
      subst h
      exact hle
    · injection h with h
      subst h
      exact hle
    · injection h with h
      subst h
      rw [(ApplyCommitMessage_frame env tb _ c).1]
      exact hle
    · injection h with h
      subst h
      rw [(ApplyBufferedCommits_frame env _ _ _ _).1, (ApplyCommitMessage_frame env tb _ c).1]
      exact hle

theorem HandleReplicateMessage_committed_le {W : Type} (env : Env W) (tb : TabletBootstrap W)
    (state : ReplayState) (e : LogEntryPB) (r : Status × TabletBootstrap W × ReplayState)
    (h : HandleReplicateMessage env tb state e = some r) :
    OpId.le state.committed_op_id r.2.2.committed_op_id := by
  have hn := (NoteLastStoredIndex_frame env { state with prev_op_id := e.replicate.id }
    e.replicate).2.2.2.2.2
  simp only at hn
  rcases HandleReplicateMessage_cases env tb state e r h with
    ⟨-, -, h3⟩ | ⟨-, h2, -⟩ | ⟨-, -, -, h4⟩ | ⟨-, -, -, -, w, h5⟩
  · rw [h3]
    exact OpId.le_refl _
  · rw [h2]
    exact hn
  · rw [h4]
    exact hn
  · rw [h5]
    unfold ApplyCommittedPendingReplicates
    rw [(ApplyCommittedLoop_frame _ _ _ _).1]
    exact OpId.le_trans hn (UpdateCommittedOpId_le _ _)

/-- C5: UpdateCommittedOpId(id) sets committed_op_id to the larger of its
previous value and id in the (term, index) order and changes nothing else;
over every sequence of HandleReplicateMessage and HandleCommitMessage calls,
from any state and whatever each call returns, committed_op_id never
decreases from one state to the next. -/
theorem C5_committed_op_id_monotonic :
    (∀ (state : ReplayState) (id : OpId),
      (state.UpdateCommittedOpId id) =
        { state with
          committed_op_id :=
            if OpId.le id state.committed_op_id then state.committed_op_id else id } ∧
      OpId.le state.committed_op_id (state.UpdateCommittedOpId id).committed_op_id ∧
      OpId.le id (state.UpdateCommittedOpId id).committed_op_id) ∧
    (∀ (W : Type) (env : Env W) (calls : List ReplayCall) (tb : TabletBootstrap W)
        (state : ReplayState),
      List.Chain (fun a b : ReplayState => OpId.le a.committed_op_id b.committed_op_id)
        state (RunCalls env tb state calls)) := by
  constructor
  · intro state id
    refine ⟨?_, UpdateCommittedOpId_le state id, ?_⟩
    · unfold UpdateCommittedOpId
      by_cases h : OpIdLessThan state.committed_op_id id = true
      · have h2 : ¬ OpId.le id state.committed_op_id := by
          rw [OpIdLessThan_eq_true_iff] at h
          unfold OpId.le
          omega
        rw [if_pos h, if_neg h2]
      · have h2 : OpId.le id state.committed_op_id := by
          rw [OpIdLessThan_eq_true_iff] at h
          unfold OpId.le
          omega
        rw [if_neg h, if_pos h2]
    · unfold UpdateCommittedOpId
      by_cases h : OpIdLessThan state.committed_op_id id = true
      · rw [if_pos h]
        exact OpId.le_refl _
      · rw [if_neg h]
        rw [OpIdLessThan_eq_true_iff] at h
        unfold OpId.le
        omega
  · intro W env calls
    induction calls with
    | nil =>
      intro tb state
      exact List.Chain.nil
    | cons call rest ih =>
      intro tb state
      unfold RunCalls
      cases hr : RunCall env tb state call with
      | none => exact List.Chain.nil
      | some r =>
        simp only
        refine List.Chain.cons ?_ (ih r.2.1 r.2.2)
        cases call with
        | replicate entry => exact HandleReplicateMessage_committed_le env tb state entry r hr
        | commit entry => exact HandleCommitMessage_committed_le env tb state entry r hr

/-! ### Pending replicates after an insertion -/

theorem lower_bound_of_ContainsKey (m : OpIndexToEntryMap) (i : Int) (hwf : MapWF m)
    (h : ContainsKey m i = true) : ∃ v rest, lower_bound m i = (i, v) :: rest := by
  induction m with
  | nil => simp [ContainsKey, find] at h
  | cons p rest ih =>
    obtain ⟨k, v⟩ := p
    have hwf2 : (∀ a ∈ keys rest, k < a) ∧ MapWF rest := by
      simpa [MapWF, keys] using hwf
    by_cases hk : k = i
    · subst hk
      exact ⟨v, rest, by simp [lower_bound, List.dropWhile]⟩
    · have hfind : ContainsKey rest i = true := by
        simpa [ContainsKey, find, hk] using h
      obtain ⟨v2, rest2, h2⟩ := ih hwf2.2 hfind
      have hmem : i ∈ keys rest := by
        have hsplit := List.takeWhile_append_dropWhile (fun p : Int × LogEntryPB => decide (p.1 < i))
          rest
        unfold lower_bound at h2
        rw [h2] at hsplit
        rw [← hsplit]
        simp [keys]
      have hlt : k < i := hwf2.1 i hmem
      refine ⟨v2, rest2, ?_⟩
      unfold lower_bound at h2 ⊢
      simp only [List.dropWhile, hlt, decide_True]
      exact h2

theorem PendingAfterInsert_of_ContainsKey (m : OpIndexToEntryMap) (i : Int) (e : LogEntryPB)
    (hwf : MapWF m)
    (h : ContainsKey m i = true ∨ ∀ p ∈ m, p.1 < i) :
    PendingAfterInsert m i e = erase_from_lower_bound m i ++ [(i, e)] := by
  unfold PendingAfterInsert
  rcases h with h | h
  · obtain ⟨v, rest, hlb⟩ := lower_bound_of_ContainsKey m i hwf h
    rw [hlb]
    simp
  · have hlb : lower_bound m i = [] := by
      unfold lower_bound
      rw [List.dropWhile_eq_nil_iff]
      intro x hx
      simpa using h x hx
    rw [hlb]

theorem mem_erase_from_lower_bound (m : OpIndexToEntryMap) (i : Int) (p : Int × LogEntryPB)
    (h : p ∈ erase_from_lower_bound m i) : p ∈ m ∧ p.1 < i := by
  unfold erase_from_lower_bound at h
  exact ⟨(List.takeWhile_prefix _).subset h, by simpa using List.mem_takeWhile_imp h⟩

theorem mem_PendingAfterInsert (m : OpIndexToEntryMap) (i : Int) (e : LogEntryPB)
    (p : Int × LogEntryPB) (h : p ∈ PendingAfterInsert m i e) : p = (i, e) ∨ p ∈ m := by
  unfold PendingAfterInsert at h
  rw [List.mem_append, List.mem_cons] at h
  rcases h with h | h | h
  · exact Or.inr (mem_erase_from_lower_bound m i p h).1
  · exact Or.inl h
  · right
    have hsub : p ∈ lower_bound m i := by
      cases hlb : lower_bound m i with
      | nil => simp [hlb] at h
      | cons q rest =>
        obtain ⟨k, v⟩ := q
        rw [hlb] at h
        by_cases hk : k = i
        · simp [hk] at h
        · simpa [hk] using h
    unfold lower_bound at hsub
    exact (List.dropWhile_suffix _).subset hsub

/-- C1, the code at the failing input, which is the one the claim names: on
the legacy backend, from the empty replay state, HandleReplicateMessage accepts
(1,5) and then accepts and inserts (2,3); lower_bound(3) lands on the entry at
index 5, the guard on an equal index is false, nothing is erased, and the entry
(1,5), pending at index 5 >= 3 before the call, is still pending after it.  The
source comment on pending_replicates asks for consecutive indexes ending with
the current one. -/
theorem C1_entry_above_new_index_survives :
    ∃ tb1 s1 tb2 s2,
      HandleReplicateMessage (sampleEnv TableType.KUDU_COLUMNAR_TABLE_TYPE)
        (freshBootstrap ⟨0, []⟩) legacyStart (replicateEntry ⟨1, 5⟩ ⟨0, 0⟩)
        = some (Status.OK, tb1, s1) ∧
      s1.pending_replicates = [(5, replicateEntry ⟨1, 5⟩ ⟨0, 0⟩)] ∧
      HandleReplicateMessage (sampleEnv TableType.KUDU_COLUMNAR_TABLE_TYPE)
        tb1 s1 (replicateEntry ⟨2, 3⟩ ⟨0, 0⟩) = some (Status.OK, tb2, s2) ∧
      s2.pending_replicates =
        [(3, replicateEntry ⟨2, 3⟩ ⟨0, 0⟩), (5, replicateEntry ⟨1, 5⟩ ⟨0, 0⟩)] :=
  ⟨_, _, _, _, rfl, rfl, rfl, rfl⟩

/-- The overwrite step of HandleReplicateMessage where its guard is taken: when
the call accepts and inserts an entry with index i (legacy backend, or
RocksDB-backed with i above last_stored_op_id.index) and lower_bound(i) is at
an entry pending at index i itself (or at the end of the map), the entry is a
valid successor of prev_op_id, every entry that was pending at an index >= i is
discarded and the new entry is stored at index i behind the entries below i.
On the legacy backend that is the value of pending_replicates on return; on a
RocksDB-backed table a committed prefix of it may already have been applied and
removed. -/
theorem HandleReplicateMessage_overwrites_from_pending_index {W : Type} (env : Env W)
    (tb tb2 : TabletBootstrap W) (state s2 : ReplayState) (e : LogEntryPB)
    (hwf : MapWF state.pending_replicates)
    (h : HandleReplicateMessage env tb state e = some (Status.OK, tb2, s2))
    (hins : non_kudu env = false ∨ state.last_stored_op_id.index < e.replicate.id.index)
    (hat : ContainsKey state.pending_replicates e.replicate.id.index = true ∨
      ∀ p ∈ state.pending_replicates, p.1 < e.replicate.id.index) :
    IsValidSequence state.prev_op_id e.replicate.id = true ∧
    s2.prev_op_id = e.replicate.id ∧
    (∃ applied, applied ++ s2.pending_replicates =
        erase_from_lower_bound state.pending_replicates e.replicate.id.index ++
          [(e.replicate.id.index, e)] ∧
      (non_kudu env = false → applied = [])) ∧
    (∀ p ∈ s2.pending_replicates,
      p = (e.replicate.id.index, e) ∨ (p ∈ state.pending_replicates ∧ p.1 < e.replicate.id.index))
    := by
  have hpa := PendingAfterInsert_of_ContainsKey state.pending_replicates e.replicate.id.index e
    hwf hat
  have hn := NoteLastStoredIndex_frame env { state with prev_op_id := e.replicate.id } e.replicate
  obtain ⟨hn1, -, -, -, -, -⟩ := hn
  simp only at hn1
  have key : IsValidSequence state.prev_op_id e.replicate.id = true ∧
      s2.prev_op_id = e.replicate.id ∧
      (∃ applied, applied ++ s2.pending_replicates =
        erase_from_lower_bound state.pending_replicates e.replicate.id.index ++
          [(e.replicate.id.index, e)] ∧
      (non_kudu env = false → applied = [])) := by
    rcases HandleReplicateMessage_cases env tb state e _ h with
      ⟨-, h2, -⟩ | ⟨-, -, h3⟩ | ⟨hv, -, hk, h4⟩ | ⟨hv, -, hk, -, w, h5⟩
    · simp at h2
    · rcases h3 with h3 | ⟨h3, h3b⟩
      · simp at h3
      · rcases hins with hins | hins
        · rw [hins] at h3
          simp at h3
        · omega
    · simp only at h4
      subst h4
      refine ⟨hv, hn1, [], ?_, fun _ => rfl⟩
      simp only [List.nil_append]
      exact hpa
    · simp only at h5
      unfold ApplyCommittedPendingReplicates at h5
      obtain ⟨-, f2, -, -, applied, f5⟩ := ApplyCommittedLoop_frame
        (fun w e => (HandleEntryPair env w e none).2)
        (UpdateCommittedOpId
          { NoteLastStoredIndex env { state with prev_op_id := e.replicate.id } e.replicate with
            pending_replicates :=
              PendingAfterInsert state.pending_replicates e.replicate.id.index e }
          e.replicate.committed_op_id).pending_replicates
        (UpdateCommittedOpId
          { NoteLastStoredIndex env { state with prev_op_id := e.replicate.id } e.replicate with
            pending_replicates :=
              PendingAfterInsert state.pending_replicates e.replicate.id.index e }
          e.replicate.committed_op_id) w
      rw [← h5] at f2 f5
      rw [(UpdateCommittedOpId_frame _ _).1] at f2
      rw [(UpdateCommittedOpId_frame _ _).2.1] at f5
      simp only at f2 f5
      refine ⟨hv, f2.trans hn1, applied, f5.trans hpa, ?_⟩
      intro hk2
      rw [hk2] at hk
      simp at hk
  obtain ⟨k1, k2, applied, k3, k4⟩ := key
  refine ⟨k1, k2, ⟨applied, k3, k4⟩, ?_⟩
  intro p hp
  have hp2 : p ∈ erase_from_lower_bound state.pending_replicates e.replicate.id.index ++
      [(e.replicate.id.index, e)] := by
    rw [← k3]
    exact List.mem_append_right _ hp
  rw [List.mem_append, List.mem_singleton] at hp2
  rcases hp2 with hp2 | hp2
  · exact Or.inr (mem_erase_from_lower_bound _ _ _ hp2)
  · exact Or.inl hp2

/-- The overwrite step at the legacy state with (1,1), (1,2), (1,3) pending and
the new entry (2,2): the entries at the indexes 2 and 3 are discarded and (2,2)
is stored behind (1,1). -/
theorem HandleReplicateMessage_overwrites_from_pending_index_example :
    MapWF pendingOneToThree.pending_replicates ∧
    HandleReplicateMessage (sampleEnv TableType.KUDU_COLUMNAR_TABLE_TYPE)
      (freshBootstrap ⟨0, []⟩) pendingOneToThree (replicateEntry ⟨2, 2⟩ ⟨0, 0⟩) =
      some (Status.OK,
        { world := [], stats_ := ⟨1, 2, 0, 0, 0, 0, 0, 0⟩, flushed_stores_ := ⟨0, []⟩ },
        { pendingOneToThree with
          prev_op_id := ⟨2, 2⟩,
          pending_replicates :=
            [(1, replicateEntry ⟨1, 1⟩ ⟨0, 0⟩), (2, replicateEntry ⟨2, 2⟩ ⟨0, 0⟩)] }) ∧
    (∃ applied, applied ++
        [(1, replicateEntry ⟨1, 1⟩ ⟨0, 0⟩), (2, replicateEntry ⟨2, 2⟩ ⟨0, 0⟩)] =
        erase_from_lower_bound pendingOneToThree.pending_replicates 2 ++
          [(2, replicateEntry ⟨2, 2⟩ ⟨0, 0⟩)] ∧
      (non_kudu (sampleEnv TableType.KUDU_COLUMNAR_TABLE_TYPE) = false → applied = [])) :=
  ⟨by decide, rfl,
   (HandleReplicateMessage_overwrites_from_pending_index (sampleEnv TableType.KUDU_COLUMNAR_TABLE_TYPE)
      (freshBootstrap ⟨0, []⟩)
      { world := [], stats_ := ⟨1, 2, 0, 0, 0, 0, 0, 0⟩, flushed_stores_ := ⟨0, []⟩ }
      pendingOneToThree
      { pendingOneToThree with
        prev_op_id := ⟨2, 2⟩,
        pending_replicates :=
          [(1, replicateEntry ⟨1, 1⟩ ⟨0, 0⟩), (2, replicateEntry ⟨2, 2⟩ ⟨0, 0⟩)] }
      (replicateEntry ⟨2, 2⟩ ⟨0, 0⟩) (by decide) rfl (Or.inl rfl) (Or.inl rfl)).2.2.1⟩

/-- C7, the code at the failing input: on the legacy backend, from the empty
replay state, the replicates (1,5) and (2,3) are both accepted with OK, and
pending_replicates then holds the indexes 3 and 5: not consecutive, and not
ending with the index 3 just inserted. -/
theorem C7_pending_indexes_not_consecutive :
    (RunCalls (sampleEnv TableType.KUDU_COLUMNAR_TABLE_TYPE) (freshBootstrap ⟨0, []⟩) legacyStart
      [ReplayCall.replicate (replicateEntry ⟨1, 5⟩ ⟨0, 0⟩),
       ReplayCall.replicate (replicateEntry ⟨2, 3⟩ ⟨0, 0⟩)]).map
      (fun s => keys s.pending_replicates) = [[5], [3, 5]] ∧
    (ReplayEntries (sampleEnv TableType.KUDU_COLUMNAR_TABLE_TYPE) (freshBootstrap ⟨0, []⟩)
      legacyStart [replicateEntry ⟨1, 5⟩ ⟨0, 0⟩, replicateEntry ⟨2, 3⟩ ⟨0, 0⟩]).map
      (fun r => (r.1, keys r.2.2.pending_replicates)) = some (Status.OK, [3, 5]) := by
  constructor <;> rfl

/-! ### Entries already stored in RocksDB never become pending -/

theorem HandleReplicateMessage_PendingAboveStored {W : Type} (env : Env W)
    (hkv : non_kudu env = true) (tb : TabletBootstrap W) (state : ReplayState)
    (e : LogEntryPB) (r : Status × TabletBootstrap W × ReplayState)
    (hinv : PendingAboveStored state)
    (h : HandleReplicateMessage env tb state e = some r) :
    PendingAboveStored r.2.2 ∧ r.2.2.last_stored_op_id = state.last_stored_op_id := by
  have hn := NoteLastStoredIndex_frame env { state with prev_op_id := e.replicate.id } e.replicate
  obtain ⟨-, hn2, -, hn4, -, -⟩ := hn
  simp only at hn2 hn4
  rcases HandleReplicateMessage_cases env tb state e r h with
    ⟨-, -, h3⟩ | ⟨-, h2, -⟩ | ⟨-, -, hk, -⟩ | ⟨-, -, -, hidx, w, h5⟩
  · rw [h3]
    exact ⟨hinv, rfl⟩
  · rw [h2]
    refine ⟨?_, hn4⟩
    unfold PendingAboveStored
    rw [hn2, hn4]
    exact hinv
  · rw [hk] at hkv
    simp at hkv
  · unfold ApplyCommittedPendingReplicates at h5
    obtain ⟨-, -, -, f4, applied, f5⟩ := ApplyCommittedLoop_frame
      (fun w e => (HandleEntryPair env w e none).2)
      (UpdateCommittedOpId
        { NoteLastStoredIndex env { state with prev_op_id := e.replicate.id } e.replicate with
          pending_replicates :=
            PendingAfterInsert state.pending_replicates e.replicate.id.index e }
        e.replicate.committed_op_id).pending_replicates
      (UpdateCommittedOpId
        { NoteLastStoredIndex env { state with prev_op_id := e.replicate.id } e.replicate with
          pending_replicates :=
            PendingAfterInsert state.pending_replicates e.replicate.id.index e }
        e.replicate.committed_op_id) w
    rw [← h5] at f4 f5
    rw [(UpdateCommittedOpId_frame _ _).2.2.2.1] at f4
    rw [(UpdateCommittedOpId_frame _ _).2.1] at f5
    simp only at f4 f5
    have hls : r.2.2.last_stored_op_id = state.last_stored_op_id := f4.trans hn4
    refine ⟨?_, hls⟩
    intro p hp
    rw [hls]
    have hp2 : p ∈ PendingAfterInsert state.pending_replicates e.replicate.id.index e := by
      rw [← f5]
      exact List.mem_append_right _ hp
    rcases mem_PendingAfterInsert _ _ _ _ hp2 with hp3 | hp3
    · subst hp3
      exact ⟨hidx, rfl⟩
    · exact hinv p hp3

theorem HandleEntry_PendingAboveStored {W : Type} (env : Env W)
    (hkv : non_kudu env = true) (tb : TabletBootstrap W) (state : ReplayState)
    (e : LogEntryPB) (r : Status × TabletBootstrap W × ReplayState)
    (hinv : PendingAboveStored state)
    (h : HandleEntry env tb state e = some r) :
    PendingAboveStored r.2.2 ∧ r.2.2.last_stored_op_id = state.last_stored_op_id := by
  have hne : env.table_type ≠ TableType.KUDU_COLUMNAR_TABLE_TYPE := by
    simpa [non_kudu] using hkv
  unfold HandleEntry at h
  split at h
  · exact HandleReplicateMessage_PendingAboveStored env hkv tb state e r hinv h
  · rw [if_neg hne] at h
    split_ifs at h
    injection h with h
    subst h
    exact ⟨hinv, rfl⟩
  · injection h with h
    subst h
    exact ⟨hinv, rfl⟩

theorem ReplayEntries_PendingAboveStored {W : Type} (env : Env W)
    (hkv : non_kudu env = true) (entries : List LogEntryPB) :
    ∀ (tb : TabletBootstrap W) (state : ReplayState)
      (r : Status × TabletBootstrap W × ReplayState),
      PendingAboveStored state → ReplayEntries env tb state entries = some r →
      PendingAboveStored r.2.2 ∧ r.2.2.last_stored_op_id = state.last_stored_op_id := by
  induction entries with
  | nil =>
    intro tb state r hinv h
    unfold ReplayEntries at h
    injection h with h
    subst h
    exact ⟨hinv, rfl⟩
  | cons e rest ih =>
    intro tb state r hinv h
    unfold ReplayEntries at h
    cases he : HandleEntry env tb state e with
    | none => simp [he] at h
    | some r1 =>
      obtain ⟨st, tb1, s1⟩ := r1
      have h1 := HandleEntry_PendingAboveStored env hkv tb state e _ hinv he
      simp only at h1
      rw [he] at h
      cases st with
      | OK =>
        simp only at h
        obtain ⟨i1, i2⟩ := ih tb1 s1 r h1.1 h
        exact ⟨i1, i2.trans h1.2⟩
      | _ =>
        simp only at h
        injection h with h
        subst h
        exact h1

theorem ReplaySegments_PendingAboveStored {W : Type} (env : Env W)
    (hkv : non_kudu env = true) (segments : List Segment) :
    ∀ (tb : TabletBootstrap W) (state : ReplayState)
      (r : Status × TabletBootstrap W × ReplayState),
      PendingAboveStored state → ReplaySegments env tb state segments = some r →
      PendingAboveStored r.2.2 ∧ r.2.2.last_stored_op_id = state.last_stored_op_id := by
  induction segments with
  | nil =>
    intro tb state r hinv h
    unfold ReplaySegments at h
    injection h with h
    subst h
    exact ⟨hinv, rfl⟩
  | cons seg rest ih =>
    intro tb state r hinv h
    unfold ReplaySegments at h
    cases he : ReplayEntries env tb state seg.entries with
    | none => simp [he] at h
    | some r1 =>
      obtain ⟨st, tb1, s1⟩ := r1
      have h1 := ReplayEntries_PendingAboveStored env hkv seg.entries tb state _ hinv he
      simp only at h1
      rw [he] at h
      cases st with
      | OK =>
        simp only at h
        split_ifs at h
        · injection h with h
          subst h
          exact h1
        · obtain ⟨i1, i2⟩ := ih tb1 s1 r h1.1 h
          exact ⟨i1, i2.trans h1.2⟩
      | _ =>
        simp only at h
        injection h with h
        subst h
        exact h1

theorem new_last_stored_op_id (kUnknownTerm : Int) (kMin : HybridTime) (p : OpId) :
    (ReplayState.new kUnknownTerm kMin p).last_stored_op_id = p ∧
    (ReplayState.new kUnknownTerm kMin p).pending_replicates = [] := by
  unfold ReplayState.new
  split_ifs <;> exact ⟨rfl, rfl⟩

theorem FinishPlaySegments_orphaned {W : Type} (env : Env W) (tb : TabletBootstrap W)
    (state : ReplayState) (ci : ConsensusBootstrapInfo) (m : ReplicateMsg)
    (h : m ∈ (FinishPlaySegments env tb state ci).2.2.orphaned_replicates) :
    m ∈ ci.orphaned_replicates ∨ ∃ p ∈ state.pending_replicates, m = p.2.replicate := by
  have hor : ∀ m, m ∈ ci.orphaned_replicates ++ OrphanedReplicates env state →
      m ∈ ci.orphaned_replicates ∨ ∃ p ∈ state.pending_replicates, m = p.2.replicate := by
    intro m hm
    rw [List.mem_append] at hm
    rcases hm with hm | hm
    · exact Or.inl hm
    · right
      unfold OrphanedReplicates at hm
      rw [List.mem_map] at hm
      obtain ⟨p, hp, hpm⟩ := hm
      exact ⟨p, List.mem_of_mem_filter hp, hpm.symm⟩
  unfold FinishPlaySegments at h
  split at h
  · simp only at h
    split_ifs at h
    · exact hor m h
    · exact hor m h
    · exact hor m h
  · exact Or.inl h

/-- C10: on a RocksDB-backed table HandleReplicateMessage returns with
pending_replicates unchanged for every entry whose index is at most
last_stored_op_id.index; hence, replaying any segments from the state
PlaySegments starts with, every key of pending_replicates is above the index
of the last stored OpId, and every orphaned replicate PlaySegments adds to the
consensus bootstrap info has an index above it. -/
theorem C10_stored_entries_never_pending {W : Type} (env : Env W)
    (hkv : non_kudu env = true) :
    (∀ (tb : TabletBootstrap W) (state : ReplayState) (e : LogEntryPB),
      e.replicate.id.index ≤ state.last_stored_op_id.index →
      ∃ r, HandleReplicateMessage env tb state e = some r ∧
        r.2.2.pending_replicates = state.pending_replicates) ∧
    (∀ (tb : TabletBootstrap W) (p : OpId) (segments : List Segment)
        (r : Status × TabletBootstrap W × ReplayState),
      ReplaySegments env tb (ReplayState.new env.kUnknownTerm env.kMin p) segments = some r →
      ∀ q ∈ r.2.2.pending_replicates, p.index < q.1) ∧
    (∀ (tb : TabletBootstrap W) (snapshot_status : Status) (segments : List Segment)
        (ci : ConsensusBootstrapInfo) (r : Status × TabletBootstrap W × ConsensusBootstrapInfo),
      PlaySegments env tb snapshot_status segments ci = some r →
      ∀ m ∈ r.2.2.orphaned_replicates,
        m ∈ ci.orphaned_replicates ∨ (env.MaxPersistentOpId tb.world).index < m.id.index) := by
  have hstart : ∀ p : OpId, PendingAboveStored (ReplayState.new env.kUnknownTerm env.kMin p) := by
    intro p q hq
    rw [(new_last_stored_op_id _ _ p).2] at hq
    simp at hq
  refine ⟨?_, ?_, ?_⟩
  · intro tb state e hidx
    have hn := NoteLastStoredIndex_frame env { state with prev_op_id := e.replicate.id }
      e.replicate
    obtain ⟨-, hn2, -, hn4, -, -⟩ := hn
    simp only at hn2 hn4
    unfold HandleReplicateMessage CheckSequentialReplicateId
    cases hv : IsValidSequence state.prev_op_id e.replicate.id with
    | false =>
      simp only [hv, Bool.not_false, if_true]
      exact ⟨_, rfl, rfl⟩
    | true =>
      simp only [hv, Bool.not_true, Bool.false_eq_true, if_false]
      rcases hla : env.LogAppend
          (env.UpdateMonotonicCounter (env.UpdateClock tb.world e.replicate.hybrid_time)
            e.replicate.monotonic_counter) e with ⟨st, w3⟩
      cases st with
      | OK =>
        simp only [hla, hn4, hkv, hidx, and_self, if_true]
        exact ⟨_, rfl, hn2⟩
      | _ =>
        simp only [hla]
        exact ⟨_, rfl, hn2⟩
  · intro tb p segments r h q hq
    obtain ⟨h1, h2⟩ := ReplaySegments_PendingAboveStored env hkv segments tb _ r (hstart p) h
    rw [(new_last_stored_op_id _ _ p).1] at h2
    have h3 := (h1 q hq).1
    rw [h2] at h3
    exact h3
  · intro tb snapshot_status segments ci r h m hm
    unfold PlaySegments at h
    simp only [hkv, if_true] at h
    split_ifs at h with c1 c2 c3
    · injection h with h
      subst h
      exact Or.inl hm
    · injection h with h
      subst h
      exact Or.inl hm
    · injection h with h
      subst h
      exact Or.inl hm
    · unfold ReplayAndFinish at h
      split at h
      · simp at h
      · rename_i tb1 state1 hrs
        injection h with h
        subst h
        obtain ⟨h1, h2⟩ := ReplaySegments_PendingAboveStored env hkv segments _ _ _
          (hstart _) hrs
        rw [(new_last_stored_op_id _ _ _).1] at h2
        simp only at h1 h2
        rcases FinishPlaySegments_orphaned env tb1 state1 ci m hm with h3 | ⟨q, hq, hqm⟩
        · exact Or.inl h3
        · right
          have h4 := h1 q hq
          rw [h2] at h4
          simp only at h4
          rw [hqm, h4.2]
          exact h4.1
      · injection h with h
        subst h
        exact Or.inl hm

/-- C10 on a RocksDB-backed table whose last stored OpId is (1,2): the entry
(1,2) leaves pending_replicates unchanged, and replaying (1,1) .. (1,4)
returns only (1,4) as orphaned replicate. -/
theorem C10_stored_entries_never_pending_witness :
    non_kudu (sampleEnv TableType.YQL_TABLE_TYPE) = true ∧
    (∃ r, HandleReplicateMessage (sampleEnv TableType.YQL_TABLE_TYPE) (freshBootstrap ⟨0, []⟩)
        (ReplayState.new (-1) 0 ⟨1, 2⟩) (replicateEntry ⟨1, 2⟩ ⟨1, 1⟩) = some r ∧
      r.2.2.pending_replicates = (ReplayState.new (-1) 0 ⟨1, 2⟩).pending_replicates) ∧
    (PlaySegments (sampleEnv TableType.YQL_TABLE_TYPE) (freshBootstrap ⟨0, []⟩) Status.OK
        [⟨[replicateEntry ⟨1, 1⟩ ⟨1, 0⟩, replicateEntry ⟨1, 2⟩ ⟨1, 1⟩,
           replicateEntry ⟨1, 3⟩ ⟨1, 2⟩, replicateEntry ⟨1, 4⟩ ⟨1, 3⟩], Status.OK⟩]
        ⟨MinimumOpId, MinimumOpId, []⟩).map (fun r => (r.1, r.2.2.orphaned_replicates.map
          (fun m => m.id))) = some (Status.OK, [⟨1, 4⟩]) ∧
    (∀ r, PlaySegments (sampleEnv TableType.YQL_TABLE_TYPE) (freshBootstrap ⟨0, []⟩) Status.OK
        [⟨[replicateEntry ⟨1, 1⟩ ⟨1, 0⟩, replicateEntry ⟨1, 2⟩ ⟨1, 1⟩,
           replicateEntry ⟨1, 3⟩ ⟨1, 2⟩, replicateEntry ⟨1, 4⟩ ⟨1, 3⟩], Status.OK⟩]
        ⟨MinimumOpId, MinimumOpId, []⟩ = some r →
      ∀ m ∈ r.2.2.orphaned_replicates,
        m ∈ ([] : List ReplicateMsg) ∨ (2 : Int) < m.id.index) :=
  ⟨by decide,
   (C10_stored_entries_never_pending (sampleEnv TableType.YQL_TABLE_TYPE) (by decide)).1
     (freshBootstrap ⟨0, []⟩) (ReplayState.new (-1) 0 ⟨1, 2⟩) (replicateEntry ⟨1, 2⟩ ⟨1, 1⟩)
     (by decide),
   rfl,
   (C10_stored_entries_never_pending (sampleEnv TableType.YQL_TABLE_TYPE) (by decide)).2.2
     (freshBootstrap ⟨0, []⟩) Status.OK _ ⟨MinimumOpId, MinimumOpId, []⟩⟩

/-! ### The check of the buffered commits at the end of PlaySegments -/

theorem AreAnyStoresAlreadyFlushed_iff (fs : FlushedStoresSnapshot) (commit : CommitMsg) :
    AreAnyStoresAlreadyFlushed fs commit = true ↔
      ∃ op ∈ commit.result, ∃ store ∈ op.mutated_stores,
        fs.WasStoreAlreadyFlushed store = true := by
  unfold AreAnyStoresAlreadyFlushed
  simp only [List.any_eq_true]

theorem CheckPendingCommits_eq_OK_iff (fs : FlushedStoresSnapshot)
    (pending_replicates pending_commits : OpIndexToEntryMap) :
    CheckPendingCommits fs pending_replicates pending_commits = Status.OK ↔
      ∀ p ∈ pending_commits, ContainsKey pending_replicates p.1 = true ∧
        AreAnyStoresAlreadyFlushed fs p.2.commit = false := by
  induction pending_commits with
  | nil => simp [CheckPendingCommits]
  | cons q rest ih =>
    obtain ⟨k, entry⟩ := q
    unfold CheckPendingCommits
    by_cases h1 : ContainsKey pending_replicates k = true
    · by_cases h2 : AreAnyStoresAlreadyFlushed fs entry.commit = true
      · simp [h1, h2]
      · simp only [h1, h2, Bool.not_true, Bool.false_eq_true, if_false, ih]
        simp [h1, h2]
    · simp [h1]

theorem CheckPendingCommits_OK_or_Corruption (fs : FlushedStoresSnapshot)
    (pending_replicates pending_commits : OpIndexToEntryMap) :
    CheckPendingCommits fs pending_replicates pending_commits = Status.OK ∨
    CheckPendingCommits fs pending_replicates pending_commits = Status.Corruption := by
  induction pending_commits with
  | nil => exact Or.inl rfl
  | cons q rest ih =>
    obtain ⟨k, entry⟩ := q
    unfold CheckPendingCommits
    split_ifs
    · exact Or.inr rfl
    · exact Or.inr rfl
    · exact ih

/-- C9: the check that ends PlaySegments fails exactly when some buffered
commit has no pending replicate at its index or refers to at least one store
the flushed-stores snapshot reports as flushed; PlaySegments then returns
Corruption with the consensus bootstrap info (and the bootstrap) untouched.
The check passes exactly when every buffered commit has a pending replicate
and refers only to unflushed stores; the orphaned replicates are then added
to the consensus bootstrap info. -/
theorem C9_buffered_commits_checked_at_end {W : Type} (env : Env W) (tb : TabletBootstrap W)
    (state : ReplayState) (ci : ConsensusBootstrapInfo) :
    (CheckPendingCommits tb.flushed_stores_ state.pending_replicates state.pending_commits
        = Status.Corruption ↔
      ∃ p ∈ state.pending_commits, ContainsKey state.pending_replicates p.1 = false ∨
        ∃ op ∈ p.2.commit.result, ∃ store ∈ op.mutated_stores,
          tb.flushed_stores_.WasStoreAlreadyFlushed store = true) ∧
    (CheckPendingCommits tb.flushed_stores_ state.pending_replicates state.pending_commits
        = Status.OK ↔
      ∀ p ∈ state.pending_commits, ContainsKey state.pending_replicates p.1 = true ∧
        ∀ op ∈ p.2.commit.result, ∀ store ∈ op.mutated_stores,
          tb.flushed_stores_.WasStoreAlreadyFlushed store = false) ∧
    (CheckPendingCommits tb.flushed_stores_ state.pending_replicates state.pending_commits
        = Status.Corruption ∧
      FinishPlaySegments env tb state ci = (Status.Corruption, tb, ci) ∨
     CheckPendingCommits tb.flushed_stores_ state.pending_replicates state.pending_commits
        = Status.OK ∧
      (FinishPlaySegments env tb state ci).2.2.orphaned_replicates =
        ci.orphaned_replicates ++ OrphanedReplicates env state) := by
  have hok : CheckPendingCommits tb.flushed_stores_ state.pending_replicates
      state.pending_commits = Status.OK ↔
      ∀ p ∈ state.pending_commits, ContainsKey state.pending_replicates p.1 = true ∧
        ∀ op ∈ p.2.commit.result, ∀ store ∈ op.mutated_stores,
          tb.flushed_stores_.WasStoreAlreadyFlushed store = false := by
    rw [CheckPendingCommits_eq_OK_iff]
    constructor
    · intro h p hp
      refine ⟨(h p hp).1, ?_⟩
      intro op hop store hstore
      have h2 := (h p hp).2
      by_contra h3
      have h4 : AreAnyStoresAlreadyFlushed tb.flushed_stores_ p.2.commit = true := by
        rw [AreAnyStoresAlreadyFlushed_iff]
        exact ⟨op, hop, store, hstore, by simpa using h3⟩
      rw [h4] at h2
      simp at h2
    · intro h p hp
      refine ⟨(h p hp).1, ?_⟩
      by_contra h3
      have h4 : AreAnyStoresAlreadyFlushed tb.flushed_stores_ p.2.commit = true := by
        simpa using h3
      rw [AreAnyStoresAlreadyFlushed_iff] at h4
      obtain ⟨op, hop, store, hstore, hf⟩ := h4
      have h5 := (h p hp).2 op hop store hstore
      rw [hf] at h5
      simp at h5
  have hcases := CheckPendingCommits_OK_or_Corruption tb.flushed_stores_
    state.pending_replicates state.pending_commits
  refine ⟨?_, hok, ?_⟩
  · constructor
    · intro hc
      by_contra hne
      have hall : CheckPendingCommits tb.flushed_stores_ state.pending_replicates
          state.pending_commits = Status.OK := by
        rw [hok]
        intro p hp
        constructor
        · by_contra h1
          exact hne ⟨p, hp, Or.inl (by simpa using h1)⟩
        · intro op hop store hstore
          by_contra h1
          exact hne ⟨p, hp, Or.inr ⟨op, hop, store, hstore, by simpa using h1⟩⟩
      rw [hall] at hc
      simp at hc
    · rintro ⟨p, hp, hbad⟩
      rcases hcases with h1 | h1
      · rw [hok] at h1
        obtain ⟨g1, g2⟩ := h1 p hp
        rcases hbad with hbad | ⟨op, hop, store, hstore, hf⟩
        · rw [g1] at hbad
          simp at hbad
        · rw [g2 op hop store hstore] at hf
          simp at hf
      · exact h1
  · rcases hcases with h1 | h1
    · right
      refine ⟨h1, ?_⟩
      unfold FinishPlaySegments
      rw [h1]
      simp only
      split_ifs <;> rfl
    · left
      refine ⟨h1, ?_⟩
      unfold FinishPlaySegments
      rw [h1]

/-! ### Buffered commits are flushed in index order -/

theorem find_eq_none_of_lt (l : OpIndexToEntryMap) (x : Int) (h : ∀ p ∈ l, x < p.1) :
    find l x = none := by
  induction l with
  | nil => rfl
  | cons q rest ih =>
    obtain ⟨k, v⟩ := q
    have hk : x < k := h (k, v) (List.mem_cons_self _ _)
    have hne : ¬ k = x := by omega
    unfold find
    rw [if_neg hne]
    exact ih (fun p hp => h p (List.mem_cons_of_mem _ hp))

theorem ContainsKey_of_mem (l : OpIndexToEntryMap) (k : Int) (v : LogEntryPB)
    (h : (k, v) ∈ l) : ContainsKey l k = true := by
  induction l with
  | nil => simp at h
  | cons q rest ih =>
    obtain ⟨k2, v2⟩ := q
    unfold ContainsKey find
    by_cases hk : k2 = k
    · simp [hk]
    · rw [if_neg hk]
      rw [List.mem_cons] at h
      rcases h with h | h
      · simp only [Prod.mk.injEq] at h
        exact absurd h.1.symm hk
      · exact ih h

theorem erase_key_head (k : Int) (c : LogEntryPB) (rest : OpIndexToEntryMap)
    (hwf : MapWF ((k, c) :: rest)) : erase_key ((k, c) :: rest) k = rest := by
  have hwf2 : (∀ a ∈ keys rest, k < a) ∧ MapWF rest := by
    simpa [MapWF, keys] using hwf
  unfold erase_key
  rw [List.filter_cons]
  simp only [ne_eq, not_true_eq_false, decide_False, Bool.false_eq_true, if_false]
  rw [List.filter_eq_self]
  intro p hp
  have hlt : k < p.1 := hwf2.1 p.1 (List.mem_map_of_mem Prod.fst hp)
  simp only [decide_eq_true_eq]
  omega

/-- The loop of HandleCommitMessage agrees with the in-order flush of the
spec when the buffered commits are stored under their own index and all lie
above the index applied last. -/
theorem ApplyBufferedCommits_eq_consecutive {W : Type} (env : Env W) (l : OpIndexToEntryMap) :
    ∀ (tb : TabletBootstrap W) (state : ReplayState) (last_applied : OpId),
      state.pending_commits = l → MapWF l →
      (∀ p ∈ l, last_applied.index < p.1 ∧ p.2.commit.commited_op_id.index = p.1) →
      ApplyBufferedCommits env tb state last_applied l =
        ApplyConsecutiveCommits env l.length tb state last_applied.index := by
  induction l with
  | nil =>
    intro tb state last_applied hpc _ _
    rw [List.length_nil]
    unfold ApplyBufferedCommits ApplyConsecutiveCommits
    rw [← hpc]
  | cons q rest ih =>
    intro tb state last_applied hpc hwf habove
    obtain ⟨k, c⟩ := q
    have hwf2 : (∀ a ∈ keys rest, k < a) ∧ MapWF rest := by
      simpa [MapWF, keys] using hwf
    have hk := habove (k, c) (List.mem_cons_self _ _)
    simp only at hk
    unfold ApplyBufferedCommits
    rw [List.length_cons]
    unfold ApplyConsecutiveCommits
    by_cases hnext : k = last_applied.index + 1
    · have hfind : find state.pending_commits (last_applied.index + 1) = some c := by
        rw [hpc, ← hnext]
        simp [find]
      have herase : erase_key state.pending_commits (last_applied.index + 1) = rest := by
        rw [hpc, ← hnext]
        exact erase_key_head k c rest hwf
      rw [if_pos hnext, hfind]
      simp only [herase]
      by_cases hok : (ApplyCommitMessage env tb { state with pending_commits := rest } c).1.ok
          = true
      · simp only [hok, Bool.not_true, Bool.false_eq_true, if_false]
        have hfr := ApplyCommitMessage_frame env tb { state with pending_commits := rest } c
        have h3 := hfr.2.2.1
        simp only at h3
        rw [ih _ _ c.commit.commited_op_id h3 hwf2.2, hk.2, hnext]
        intro p hp
        refine ⟨?_, (habove p (List.mem_cons_of_mem _ hp)).2⟩
        rw [hk.2]
        exact hwf2.1 p.1 (List.mem_map_of_mem Prod.fst hp)
      · have hok2 : (ApplyCommitMessage env tb { state with pending_commits := rest } c).1.ok
            = false := by simpa using hok
        simp only [hok2, Bool.not_false, if_true]
    · have hfind : find state.pending_commits (last_applied.index + 1) = none := by
        rw [hpc]
        apply find_eq_none_of_lt
        intro p hp
        rw [List.mem_cons] at hp
        rcases hp with hp | hp
        · subst hp
          simp only
          omega
        · have := hwf2.1 p.1 (List.mem_map_of_mem Prod.fst hp)
          omega
      rw [if_neg hnext, hfind]
      simp only
      rw [← hpc]

theorem HandleOrphanedCommit_world {W : Type} (tb : TabletBootstrap W) (state : ReplayState)
    (c : LogEntryPB) : (HandleOrphanedCommit tb state c).2.1.world = tb.world := by
  unfold HandleOrphanedCommit
  simp only
  split_ifs <;> rfl

theorem emplace_absent (m : OpIndexToEntryMap) (i : Int) (c : LogEntryPB)
    (h : ContainsKey m i = false) :
    emplace m i c = (erase_from_lower_bound m i ++ (i, c) :: lower_bound m i, true) := by
  rw [emplace_eq]
  cases hlb : lower_bound m i with
  | nil => rfl
  | cons q rest =>
    obtain ⟨k, v⟩ := q
    have hne : ¬ k = i := by
      intro hk
      subst hk
      have hmem : (k, v) ∈ m := by
        have h2 : (k, v) ∈ lower_bound m k := by
          rw [hlb]
          exact List.mem_cons_self _ _
        unfold lower_bound at h2
        exact (List.dropWhile_suffix _).subset h2
      rw [ContainsKey_of_mem m k v hmem] at h
      simp at h
    simp only [hne, if_false]

/-- C8, the code at the failing input: the legacy replay, from the empty replay
state, of the log R(1,5) R(1,6) C(1,6) R(2,3) C(1,5) C(2,3) C(1,5), every entry
of which is accepted with OK.  After the first six entries the operation 3 is
applied, the replicates 5 and 6 are pending and commits are buffered at 5 and
6.  The last COMMIT has the smallest pending index, 5, and is applied, but the
commit buffered at index 6 = 5 + 1 is neither applied nor removed: the loop
only looks at the first buffered commit, the one left at index 5, where the
source comment says that the commit and all the commits that immediately follow
in the sequence are applied. -/
theorem C8_buffered_commit_left_behind :
    ∃ tb1 s1 tb2 s2,
      ReplayEntries (sampleEnv TableType.KUDU_COLUMNAR_TABLE_TYPE) (freshBootstrap ⟨0, []⟩)
        legacyStart
        [replicateEntry ⟨1, 5⟩ ⟨0, 0⟩, replicateEntry ⟨1, 6⟩ ⟨0, 0⟩, commitEntry ⟨1, 6⟩ [],
         replicateEntry ⟨2, 3⟩ ⟨0, 0⟩, commitEntry ⟨1, 5⟩ [], commitEntry ⟨2, 3⟩ []]
        = some (Status.OK, tb1, s1) ∧
      tb1.world = [3] ∧ keys s1.pending_replicates = [5, 6] ∧
      keys s1.pending_commits = [5, 6] ∧
      HandleCommitMessage (sampleEnv TableType.KUDU_COLUMNAR_TABLE_TYPE) tb1 s1
        (commitEntry ⟨1, 5⟩ []) = some (Status.OK, tb2, s2) ∧
      tb2.world = [3, 5] ∧ keys s2.pending_replicates = [6] ∧
      keys s2.pending_commits = [5, 6] ∧
      ReplayEntries (sampleEnv TableType.KUDU_COLUMNAR_TABLE_TYPE) (freshBootstrap ⟨0, []⟩)
        legacyStart
        [replicateEntry ⟨1, 5⟩ ⟨0, 0⟩, replicateEntry ⟨1, 6⟩ ⟨0, 0⟩, commitEntry ⟨1, 6⟩ [],
         replicateEntry ⟨2, 3⟩ ⟨0, 0⟩, commitEntry ⟨1, 5⟩ [], commitEntry ⟨2, 3⟩ [],
         commitEntry ⟨1, 5⟩ []] = some (Status.OK, tb2, s2) :=
  ⟨_, _, _, _, rfl, rfl, rfl, rfl, rfl, rfl, rfl, rfl, rfl⟩

/-- HandleCommitMessage on the legacy backend with a well-formed pending_commits.
(1) When the commit's index i is the smallest index in pending_replicates and
every buffered commit is stored under its own index above i, HandleCommitMessage
applies the commit and then applies and removes the buffered commits at
i + 1, i + 2, ... in ascending order, stopping at the first index with no
buffered commit or at the first commit that fails to apply.
(2) When i matches a later pending replicate and no commit is buffered at i,
the commit is stored in pending_commits and nothing else changes.
(3) When i is not the smallest pending replicate index, nothing is applied:
the world and pending_replicates are as before. -/
theorem HandleCommitMessage_flushes_in_index_order {W : Type} (env : Env W) (tb : TabletBootstrap W)
    (state : ReplayState) (c : LogEntryPB)
    (hlegacy : env.table_type = TableType.KUDU_COLUMNAR_TABLE_TYPE)
    (hwf : MapWF state.pending_commits) :
    (∀ rep rest,
      state.pending_replicates = (c.commit.commited_op_id.index, rep) :: rest →
      (∀ p ∈ state.pending_commits,
        c.commit.commited_op_id.index < p.1 ∧ p.2.commit.commited_op_id.index = p.1) →
      HandleCommitMessage env tb state c =
        some (
          if !(ApplyCommitMessage env tb
              (state.UpdateCommittedOpId c.commit.commited_op_id) c).1.ok then
            ApplyCommitMessage env tb (state.UpdateCommittedOpId c.commit.commited_op_id) c
          else
            ApplyConsecutiveCommits env state.pending_commits.length
              (ApplyCommitMessage env tb
                (state.UpdateCommittedOpId c.commit.commited_op_id) c).2.1
              (ApplyCommitMessage env tb
                (state.UpdateCommittedOpId c.commit.commited_op_id) c).2.2
              c.commit.commited_op_id.index)) ∧
    (∀ first rep rest,
      state.pending_replicates = (first, rep) :: rest →
      first < c.commit.commited_op_id.index →
      ContainsKey state.pending_replicates c.commit.commited_op_id.index = true →
      ContainsKey state.pending_commits c.commit.commited_op_id.index = false →
      HandleCommitMessage env tb state c =
        some (Status.OK, tb,
          { state.UpdateCommittedOpId c.commit.commited_op_id with
            pending_commits :=
              erase_from_lower_bound state.pending_commits c.commit.commited_op_id.index ++
                (c.commit.commited_op_id.index, c) ::
                  lower_bound state.pending_commits c.commit.commited_op_id.index })) ∧
    ((state.pending_replicates = [] ∨
        ∃ first rep rest, state.pending_replicates = (first, rep) :: rest ∧
          first ≠ c.commit.commited_op_id.index) →
      ∀ r, HandleCommitMessage env tb state c = some r →
        r.2.1.world = tb.world ∧ r.2.2.pending_replicates = state.pending_replicates) := by
  have hfr := UpdateCommittedOpId_frame state c.commit.commited_op_id
  obtain ⟨-, hpr, hpc, -, -⟩ := hfr
  have hk : ¬ env.table_type ≠ TableType.KUDU_COLUMNAR_TABLE_TYPE := by
    simp [hlegacy]
  refine ⟨?_, ?_, ?_⟩
  · intro rep rest hhead habove
    unfold HandleCommitMessage
    rw [if_neg hk]
    simp only
    rw [hpr, hhead]
    simp only [gt_iff_lt, lt_self_iff_false, if_false, ne_eq, not_true_eq_false]
    by_cases hok : (ApplyCommitMessage env tb
        (state.UpdateCommittedOpId c.commit.commited_op_id) c).1.ok = true
    · simp only [hok, Bool.not_true, Bool.false_eq_true, if_false]
      have hfa := ApplyCommitMessage_frame env tb
        (state.UpdateCommittedOpId c.commit.commited_op_id) c
      have h3 : (ApplyCommitMessage env tb
          (state.UpdateCommittedOpId c.commit.commited_op_id) c).2.2.pending_commits
          = state.pending_commits := hfa.2.2.1.trans hpc
      rw [ApplyBufferedCommits_eq_consecutive env _ _ _ c.commit.commited_op_id rfl
        (by rw [h3]; exact hwf) (by rw [h3]; exact habove), h3]
    · have hok2 : (ApplyCommitMessage env tb
          (state.UpdateCommittedOpId c.commit.commited_op_id) c).1.ok = false := by
        simpa using hok
      simp only [hok2, Bool.not_false, if_true]
  · intro first rep rest hhead hlt hin hnot
    unfold HandleCommitMessage
    rw [if_neg hk]
    simp only
    rw [hpr, hpc, emplace_absent _ _ _ hnot, hin, hhead]
    have h1 : ¬ first > c.commit.commited_op_id.index := by omega
    have h2 : first ≠ c.commit.commited_op_id.index := by omega
    simp only [h1, h2, if_false, ne_eq, not_false_eq_true, if_true, Bool.not_true,
      Bool.false_eq_true]
  · intro hcase r h
    unfold HandleCommitMessage at h
    rw [if_neg hk] at h
    simp only at h
    rw [hpr, hpc] at h
    rcases hcase with hnil | ⟨first, rep, rest, hhead, hne⟩
    · rw [hnil] at h
      simp only at h
      injection h with h
      subst h
      rw [HandleOrphanedCommit_world, HandleOrphanedCommit_state, hpr]
      exact ⟨rfl, rfl⟩
    · rw [hhead] at h
      simp only [hne, ne_eq, not_false_eq_true, if_true] at h
      split_ifs at h
      · injection h with h
        subst h
        rw [HandleOrphanedCommit_world, HandleOrphanedCommit_state, hpr]
        exact ⟨rfl, rfl⟩
      · injection h with h
        subst h
        exact ⟨rfl, hpr⟩
      · injection h with h
        subst h
        exact ⟨rfl, hhead.symm⟩

/-- HandleCommitMessage at the legacy state with the replicates 5 and 6 pending
and a commit buffered at index 6: the COMMIT for index 5 applies 5 and then 6. -/
theorem HandleCommitMessage_flushes_in_index_order_example :
    (sampleEnv TableType.KUDU_COLUMNAR_TABLE_TYPE).table_type =
      TableType.KUDU_COLUMNAR_TABLE_TYPE ∧
    MapWF (pendingFiveSix [6]).pending_commits ∧
    (HandleCommitMessage (sampleEnv TableType.KUDU_COLUMNAR_TABLE_TYPE) (freshBootstrap ⟨0, []⟩)
      (pendingFiveSix [6]) (commitEntry ⟨1, 5⟩ [])).map
      (fun r => (r.1, r.2.1.world, keys r.2.2.pending_replicates, keys r.2.2.pending_commits))
      = some (Status.OK, [5, 6], [], []) ∧
    HandleCommitMessage (sampleEnv TableType.KUDU_COLUMNAR_TABLE_TYPE) (freshBootstrap ⟨0, []⟩)
      (pendingFiveSix [6]) (commitEntry ⟨1, 5⟩ []) =
      some (ApplyConsecutiveCommits (sampleEnv TableType.KUDU_COLUMNAR_TABLE_TYPE) 1
        (ApplyCommitMessage (sampleEnv TableType.KUDU_COLUMNAR_TABLE_TYPE)
          (freshBootstrap ⟨0, []⟩) ((pendingFiveSix [6]).UpdateCommittedOpId ⟨1, 5⟩)
          (commitEntry ⟨1, 5⟩ [])).2.1
        (ApplyCommitMessage (sampleEnv TableType.KUDU_COLUMNAR_TABLE_TYPE)
          (freshBootstrap ⟨0, []⟩) ((pendingFiveSix [6]).UpdateCommittedOpId ⟨1, 5⟩)
          (commitEntry ⟨1, 5⟩ [])).2.2
        5) :=
  ⟨rfl, by decide, rfl,
   (HandleCommitMessage_flushes_in_index_order (sampleEnv TableType.KUDU_COLUMNAR_TABLE_TYPE)
      (freshBootstrap ⟨0, []⟩) (pendingFiveSix [6]) (commitEntry ⟨1, 5⟩ []) rfl (by decide)).1
      _ _ rfl (by decide)⟩

/-- PlaySegments ends with FinishPlaySegments on the replayed state whenever
the segments snapshot, the schema rewind, the opening of the new log and the
replay of every segment succeed. -/
theorem PlaySegments_eq_FinishPlaySegments {W : Type} (env : Env W) (tb tb1 : TabletBootstrap W)
    (state1 : ReplayState) (snapshot_status : Status) (segments : List Segment)
    (ci : ConsensusBootstrapInfo)
    (h1 : snapshot_status.ok = true)
    (h2 : (RewindSchema env tb.world segments).1.ok = true)
    (h3 : (env.OpenNewLog (RewindSchema env tb.world segments).2).1.ok = true)
    (h4 : ReplaySegments env
        { tb with world := (env.OpenNewLog (RewindSchema env tb.world segments).2).2 }
        (ReplayState.new env.kUnknownTerm env.kMin
          (if non_kudu env then
            { term := (env.MaxPersistentOpId tb.world).term,
              index := (env.MaxPersistentOpId tb.world).index }
           else MinimumOpId))
        segments = some (Status.OK, tb1, state1)) :
    PlaySegments env tb snapshot_status segments ci =
      some (FinishPlaySegments env tb1 state1 ci) := by
  unfold PlaySegments
  simp only [h1, h2, h3, Bool.not_true, Bool.false_eq_true, if_false]
  unfold ReplayAndFinish
  rw [h4]

/-- A legacy log R(1,1) R(1,2) C(1,2) whose buffered commit refers to a
mutable store that is already flushed: PlaySegments returns Corruption and
leaves the consensus bootstrap info as it was. -/
theorem PlaySegments_flushed_buffered_commit :
    (PlaySegments (sampleEnv TableType.KUDU_COLUMNAR_TABLE_TYPE) (freshBootstrap ⟨5, []⟩)
      Status.OK
      [⟨[replicateEntry ⟨1, 1⟩ ⟨0, 0⟩, replicateEntry ⟨1, 2⟩ ⟨0, 0⟩,
         commitEntry ⟨1, 2⟩ [⟨false, false, [⟨true, 3, -1, -1⟩]⟩]], Status.OK⟩]
      ⟨MinimumOpId, MinimumOpId, []⟩).map (fun r => (r.1, r.2.2))
      = some (Status.Corruption, ⟨MinimumOpId, MinimumOpId, []⟩) ∧
    (PlaySegments (sampleEnv TableType.KUDU_COLUMNAR_TABLE_TYPE) (freshBootstrap ⟨2, []⟩)
      Status.OK
      [⟨[replicateEntry ⟨1, 1⟩ ⟨0, 0⟩, replicateEntry ⟨1, 2⟩ ⟨0, 0⟩,
         commitEntry ⟨1, 2⟩ [⟨false, false, [⟨true, 3, -1, -1⟩]⟩]], Status.OK⟩]
      ⟨MinimumOpId, MinimumOpId, []⟩).map
      (fun r => (r.1, r.2.2.last_id, r.2.2.orphaned_replicates.map (fun m => m.id)))
      = some (Status.OK, ⟨1, 2⟩, [⟨1, 1⟩, ⟨1, 2⟩]) := by
  constructor <;> rfl

/-! ### The snapshot of flushed stores -/

theorem InitFromLoop_OK (rowsets : List (Int × Int)) :
    ∀ (fs fs2 : FlushedStoresSnapshot),
      FlushedStoresSnapshot.InitFromLoop fs rowsets = (Status.OK, fs2) →
      fs2.last_durable_mrs_id_ = fs.last_durable_mrs_id_ ∧
      fs2.flushed_dms_by_drs_id_ = fs.flushed_dms_by_drs_id_ ++ rowsets := by
  induction rowsets with
  | nil =>
    intro fs fs2 h
    unfold FlushedStoresSnapshot.InitFromLoop at h
    injection h with _ h2
    subst h2
    simp
  | cons p rest ih =>
    intro fs fs2 h
    obtain ⟨id, dms⟩ := p
    unfold FlushedStoresSnapshot.InitFromLoop at h
    unfold InsertIfNotPresent at h
    cases hf : FindCopy fs.flushed_dms_by_drs_id_ id with
    | some v =>
      simp [hf] at h
    | none =>
      simp only [hf, Bool.not_true, Bool.false_eq_true, if_false] at h
      obtain ⟨h1, h2⟩ := ih _ _ h
      simp only at h1 h2
      exact ⟨h1, by rw [h2, List.append_assoc]; rfl⟩

/-- C11: WasStoreAlreadyFlushed(target) is (target.mrs_id <= last_durable_mrs_id)
when the target names a mutable store; otherwise it is true exactly when the
row set of the target is unknown to the snapshot or target.dms_id is at most
the last durable redo delta-store id recorded for that row set.  It is
downward closed: a target with the same kind and row set and smaller or equal
ids is reported flushed whenever the larger one is.  The ids recorded by a
successful InitFrom are those of the tablet metadata. -/
theorem C11_WasStoreAlreadyFlushed :
    (∀ (fs : FlushedStoresSnapshot) (target : MemStoreTargetPB),
      (target.has_mrs_id = true ∧
        fs.WasStoreAlreadyFlushed target = decide (target.mrs_id ≤ fs.last_durable_mrs_id_)) ∨
      (target.has_mrs_id = false ∧
        (fs.WasStoreAlreadyFlushed target = true ↔
          (FindCopy fs.flushed_dms_by_drs_id_ target.rs_id = none ∨
            ∃ d, FindCopy fs.flushed_dms_by_drs_id_ target.rs_id = some d ∧
              target.dms_id ≤ d)))) ∧
    (∀ (fs : FlushedStoresSnapshot) (target smaller : MemStoreTargetPB),
      smaller.has_mrs_id = target.has_mrs_id → smaller.rs_id = target.rs_id →
      smaller.mrs_id ≤ target.mrs_id → smaller.dms_id ≤ target.dms_id →
      fs.WasStoreAlreadyFlushed target = true → fs.WasStoreAlreadyFlushed smaller = true) ∧
    (∀ (fs fs2 : FlushedStoresSnapshot) (tablet_meta : TabletMetadata),
      fs.InitFrom tablet_meta = some (Status.OK, fs2) →
      fs2.last_durable_mrs_id_ = tablet_meta.last_durable_mrs_id ∧
      fs2.flushed_dms_by_drs_id_ = tablet_meta.rowsets) := by
  refine ⟨?_, ?_, ?_⟩
  · intro fs target
    unfold FlushedStoresSnapshot.WasStoreAlreadyFlushed
    by_cases h : target.has_mrs_id = true
    · left
      exact ⟨h, by rw [if_pos h]⟩
    · right
      refine ⟨by simpa using h, ?_⟩
      rw [if_neg h]
      cases hf : FindCopy fs.flushed_dms_by_drs_id_ target.rs_id with
      | none => simp
      | some d => simp
  · intro fs target smaller hk hrs hm hd hflushed
    unfold FlushedStoresSnapshot.WasStoreAlreadyFlushed at hflushed ⊢
    rw [hk, hrs]
    by_cases h : target.has_mrs_id = true
    · rw [if_pos h] at hflushed ⊢
      simp only [decide_eq_true_eq] at hflushed ⊢
      omega
    · rw [if_neg h] at hflushed ⊢
      cases hf : FindCopy fs.flushed_dms_by_drs_id_ target.rs_id with
      | none => rfl
      | some d =>
        rw [hf] at hflushed
        simp only [ite_eq_left_iff, not_le, Bool.false_eq_true, imp_false, not_lt] at hflushed ⊢
        omega
  · intro fs fs2 tablet_meta h
    unfold FlushedStoresSnapshot.InitFrom at h
    by_cases he : fs.flushed_dms_by_drs_id_ = []
    · rw [if_neg (by simpa using he)] at h
      injection h with h
      obtain ⟨h1, h2⟩ := InitFromLoop_OK _ _ _ h
      simp only at h1 h2
      rw [he] at h2
      exact ⟨h1, by simpa using h2⟩
    · rw [if_pos he] at h
      simp at h

/-! ### Safe time after the replay of an operation -/

/-- C12: when HandleOperation fails, HandleEntryPair returns its status and
hands no safe time to the MVCC manager; when it succeeds, no safe time is
handed over for NO_OP and CHANGE_CONFIG_OP, the hybrid time of the replicate
is handed over when the external consistency mode is not COMMIT_WAIT, and the
hybrid time moved back by max_clock_sync_error_usec of physical time when it
is COMMIT_WAIT.  The operation type is that of the commit when there is one,
of the replicate otherwise. -/
theorem C12_safe_time_after_replay {W : Type} (env : Env W) (w : W)
    (replicate_entry : LogEntryPB) (commit_entry : Option LogEntryPB) :
    let op_type : OperationType :=
      match commit_entry with
      | none => replicate_entry.replicate.op_type
      | some c => c.commit.op_type
    let r := HandleOperation env w op_type replicate_entry.replicate
      (commit_entry.map (fun c => c.commit))
    HandleEntryPair env w replicate_entry commit_entry =
      if r.1 ≠ Status.OK then r
      else if op_type = OperationType.NO_OP ∨ op_type = OperationType.CHANGE_CONFIG_OP then
        (Status.OK, r.2)
      else if replicate_entry.replicate.external_consistency_mode =
          ExternalConsistencyMode.COMMIT_WAIT then
        (Status.OK, env.OfflineAdjustSafeTime r.2
          (env.AddPhysicalTimeToHybridTime replicate_entry.replicate.hybrid_time
            (-env.max_clock_sync_error_usec)))
      else
        (Status.OK, env.OfflineAdjustSafeTime r.2 replicate_entry.replicate.hybrid_time) := by
  intro op_type r
  have hr : HandleEntryPair env w replicate_entry commit_entry =
      if !r.1.ok then (r.1, r.2)
      else if op_type = OperationType.NO_OP ∨ op_type = OperationType.CHANGE_CONFIG_OP then
        (Status.OK, r.2)
      else
        (Status.OK, env.OfflineAdjustSafeTime r.2
          (if replicate_entry.replicate.external_consistency_mode ≠
              ExternalConsistencyMode.COMMIT_WAIT then
            replicate_entry.replicate.hybrid_time
          else
            env.AddPhysicalTimeToHybridTime replicate_entry.replicate.hybrid_time
              (-env.max_clock_sync_error_usec))) := by
    cases commit_entry <;> rfl
  rw [hr]
  by_cases hok : r.1 = Status.OK
  · have h1 : r.1.ok = true := by rw [hok]; rfl
    have c1 : ¬ ((!r.1.ok) = true) := by simp [h1]
    have c2 : ¬ (r.1 ≠ Status.OK) := by simp [hok]
    rw [if_neg c1, if_neg c2]
    by_cases hop : op_type = OperationType.NO_OP ∨ op_type = OperationType.CHANGE_CONFIG_OP
    · rw [if_pos hop, if_pos hop]
    · rw [if_neg hop, if_neg hop]
      by_cases hm : replicate_entry.replicate.external_consistency_mode =
          ExternalConsistencyMode.COMMIT_WAIT
      · simp [hm]
      · simp [hm]
  · have h1 : r.1.ok = false := by
      cases hs : r.1 <;> simp_all [Status.ok]
    have c1 : (!r.1.ok) = true := by simp [h1]
    have c2 : r.1 ≠ Status.OK := hok
    rw [if_pos c1, if_pos c2]

/-! ### The tablet lifecycle and the shutdown guard -/

theorem GuardAgainstRocksDBShutdown_state {S : Type} (t : Tablet S)
    (body : Tablet S → Status × Tablet S)
    (hbody : ∀ t1 : Tablet S, (body t1).2.state_ = t1.state_) :
    (Tablet.GuardAgainstRocksDBShutdown t body).2.state_ = t.state_ := by
  unfold Tablet.GuardAgainstRocksDBShutdown
  split_ifs
  · rfl
  · exact hbody _

theorem RunTabletCall_rank {S : Type} (env : TabletEnv S) (t t2 : Tablet S) (call : TabletCall)
    (h : RunTabletCall env t call = some t2) : t.state_.rank ≤ t2.state_.rank := by
  cases call with
  | Open =>
    simp only [RunTabletCall, Tablet.Open] at h
    split_ifs at h with h1 h2 h3
    · simp at h
    · simp at h
    · have h5 := Option.some.inj h
      subst h5
      exact Nat.le_refl _
    · have h5 := Option.some.inj h
      subst h5
      have h4 : t.state_ = TabletState.kInitialized := by simpa using h1
      simp only [h4]
      decide
  | MarkFinishedBootstrapping =>
    simp only [RunTabletCall, Tablet.MarkFinishedBootstrapping] at h
    split_ifs at h with h1
    injection h with h
    subst h
    have h4 : t.state_ = TabletState.kBootstrapping := by simpa using h1
    simp only [h4]
    decide
  | Shutdown =>
    simp only [RunTabletCall, Tablet.Shutdown] at h
    split_ifs at h
    injection h with h
    subst h
    show t.state_.rank ≤ TabletState.kShutdown.rank
    cases t.state_ <;> decide
  | SetShutdownRequestedFlag =>
    simp only [RunTabletCall, Option.some.injEq] at h
    subst h
    exact Nat.le_refl _
  | CreateCheckpoint =>
    simp only [RunTabletCall, Option.some.injEq] at h
    subst h
    unfold Tablet.CreateCheckpoint
    rw [GuardAgainstRocksDBShutdown_state _ _ (fun _ => rfl)]
  | HandleRedisReadRequest =>
    simp only [RunTabletCall, Option.some.injEq] at h
    subst h
    unfold Tablet.HandleRedisReadRequest
    rw [GuardAgainstRocksDBShutdown_state _ _ (fun _ => rfl)]
  | HandleQLReadRequest =>
    simp only [RunTabletCall, Option.some.injEq] at h
    subst h
    unfold Tablet.HandleQLReadRequest
    rw [GuardAgainstRocksDBShutdown_state _ _ (fun _ => rfl)]
  | KeyValueBatchFromRedisWriteBatch =>
    simp only [RunTabletCall, Option.some.injEq] at h
    subst h
    unfold Tablet.KeyValueBatchFromRedisWriteBatch
    rw [GuardAgainstRocksDBShutdown_state _ _ (fun _ => rfl)]
  | KeyValueBatchFromKuduRowOps =>
    simp only [RunTabletCall, Option.some.injEq] at h
    subst h
    unfold Tablet.KeyValueBatchFromKuduRowOps
    rw [GuardAgainstRocksDBShutdown_state _ _ (fun _ => rfl)]
  | QLCaptureConsistentIterators =>
    simp only [RunTabletCall, Option.some.injEq] at h
    subst h
    unfold Tablet.QLCaptureConsistentIterators
    rw [GuardAgainstRocksDBShutdown_state _ _ (fun _ => rfl)]
  | Flush mode =>
    simp only [RunTabletCall, Option.some.injEq] at h
    subst h
    have hf : (t.FlushUnlocked env mode).2.state_ = t.state_ := by
      unfold Tablet.FlushUnlocked
      simp only
      split_ifs <;> rfl
    unfold Tablet.Flush
    split_ifs <;> rw [hf]

/-- C13: Open moves a tablet from Initialized to Bootstrapping exactly when the
opening of the storage succeeds and leaves it Initialized otherwise;
MarkFinishedBootstrapping moves Bootstrapping to Open; Shutdown sets Shutdown
from any state; and along every sequence of calls on a tablet the state never
moves to an earlier one in the order Initialized, Bootstrapping, Open,
Shutdown.  The three functions do return when their CHECKs hold: Open on an
initialized tablet whose schema has column ids, MarkFinishedBootstrapping on a
bootstrapping tablet, Shutdown when the pending operations drain. -/
theorem C13_lifecycle_moves_forward {S : Type} (env : TabletEnv S) :
    (∀ (t : Tablet S) (r : Status × Tablet S), t.Open env = some r →
      t.state_ = TabletState.kInitialized ∧
      (r.1 = Status.OK ∧ r.2.state_ = TabletState.kBootstrapping ∨
       r.1 ≠ Status.OK ∧ r.2.state_ = TabletState.kInitialized)) ∧
    (∀ (t t2 : Tablet S), t.MarkFinishedBootstrapping = some t2 →
      t.state_ = TabletState.kBootstrapping ∧ t2.state_ = TabletState.kOpen) ∧
    (∀ (t t2 : Tablet S), t.Shutdown env = some t2 → t2.state_ = TabletState.kShutdown) ∧
    (∀ (calls : List TabletCall) (t : Tablet S),
      List.Chain (fun a b : Tablet S => a.state_.rank ≤ b.state_.rank) t
        (RunTabletCalls env t calls)) ∧
    (∀ t : Tablet S, t.state_ = TabletState.kInitialized →
      env.schema_has_column_ids t.world = true → ∃ r, t.Open env = some r) ∧
    (∀ t : Tablet S, t.state_ = TabletState.kBootstrapping →
      t.MarkFinishedBootstrapping = some { t with state_ := TabletState.kOpen }) ∧
    (∀ t : Tablet S,
      (env.WaitForAllOpsToFinish (env.UnregisterMaintenanceOps t.world)
        t.pending_op_counter_).ok = true →
      ∃ t2, t.Shutdown env = some t2 ∧ t2.state_ = TabletState.kShutdown) := by
  refine ⟨?_, ?_, ?_, ?_, ?_, ?_, ?_⟩
  · intro t r h
    simp only [Tablet.Open] at h
    split_ifs at h with h1 h2 h3
    · injection h with h
      subst h
      have h4 : t.state_ = TabletState.kInitialized := by simpa using h1
      refine ⟨h4, Or.inr ⟨?_, h4⟩⟩
      intro hok
      simp only at hok
      rw [hok] at h3
      simp [Status.ok] at h3
    · injection h with h
      subst h
      have h4 : t.state_ = TabletState.kInitialized := by simpa using h1
      exact ⟨h4, Or.inl ⟨rfl, rfl⟩⟩
  · intro t t2 h
    simp only [Tablet.MarkFinishedBootstrapping] at h
    split_ifs at h with h1
    injection h with h
    subst h
    exact ⟨by simpa using h1, rfl⟩
  · intro t t2 h
    simp only [Tablet.Shutdown] at h
    split_ifs at h
    injection h with h
    subst h
    rfl
  · intro calls
    induction calls with
    | nil =>
      intro t
      exact List.Chain.nil
    | cons call rest ih =>
      intro t
      unfold RunTabletCalls
      cases hr : RunTabletCall env t call with
      | none => exact List.Chain.nil
      | some t1 =>
        simp only
        exact List.Chain.cons (RunTabletCall_rank env t t1 call hr) (ih t1)
  · intro t h1 h2
    have c1 : ¬ (t.state_ ≠ TabletState.kInitialized) := fun h => h h1
    have c2 : ¬ ((!env.schema_has_column_ids t.world) = true) := by simp [h2]
    simp only [Tablet.Open]
    rw [if_neg c1, if_neg c2]
    split_ifs
    · exact ⟨_, rfl⟩
    · exact ⟨_, rfl⟩
  · intro t h1
    have c1 : ¬ (t.state_ ≠ TabletState.kBootstrapping) := fun h => h h1
    simp only [Tablet.MarkFinishedBootstrapping]
    rw [if_neg c1]
  · intro t h1
    have c1 : ¬ ((!(env.WaitForAllOpsToFinish (env.UnregisterMaintenanceOps t.world)
        t.pending_op_counter_).ok) = true) := by simp [h1]
    simp only [Tablet.Shutdown, Tablet.SetShutdownRequestedFlag]
    rw [if_neg c1]
    exact ⟨_, rfl, rfl⟩

/-- Every function that starts with GUARD_AGAINST_ROCKSDB_SHUTDOWN returns
IllegalState once shutdown has been requested, and leaves the tablet, its world
and its pending-operation counter as they were. -/
theorem shutdown_guard_fails_fast {S : Type} (env : TabletEnv S) (t : Tablet S)
    (h : t.shutdown_requested_ = true) :
    t.CreateCheckpoint env = (Status.IllegalState, t) ∧
    t.HandleRedisReadRequest env = (Status.IllegalState, t) ∧
    t.HandleQLReadRequest env = (Status.IllegalState, t) ∧
    t.KeyValueBatchFromRedisWriteBatch env = (Status.IllegalState, t) ∧
    t.KeyValueBatchFromKuduRowOps env = (Status.IllegalState, t) ∧
    t.QLCaptureConsistentIterators env = (Status.IllegalState, t) := by
  simp [Tablet.CreateCheckpoint, Tablet.HandleRedisReadRequest, Tablet.HandleQLReadRequest,
    Tablet.KeyValueBatchFromRedisWriteBatch, Tablet.KeyValueBatchFromKuduRowOps,
    Tablet.QLCaptureConsistentIterators, Tablet.GuardAgainstRocksDBShutdown,
    Tablet.IsShutdownRequested, h]

/-- C14, the code at the failing input: on an open RocksDB-backed tablet on
which shutdown has been requested, CreateCheckpoint fails with IllegalState
and touches nothing, but Flush returns OK after flushing the store. -/
theorem C14_flush_after_shutdown_request :
    shutdownRequestedTablet.shutdown_requested_ = true ∧
    shutdownRequestedTablet.CreateCheckpoint sampleTabletEnv =
      (Status.IllegalState, shutdownRequestedTablet) ∧
    shutdownRequestedTablet.Flush sampleTabletEnv FlushMode.kSync =
      (Status.OK,
       { shutdownRequestedTablet with world := [StorageOp.opened, StorageOp.flushed] }) := by
  refine ⟨rfl, rfl, rfl⟩

/-! ### The isolation level of a write batch -/

/-- Claim C16: GetIsolationLevel returns NON_TRANSACTIONAL for every write
batch without a transaction; for a batch with a transaction it returns the
isolation level stated in the batch if there is one, otherwise the level the
transaction participant stores for the decoded transaction id; it fails with
the decoding error when the id does not decode and with IllegalState when no
metadata is stored.  So NON_TRANSACTIONAL is returned only when there is no
transaction or when it is the level stated in the batch or stored by the
participant: it is never a default for a transaction whose level is unknown. -/
theorem C16_GetIsolationLevel {S Op : Type} (env : DocEnv S Op) (w : S)
    (write_batch : KeyValueWriteBatchPB) :
    (write_batch.has_transaction = false →
      GetIsolationLevel env w write_batch = Except.ok IsolationLevel.NON_TRANSACTIONAL) ∧
    (write_batch.has_transaction = true → write_batch.transaction.has_isolation = true →
      GetIsolationLevel env w write_batch = Except.ok write_batch.transaction.isolation) ∧
    (write_batch.has_transaction = true → write_batch.transaction.has_isolation = false →
      (∀ s, env.FullyDecodeTransactionId write_batch.transaction.transaction_id =
            Except.error s →
        GetIsolationLevel env w write_batch = Except.error s) ∧
      (∀ id, env.FullyDecodeTransactionId write_batch.transaction.transaction_id =
            Except.ok id →
        (env.ParticipantMetadata w id = none →
          GetIsolationLevel env w write_batch = Except.error Status.IllegalState) ∧
        (∀ isolation, env.ParticipantMetadata w id = some isolation →
          GetIsolationLevel env w write_batch = Except.ok isolation))) ∧
    (GetIsolationLevel env w write_batch = Except.ok IsolationLevel.NON_TRANSACTIONAL →
      write_batch.has_transaction = false ∨
      (write_batch.transaction.has_isolation = true ∧
        write_batch.transaction.isolation = IsolationLevel.NON_TRANSACTIONAL) ∨
      (write_batch.transaction.has_isolation = false ∧
        ∃ id, env.FullyDecodeTransactionId write_batch.transaction.transaction_id =
            Except.ok id ∧
          env.ParticipantMetadata w id = some IsolationLevel.NON_TRANSACTIONAL)) ∧
    GetIsolationLevel (sampleDocEnv Status.OK) [] snapshotWriteBatch =
      Except.ok IsolationLevel.SNAPSHOT_ISOLATION ∧
    GetIsolationLevel (sampleDocEnv Status.OK) []
        { snapshotWriteBatch with
          transaction := { snapshotWriteBatch.transaction with has_isolation := false } } =
      Except.ok IsolationLevel.SNAPSHOT_ISOLATION ∧
    GetIsolationLevel (sampleDocEnv Status.OK) []
        { snapshotWriteBatch with
          transaction :=
            { snapshotWriteBatch.transaction with
              has_isolation := false, transaction_id := [2] } } =
      Except.error Status.IllegalState := by
  refine ⟨?_, ?_, ?_, ?_, rfl, rfl, rfl⟩
  · intro h
    simp [GetIsolationLevel, h]
  · intro h1 h2
    simp [GetIsolationLevel, h1, h2]
  · intro h1 h2
    refine ⟨?_, ?_⟩
    · intro s hs
      simp [GetIsolationLevel, h1, h2, hs]
    · intro id hid
      refine ⟨?_, ?_⟩
      · intro hm
        simp [GetIsolationLevel, h1, h2, hid, hm]
      · intro isolation hm
        simp [GetIsolationLevel, h1, h2, hid, hm]
  · intro h
    by_cases h1 : write_batch.has_transaction = false
    · exact Or.inl h1
    · right
      have h1t : write_batch.has_transaction = true := by simpa using h1
      by_cases h2 : write_batch.transaction.has_isolation = true
      · left
        simp [GetIsolationLevel, h1t, h2] at h
        exact ⟨h2, h⟩
      · right
        have h2f : write_batch.transaction.has_isolation = false := by simpa using h2
        refine ⟨h2f, ?_⟩
        simp only [GetIsolationLevel, h1t, h2f] at h
        cases hd : env.FullyDecodeTransactionId write_batch.transaction.transaction_id with
        | error s => simp [hd] at h
        | ok id =>
          cases hm : env.ParticipantMetadata w id with
          | none => simp [hd, hm] at h
          | some isolation =>
            simp [hd, hm] at h
            exact ⟨id, rfl, by rw [hm, h]⟩

/-! ### Transaction conflicts in StartDocWriteOperation -/

/-- Changing the transaction conflict resolution of the environment does not
change the isolation level of a write batch. -/
theorem GetIsolationLevel_congr {S Op : Type} (env : DocEnv S Op)
    (f : S → KeyValueWriteBatchPB → HybridTime → Status × S) (w : S)
    (write_batch : KeyValueWriteBatchPB) :
    GetIsolationLevel { env with ResolveTransactionConflicts := f } w write_batch =
      GetIsolationLevel env w write_batch := rfl

/-- Claim C17: in Tablet::StartDocWriteOperation, for a batch whose isolation
level is not NON_TRANSACTIONAL and whose operations were applied, the
transaction conflict resolution runs on the produced write batch; when it
fails the function returns that failure and the caller's lock batch is empty
on return, when it succeeds the function returns OK and the lock batch holds
the keys locked by the preparation.  For a batch whose isolation level is
NON_TRANSACTIONAL the transaction conflict resolution is not run: the outcome
is the same whatever that resolution would do. -/
theorem C17_transaction_conflict_releases_locks {S Op : Type} (env : DocEnv S Op)
    (t : Tablet S) (doc_ops : List Op) (keys_locked : LockBatch)
    (write_batch : KeyValueWriteBatchPB) (isolation_level : IsolationLevel)
    (hl : GetIsolationLevel env t.world write_batch = Except.ok isolation_level) :
    (isolation_level ≠ IsolationLevel.NON_TRANSACTIONAL →
      ∀ a, a = env.ApplyDocWriteOperation
            (env.PrepareDocWriteOperation t.world doc_ops isolation_level keys_locked).2.2 doc_ops
            (if (env.PrepareDocWriteOperation t.world doc_ops isolation_level keys_locked).2.1 then
              env.SafeTimestampToRead
                (env.PrepareDocWriteOperation t.world doc_ops isolation_level keys_locked).2.2
             else env.kInvalidHybridTime)
            write_batch t.monotonic_counter_ →
        a.1.ok = true →
        ∀ c, c = env.ResolveTransactionConflicts (env.ClockNow a.2.1).2 a.2.2.2.1
              (env.ClockNow a.2.1).1 →
          (c.1.ok = false →
            (t.StartDocWriteOperation env doc_ops keys_locked write_batch).status = c.1 ∧
            (t.StartDocWriteOperation env doc_ops keys_locked write_batch).keys_locked = []) ∧
          (c.1.ok = true →
            (t.StartDocWriteOperation env doc_ops keys_locked write_batch).status = Status.OK ∧
            (t.StartDocWriteOperation env doc_ops keys_locked write_batch).keys_locked =
              (env.PrepareDocWriteOperation t.world doc_ops isolation_level keys_locked).1)) ∧
    (isolation_level = IsolationLevel.NON_TRANSACTIONAL →
      ∀ f : S → KeyValueWriteBatchPB → HybridTime → Status × S,
        t.StartDocWriteOperation { env with ResolveTransactionConflicts := f } doc_ops
            keys_locked write_batch =
          t.StartDocWriteOperation env doc_ops keys_locked write_batch) := by
  refine ⟨?_, ?_⟩
  · intro hne a ha hok c hc
    have key : ∀ (t1 : Tablet S) (keys : LockBatch) (ht : HybridTime),
        a = env.ApplyDocWriteOperation t1.world doc_ops ht write_batch t1.monotonic_counter_ →
        (c.1.ok = false →
          (Tablet.ResolveApplyResolve env t1 doc_ops keys write_batch isolation_level
              ht).status = c.1 ∧
          (Tablet.ResolveApplyResolve env t1 doc_ops keys write_batch isolation_level
              ht).keys_locked = []) ∧
        (c.1.ok = true →
          (Tablet.ResolveApplyResolve env t1 doc_ops keys write_batch isolation_level
              ht).status = Status.OK ∧
          (Tablet.ResolveApplyResolve env t1 doc_ops keys write_batch isolation_level
              ht).keys_locked = keys) := by
      intro t1 keys ht ha1
      have hcond : ¬ (isolation_level = IsolationLevel.NON_TRANSACTIONAL ∧
          t1.is_transactional = true) := fun h => hne h.1
      unfold Tablet.ResolveApplyResolve
      simp only [if_neg hcond]
      rw [← ha1]
      have c1 : ¬ ((!a.1.ok) = true) := by simp [hok]
      have c0 : ¬ ((!Status.OK.ok) = true) := by decide
      simp only [if_neg c0, if_neg c1, if_pos hne]
      rw [← hc]
      refine ⟨?_, ?_⟩
      · intro hf
        have c3 : (!c.1.ok) = true := by simp [hf]
        simp only [if_pos c3, and_self]
      · intro ht2
        have c3 : ¬ ((!c.1.ok) = true) := by simp [ht2]
        simp only [if_neg c3, and_self]
    unfold Tablet.StartDocWriteOperation
    rw [hl]
    simp only
    by_cases hp : (env.PrepareDocWriteOperation t.world doc_ops isolation_level keys_locked).2.1 = true
    · rw [if_pos hp] at ha
      rw [if_pos hp]
      exact key _ _ _ ha
    · rw [if_neg hp] at ha
      rw [if_neg hp]
      exact key _ _ _ ha
  · intro hnt f
    subst hnt
    unfold Tablet.StartDocWriteOperation
    rw [GetIsolationLevel_congr, hl]
    simp only [Tablet.ResolveApplyResolve, ne_eq, not_true_eq_false, if_false]

/-- C17 on an open transactional tablet: a snapshot-isolation batch of two
operations under a caller's lock batch; the conflict resolution fails with
IOError, which is returned with the lock batch emptied, and the read point
registered for the snapshot is unregistered again. -/
theorem C17_transaction_conflict_releases_locks_witness :
    GetIsolationLevel (sampleDocEnv Status.IOError) openTransactionalTablet.world
        snapshotWriteBatch = Except.ok IsolationLevel.SNAPSHOT_ISOLATION ∧
    ((openTransactionalTablet.StartDocWriteOperation (sampleDocEnv Status.IOError)
          (BuildQLWriteOps 7 (some 1) threeQLWrites.ql_write_batch [] []).2 [5]
          snapshotWriteBatch).status = Status.IOError ∧
      (openTransactionalTablet.StartDocWriteOperation (sampleDocEnv Status.IOError)
          (BuildQLWriteOps 7 (some 1) threeQLWrites.ql_write_batch [] []).2 [5]
          snapshotWriteBatch).keys_locked = []) ∧
    (openTransactionalTablet.StartDocWriteOperation (sampleDocEnv Status.IOError)
        (BuildQLWriteOps 7 (some 1) threeQLWrites.ql_write_batch [] []).2 [5]
        snapshotWriteBatch).tablet.active_readers_cnt_ = [] ∧
    (openTransactionalTablet.StartDocWriteOperation (sampleDocEnv Status.OK)
        (BuildQLWriteOps 7 (some 1) threeQLWrites.ql_write_batch [] []).2 [5]
        snapshotWriteBatch).keys_locked = [1, 3] :=
  ⟨rfl,
   ((C17_transaction_conflict_releases_locks (sampleDocEnv Status.IOError)
      openTransactionalTablet (BuildQLWriteOps 7 (some 1) threeQLWrites.ql_write_batch [] []).2
      [5] snapshotWriteBatch IsolationLevel.SNAPSHOT_ISOLATION rfl).1 (by decide) _ rfl rfl _
      rfl).1 rfl,
   rfl, rfl⟩

/-! ### Responses and document operations of a QL write batch -/

/-- The batch request set up by SetupKeyValueBatch holds the QL write batch
of the request. -/
theorem SetupKeyValueBatch_ql_write_batch (write_request : WriteRequestPB) :
    (SetupKeyValueBatch write_request).2.ql_write_batch = write_request.ql_write_batch := by
  unfold SetupKeyValueBatch
  split_ifs <;> rfl

/-- The responses added by the loop: one per request, in request order, after
the responses already present. -/
theorem BuildQLWriteOps_responses (sv : Nat) (ctx : Option TransactionId) :
    ∀ (reqs : List QLWriteRequestPB) (responses : List QLResponsePB)
      (doc_ops : List QLWriteOperation),
      (BuildQLWriteOps sv ctx reqs responses doc_ops).1 =
        responses ++ reqs.map (fun q =>
          if sv ≠ q.schema_version then
            { QLResponsePB.empty with status := QLStatus.YQL_STATUS_SCHEMA_VERSION_MISMATCH }
          else QLResponsePB.empty) := by
  intro reqs
  induction reqs with
  | nil => intro responses doc_ops; simp [BuildQLWriteOps]
  | cons q rest ih =>
    intro responses doc_ops
    unfold BuildQLWriteOps
    by_cases h : sv ≠ q.schema_version
    · rw [if_pos h, ih]
      simp [h]
    · rw [if_neg h, ih]
      have hsv0 : sv = q.schema_version := by
        by_contra hc
        exact h hc
      simp [hsv0]

/-- The document operations created by the loop: the ones already present,
and for every request with the tablet's schema version, and no other, one
operation for that request pointing at the response of the same position. -/
theorem BuildQLWriteOps_doc_ops (sv : Nat) (ctx : Option TransactionId) :
    ∀ (reqs : List QLWriteRequestPB) (responses : List QLResponsePB)
      (doc_ops : List QLWriteOperation) (op : QLWriteOperation),
      op ∈ (BuildQLWriteOps sv ctx reqs responses doc_ops).2 ↔
        op ∈ doc_ops ∨
        ∃ i q, reqs[i]? = some q ∧ sv = q.schema_version ∧
          op = { request := q, response_index := responses.length + i,
                 response := QLResponsePB.empty, txn_op_context := ctx,
                 has_rowblock := false } := by
  intro reqs
  induction reqs with
  | nil =>
    intro responses doc_ops op
    simp [BuildQLWriteOps]
  | cons q rest ih =>
    intro responses doc_ops op
    unfold BuildQLWriteOps
    by_cases h : sv ≠ q.schema_version
    · rw [if_pos h, ih]
      constructor
      · rintro (h1 | ⟨i, q2, hq, hsv, hop⟩)
        · exact Or.inl h1
        · refine Or.inr ⟨i + 1, q2, by simpa using hq, hsv, ?_⟩
          rw [hop]
          simp [Nat.add_assoc, Nat.add_comm 1 i]
      · rintro (h1 | ⟨i, q2, hq, hsv, hop⟩)
        · exact Or.inl h1
        · cases i with
          | zero =>
            simp at hq
            subst hq
            exact absurd hsv h
          | succ j =>
            refine Or.inr ⟨j, q2, by simpa using hq, hsv, ?_⟩
            rw [hop]
            simp [Nat.add_assoc, Nat.add_comm 1 j]
    · rw [if_neg h, ih]
      have hsv0 : sv = q.schema_version := by
        by_contra hc
        exact h hc
      constructor
      · rintro (h1 | ⟨i, q2, hq, hsv, hop⟩)
        · rcases List.mem_append.mp h1 with h2 | h2
          · exact Or.inl h2
          · refine Or.inr ⟨0, q, by simp, hsv0, ?_⟩
            simpa using h2
        · refine Or.inr ⟨i + 1, q2, by simpa using hq, hsv, ?_⟩
          rw [hop]
          simp [Nat.add_assoc, Nat.add_comm 1 i]
      · rintro (h1 | ⟨i, q2, hq, hsv, hop⟩)
        · exact Or.inl (List.mem_append.mpr (Or.inl h1))
        · cases i with
          | zero =>
            simp at hq
            subst hq
            refine Or.inl (List.mem_append.mpr (Or.inr ?_))
            rw [hop]
            simp
          | succ j =>
            refine Or.inr ⟨j, q2, by simpa using hq, hsv, ?_⟩
            rw [hop]
            simp [Nat.add_assoc, Nat.add_comm 1 j]

/-- The requests of the document operations, in order, are the requests with
the tablet's schema version, in request order. -/
theorem BuildQLWriteOps_requests (sv : Nat) (ctx : Option TransactionId) :
    ∀ (reqs : List QLWriteRequestPB) (responses : List QLResponsePB)
      (doc_ops : List QLWriteOperation),
      (BuildQLWriteOps sv ctx reqs responses doc_ops).2.map (fun op => op.request) =
        doc_ops.map (fun op => op.request) ++
          reqs.filter (fun q => decide (sv = q.schema_version)) := by
  intro reqs
  induction reqs with
  | nil => intro responses doc_ops; simp [BuildQLWriteOps]
  | cons q rest ih =>
    intro responses doc_ops
    unfold BuildQLWriteOps
    by_cases h : sv ≠ q.schema_version
    · rw [if_pos h, ih]
      simp [List.filter_cons, h]
    · rw [if_neg h, ih]
      have hsv0 : sv = q.schema_version := by
        by_contra hc
        exact h hc
      simp [List.filter_cons, hsv0]

/-- Writing through response pointers keeps the number of responses. -/
theorem StoreResponses_length :
    ∀ (pairs : List (QLWriteOperation × QLWriteOperation)) (responses : List QLResponsePB),
      (StoreResponses responses pairs).length = responses.length := by
  intro pairs
  induction pairs with
  | nil => intro responses; rfl
  | cons p rest ih =>
    intro responses
    obtain ⟨created, executed⟩ := p
    unfold StoreResponses
    rw [ih, List.length_set]

/-- A response no operation points at is not written. -/
theorem StoreResponses_untouched (j : Nat) :
    ∀ (pairs : List (QLWriteOperation × QLWriteOperation)) (responses : List QLResponsePB),
      (∀ p ∈ pairs, p.1.response_index ≠ j) →
      (StoreResponses responses pairs)[j]? = responses[j]? := by
  intro pairs
  induction pairs with
  | nil => intro responses _; rfl
  | cons p rest ih =>
    intro responses hp
    obtain ⟨created, executed⟩ := p
    unfold StoreResponses
    rw [ih _ (fun p hpm => hp p (List.mem_cons_of_mem _ hpm))]
    have hne : created.response_index ≠ j := hp (created, executed) (List.mem_cons_self _ _)
    exact List.getElem?_set_ne hne

/-- Status::ok() holds of OK only. -/
theorem Status_ok_iff (s : Status) : s.ok = true ↔ s = Status.OK := by
  cases s <;> simp [Status.ok]

/-- Claim C18, on the calls that pass the shutdown guard and create their
transaction operation context: Tablet::KeyValueBatchFromQLWriteBatch adds
exactly one response per request of the QL write batch, in request order,
after the responses already present, which it leaves alone; a request whose
schema version differs from the tablet's has its response set to
SCHEMA_VERSION_MISMATCH, no document operation points at that response, and
the document operations handed to StartDocWriteOperation are exactly the
requests with the tablet's schema version, in request order, each pointing at
the response of its own position; the status returned is the one of
StartDocWriteOperation on these operations. -/
theorem C18_one_response_per_request {S : Type} (env : DocEnv S QLWriteOperation)
    (t : Tablet S) (ql_write_request : WriteRequestPB) (keys_locked : LockBatch)
    (write_response : WriteResponsePB) (ql_write_ops : List QLWriteOperation)
    (txn_op_ctx : Option TransactionId) (t1 : Tablet S)
    (hs : t.shutdown_requested_ = false)
    (hc : Tablet.CreateTransactionOperationContext env
        { t with pending_op_counter_ := t.pending_op_counter_ + 1 }
        (SetupKeyValueBatch ql_write_request).1.write_batch.transaction =
      (Except.ok txn_op_ctx, t1)) :
    ∀ r doc_ops,
      r = t.KeyValueBatchFromQLWriteBatch env ql_write_request keys_locked write_response
        ql_write_ops →
      doc_ops = (BuildQLWriteOps t.schema_version txn_op_ctx ql_write_request.ql_write_batch
        write_response.ql_response_batch []).2 →
      r.status = (t1.StartDocWriteOperation env doc_ops keys_locked
        (SetupKeyValueBatch ql_write_request).1.write_batch).status ∧
      r.write_response.ql_response_batch.length =
        write_response.ql_response_batch.length + ql_write_request.ql_write_batch.length ∧
      (∀ i, i < write_response.ql_response_batch.length →
        r.write_response.ql_response_batch[i]? = write_response.ql_response_batch[i]?) ∧
      doc_ops.map (fun op => op.request) =
        ql_write_request.ql_write_batch.filter
          (fun q => decide (t.schema_version = q.schema_version)) ∧
      (∀ i q, ql_write_request.ql_write_batch[i]? = some q →
        (t.schema_version ≠ q.schema_version →
          r.write_response.ql_response_batch[write_response.ql_response_batch.length + i]? =
            some { QLResponsePB.empty with
                   status := QLStatus.YQL_STATUS_SCHEMA_VERSION_MISMATCH } ∧
          ∀ op ∈ doc_ops,
            op.response_index ≠ write_response.ql_response_batch.length + i) ∧
        (t.schema_version = q.schema_version →
          { request := q, response_index := write_response.ql_response_batch.length + i,
            response := QLResponsePB.empty, txn_op_context := txn_op_ctx,
            has_rowblock := false } ∈ doc_ops)) := by
  intro r doc_ops hr hd
  have hmem := BuildQLWriteOps_doc_ops t.schema_version txn_op_ctx
    ql_write_request.ql_write_batch write_response.ql_response_batch []
  rw [← hd] at hmem
  have hresp := BuildQLWriteOps_responses t.schema_version txn_op_ctx
    ql_write_request.ql_write_batch write_response.ql_response_batch []
  have hreqs := BuildQLWriteOps_requests t.schema_version txn_op_ctx
    ql_write_request.ql_write_batch write_response.ql_response_batch []
  rw [← hd] at hreqs
  -- the shape of the result
  have hshape : r.status = (t1.StartDocWriteOperation env doc_ops keys_locked
        (SetupKeyValueBatch ql_write_request).1.write_batch).status ∧
      r.write_response.ql_response_batch =
        StoreResponses (BuildQLWriteOps t.schema_version txn_op_ctx
            ql_write_request.ql_write_batch write_response.ql_response_batch []).1
          (doc_ops.zip (t1.StartDocWriteOperation env doc_ops keys_locked
            (SetupKeyValueBatch ql_write_request).1.write_batch).doc_ops) := by
    rw [hr]
    unfold Tablet.KeyValueBatchFromQLWriteBatch Tablet.IsShutdownRequested
    have c0 : ¬ (t.shutdown_requested_ = true) := by simp [hs]
    rw [if_neg c0]
    unfold Tablet.KeyValueBatchFromQLWriteBatchBody
    simp only [hc, SetupKeyValueBatch_ql_write_batch]
    rw [← hd]
    by_cases hok : (t1.StartDocWriteOperation env doc_ops keys_locked
        (SetupKeyValueBatch ql_write_request).1.write_batch).status.ok = true
    · have c1 : ¬ ((!(t1.StartDocWriteOperation env doc_ops keys_locked
          (SetupKeyValueBatch ql_write_request).1.write_batch).status.ok) = true) := by
        simp [hok]
      rw [if_neg c1]
      exact ⟨((Status_ok_iff _).mp hok).symm, rfl⟩
    · have c1 : (!(t1.StartDocWriteOperation env doc_ops keys_locked
          (SetupKeyValueBatch ql_write_request).1.write_batch).status.ok) = true := by
        simpa using hok
      rw [if_pos c1]
      exact ⟨rfl, rfl⟩
  obtain ⟨hst, hrb⟩ := hshape
  have hindex : ∀ (j : Nat) (p : QLWriteOperation × QLWriteOperation),
      p ∈ doc_ops.zip (t1.StartDocWriteOperation env doc_ops keys_locked
        (SetupKeyValueBatch ql_write_request).1.write_batch).doc_ops →
      (∀ op ∈ doc_ops, op.response_index ≠ j) → p.1.response_index ≠ j := by
    intro j p hp hall
    obtain ⟨a, b⟩ := p
    exact hall a (List.of_mem_zip hp).1
  refine ⟨hst, ?_, ?_, ?_, ?_⟩
  · rw [hrb, StoreResponses_length, hresp]
    simp
  · intro i hi
    rw [hrb, StoreResponses_untouched i _ _ (fun p hp => hindex i p hp ?_), hresp]
    · rw [List.getElem?_append_left hi]
    · intro op hop
      rcases (hmem op).mp hop with h0 | ⟨k, q, _, _, hopk⟩
      · simp at h0
      · rw [hopk]
        simp only
        omega
  · rw [hreqs]
    simp
  · intro i q hq
    refine ⟨?_, ?_⟩
    · intro hne
      have hnone : ∀ op ∈ doc_ops,
          op.response_index ≠ write_response.ql_response_batch.length + i := by
        intro op hop
        rcases (hmem op).mp hop with h0 | ⟨k, q2, hq2, hsv2, hopk⟩
        · simp at h0
        · rw [hopk]
          simp only
          intro heq
          have hki : k = i := by omega
          subst hki
          rw [hq] at hq2
          have := Option.some.inj hq2
          subst this
          exact hne hsv2
      refine ⟨?_, hnone⟩
      rw [hrb, StoreResponses_untouched _ _ _ (fun p hp => hindex _ p hp hnone), hresp]
      rw [List.getElem?_append_right (Nat.le_add_right _ _)]
      simp [hq, hne]
    · intro heq
      exact (hmem _).mpr (Or.inr ⟨i, q, hq, heq, rfl⟩)

/-- C18 on an open transactional tablet of schema version 7 and a batch of
three requests, the second one of schema version 6: three responses are
added, the second one is SCHEMA_VERSION_MISMATCH, and the first and the third
request are executed (each of them wrote one row into its response). -/
theorem C18_one_response_per_request_witness :
    openTransactionalTablet.shutdown_requested_ = false ∧
    Tablet.CreateTransactionOperationContext (sampleDocEnv Status.OK)
        { openTransactionalTablet with
          pending_op_counter_ := openTransactionalTablet.pending_op_counter_ + 1 }
        (SetupKeyValueBatch threeQLWrites).1.write_batch.transaction =
      (Except.ok (some 99),
       { openTransactionalTablet with
          pending_op_counter_ := openTransactionalTablet.pending_op_counter_ + 1 }) ∧
    (openTransactionalTablet.KeyValueBatchFromQLWriteBatch (sampleDocEnv Status.OK)
        threeQLWrites [] ⟨[]⟩ []).write_response.ql_response_batch.length = 3 ∧
    (openTransactionalTablet.KeyValueBatchFromQLWriteBatch (sampleDocEnv Status.OK)
        threeQLWrites [] ⟨[]⟩ []).write_response.ql_response_batch =
      [⟨QLStatus.YQL_STATUS_OK, 1⟩, ⟨QLStatus.YQL_STATUS_SCHEMA_VERSION_MISMATCH, 0⟩,
       ⟨QLStatus.YQL_STATUS_OK, 1⟩] ∧
    (openTransactionalTablet.KeyValueBatchFromQLWriteBatch (sampleDocEnv Status.OK)
        threeQLWrites [] ⟨[]⟩ []).status = Status.OK :=
  ⟨rfl, rfl,
   (C18_one_response_per_request (sampleDocEnv Status.OK) openTransactionalTablet
      threeQLWrites [] ⟨[]⟩ [] (some 99) _ rfl rfl _ _ rfl rfl).2.1,
   rfl, rfl⟩

/-- Claim C18 as stated fails on the calls that return before the loop: on a
tablet whose shutdown has been requested, and on a transactional tablet given
a transaction id that does not decode, KeyValueBatchFromQLWriteBatch returns
an error and adds no response although the batch has three requests. -/
theorem C18_no_response_on_early_return :
    threeQLWrites.ql_write_batch.length = 3 ∧
    (shutdownRequestedTablet.KeyValueBatchFromQLWriteBatch (sampleDocEnv Status.OK)
        threeQLWrites [] ⟨[]⟩ []).status = Status.IllegalState ∧
    (shutdownRequestedTablet.KeyValueBatchFromQLWriteBatch (sampleDocEnv Status.OK)
        threeQLWrites [] ⟨[]⟩ []).write_response.ql_response_batch = [] ∧
    (openTransactionalTablet.KeyValueBatchFromQLWriteBatch (sampleDocEnv Status.OK)
        { threeQLWrites with
          write_batch :=
            { snapshotWriteBatch with
              transaction :=
                { snapshotWriteBatch.transaction with transaction_id := [1, 2] } } }
        [] ⟨[]⟩ []).status = Status.Corruption ∧
    (openTransactionalTablet.KeyValueBatchFromQLWriteBatch (sampleDocEnv Status.OK)
        { threeQLWrites with
          write_batch :=
            { snapshotWriteBatch with
              transaction :=
                { snapshotWriteBatch.transaction with transaction_id := [1, 2] } } }
        [] ⟨[]⟩ []).write_response.ql_response_batch = [] :=
  ⟨rfl, rfl, rfl, rfl, rfl⟩

/-! ### MutateRowUnlocked -/

/-- For a change list that decodes and is not a REINSERT, MutateRowUnlocked
probes the MemRowSet and then the row sets whose key range contains the key. -/
theorem MutateRowUnlocked_eq {S : Type} (env : RowStoreEnv S) (comps : TabletComponents)
    (w : S) (mutate : RowOp) (hd : mutate.changelist.init_status = Status.OK)
    (hr : mutate.changelist.is_reinsert = false) :
    MutateRowUnlocked env comps w mutate =
      MutateRowSets env mutate
        (comps.memrowset :: env.FindRowSetsWithKeyInRange comps.rowsets mutate.key)
        OperationResultPB.empty w := by
  unfold MutateRowUnlocked
  rw [MutateRowSets]
  simp [hd, hr, Status.ok]

/-- The outcome of the probing in terms of what the stores report. -/
theorem MutateRowSets_spec {S : Type} (env : RowStoreEnv S) (mutate : RowOp) :
    ∀ (stores : List Nat) (result : OperationResultPB) (w : S),
      ((MutateRowSets env mutate stores result w).1 = Status.NotFound ↔
        ∀ m ∈ ConsultStores env mutate.key mutate.changelist stores result w,
          m.1 = Status.NotFound) ∧
      ((MutateRowSets env mutate stores result w).1 = Status.NotFound →
        (MutateRowSets env mutate stores result w).2.1 = mutate.SetFailed Status.NotFound) ∧
      (∀ (k : Nat) (m : Status × OperationResultPB × S),
        (ConsultStores env mutate.key mutate.changelist stores result w)[k]? = some m →
        (∀ j, j < k → ∀ m2 : Status × OperationResultPB × S,
          (ConsultStores env mutate.key mutate.changelist stores result w)[j]? = some m2 →
          m2.1 = Status.NotFound) →
        m.1 ≠ Status.NotFound →
        (MutateRowSets env mutate stores result w).1 = m.1 ∧
        (MutateRowSets env mutate stores result w).2.2 = m.2.2 ∧
        (m.1 = Status.OK →
          (MutateRowSets env mutate stores result w).2.1 = mutate.SetMutateSucceeded m.2.1) ∧
        (m.1 ≠ Status.OK →
          (MutateRowSets env mutate stores result w).2.1 = mutate.SetFailed m.1)) := by
  intro stores
  induction stores with
  | nil =>
    intro result w
    refine ⟨?_, ?_, ?_⟩
    · simp [MutateRowSets, ConsultStores]
    · intro _
      rfl
    · intro k m hk
      simp [ConsultStores] at hk
  | cons rs rest ih =>
    intro result w
    have hcons : ConsultStores env mutate.key mutate.changelist (rs :: rest) result w =
        env.MutateRow w rs mutate.key mutate.changelist result ::
          ConsultStores env mutate.key mutate.changelist rest
            (env.MutateRow w rs mutate.key mutate.changelist result).2.1
            (env.MutateRow w rs mutate.key mutate.changelist result).2.2 := rfl
    rw [hcons]
    by_cases hok : (env.MutateRow w rs mutate.key mutate.changelist result).1.ok = true
    · have hr : MutateRowSets env mutate (rs :: rest) result w =
          ((env.MutateRow w rs mutate.key mutate.changelist result).1,
           mutate.SetMutateSucceeded
             (env.MutateRow w rs mutate.key mutate.changelist result).2.1,
           (env.MutateRow w rs mutate.key mutate.changelist result).2.2) := by
        rw [MutateRowSets]
        simp only [if_pos hok]
      have hOK := (Status_ok_iff _).mp hok
      have hnf : (env.MutateRow w rs mutate.key mutate.changelist result).1 ≠
          Status.NotFound := by
        rw [hOK]
        decide
      rw [hr]
      refine ⟨?_, ?_, ?_⟩
      · constructor
        · intro h
          exact absurd h hnf
        · intro h
          exact h _ (List.mem_cons_self _ _)
      · intro h
        exact absurd h hnf
      · intro k m hk hbefore hm
        cases k with
        | zero =>
          simp at hk
          subst hk
          refine ⟨rfl, rfl, fun _ => rfl, fun h => absurd hOK h⟩
        | succ j =>
          exact absurd (hbefore 0 (Nat.succ_pos _) _ (by simp)) hnf
    · by_cases hnf : (env.MutateRow w rs mutate.key mutate.changelist result).1 =
          Status.NotFound
      · have hr : MutateRowSets env mutate (rs :: rest) result w =
            MutateRowSets env mutate rest
              (env.MutateRow w rs mutate.key mutate.changelist result).2.1
              (env.MutateRow w rs mutate.key mutate.changelist result).2.2 := by
          rw [MutateRowSets]
          have c1 : ¬ ((env.MutateRow w rs mutate.key mutate.changelist result).1 ≠
              Status.NotFound) := fun h => h hnf
          simp only [if_neg hok, if_neg c1]
        rw [hr]
        obtain ⟨ih1, ih2, ih3⟩ := ih
          (env.MutateRow w rs mutate.key mutate.changelist result).2.1
          (env.MutateRow w rs mutate.key mutate.changelist result).2.2
        refine ⟨?_, ih2, ?_⟩
        · rw [ih1]
          constructor
          · intro h m hm
            rcases List.mem_cons.mp hm with h1 | h1
            · rw [h1]
              exact hnf
            · exact h m h1
          · intro h m hm
            exact h m (List.mem_cons_of_mem _ hm)
        · intro k m hk hbefore hm
          cases k with
          | zero =>
            simp at hk
            subst hk
            exact absurd hnf hm
          | succ j =>
            refine ih3 j m (by simpa using hk) ?_ hm
            intro i hi m2 hm2
            exact hbefore (i + 1) (Nat.succ_lt_succ hi) m2 (by simpa using hm2)
      · have hr : MutateRowSets env mutate (rs :: rest) result w =
            ((env.MutateRow w rs mutate.key mutate.changelist result).1,
             mutate.SetFailed (env.MutateRow w rs mutate.key mutate.changelist result).1,
             (env.MutateRow w rs mutate.key mutate.changelist result).2.2) := by
          rw [MutateRowSets]
          have c1 : (env.MutateRow w rs mutate.key mutate.changelist result).1 ≠
              Status.NotFound := hnf
          simp only [if_neg hok, if_pos c1]
        have hnok : (env.MutateRow w rs mutate.key mutate.changelist result).1 ≠
            Status.OK := fun h => hok ((Status_ok_iff _).mpr h)
        rw [hr]
        refine ⟨?_, ?_, ?_⟩
        · constructor
          · intro h
            exact absurd h hnf
          · intro h
            exact h _ (List.mem_cons_self _ _)
        · intro h
          exact absurd h hnf
        · intro k m hk hbefore hm
          cases k with
          | zero =>
            simp at hk
            subst hk
            refine ⟨rfl, rfl, fun h => absurd h hnok, fun _ => rfl⟩
          | succ j =>
            exact absurd (hbefore 0 (Nat.succ_pos _) _ (by simp)) hnf

/-- Claim C15: for a mutate whose change list decodes and is not a REINSERT,
with the stores consulted in the order MemRowSet, then the row sets whose key
range contains the key: Tablet::MutateRowUnlocked returns NotFound exactly
when every one of these stores reports NotFound, and then the operation is
marked failed with NotFound; the first store whose report is not NotFound
decides the call: its status is returned, the operation is marked succeeded
with that store's result if it accepted the mutation and failed with its
status otherwise, and the world is the one that store left, so no later store
is consulted. -/
theorem C15_MutateRowUnlocked {S : Type} (env : RowStoreEnv S) (comps : TabletComponents)
    (w : S) (mutate : RowOp) (hd : mutate.changelist.init_status = Status.OK)
    (hr : mutate.changelist.is_reinsert = false) :
    ((MutateRowUnlocked env comps w mutate).1 = Status.NotFound ↔
      ∀ m ∈ ConsultStores env mutate.key mutate.changelist
          (comps.memrowset :: env.FindRowSetsWithKeyInRange comps.rowsets mutate.key)
          OperationResultPB.empty w,
        m.1 = Status.NotFound) ∧
    ((MutateRowUnlocked env comps w mutate).1 = Status.NotFound →
      (MutateRowUnlocked env comps w mutate).2.1 = mutate.SetFailed Status.NotFound) ∧
    (∀ (k : Nat) (m : Status × OperationResultPB × S),
      (ConsultStores env mutate.key mutate.changelist
          (comps.memrowset :: env.FindRowSetsWithKeyInRange comps.rowsets mutate.key)
          OperationResultPB.empty w)[k]? = some m →
      (∀ j, j < k → ∀ m2 : Status × OperationResultPB × S,
        (ConsultStores env mutate.key mutate.changelist
            (comps.memrowset :: env.FindRowSetsWithKeyInRange comps.rowsets mutate.key)
            OperationResultPB.empty w)[j]? = some m2 →
        m2.1 = Status.NotFound) →
      m.1 ≠ Status.NotFound →
      (MutateRowUnlocked env comps w mutate).1 = m.1 ∧
      (MutateRowUnlocked env comps w mutate).2.2 = m.2.2 ∧
      (m.1 = Status.OK →
        (MutateRowUnlocked env comps w mutate).2.1 = mutate.SetMutateSucceeded m.2.1) ∧
      (m.1 ≠ Status.OK →
        (MutateRowUnlocked env comps w mutate).2.1 = mutate.SetFailed m.1)) := by
  rw [MutateRowUnlocked_eq env comps w mutate hd hr]
  exact MutateRowSets_spec env mutate _ _ _

/-- C15 on the sample stores: key 5 is in no store, so the mutate returns
NotFound after all four stores were consulted; key 2 is accepted by row set 1,
after the MemRowSet, and row sets 2 and 3 are not consulted; on key 4 the
IOError of row set 3 is returned as is. -/
theorem C15_MutateRowUnlocked_witness :
    (updateOf 5).changelist.init_status = Status.OK ∧
    (updateOf 5).changelist.is_reinsert = false ∧
    (MutateRowUnlocked sampleRowStoreEnv ⟨0, 0⟩ [] (updateOf 5)).1 = Status.NotFound ∧
    MutateRowUnlocked sampleRowStoreEnv ⟨0, 0⟩ [] (updateOf 5) =
      (Status.NotFound, { updateOf 5 with result := RowOpResult.failed Status.NotFound },
       [0, 1, 2, 3]) ∧
    MutateRowUnlocked sampleRowStoreEnv ⟨0, 0⟩ [] (updateOf 2) =
      (Status.OK,
       { updateOf 2 with
         result := RowOpResult.mutated
           { OperationResultPB.empty with mutated_stores := [⟨false, 0, 1, 0⟩] } },
       [0, 1]) ∧
    MutateRowUnlocked sampleRowStoreEnv ⟨0, 0⟩ [] (updateOf 4) =
      (Status.IOError, { updateOf 4 with result := RowOpResult.failed Status.IOError },
       [0, 1, 2, 3]) :=
  ⟨rfl, rfl,
   (C15_MutateRowUnlocked sampleRowStoreEnv ⟨0, 0⟩ [] (updateOf 5) rfl rfl).1.mpr (by decide),
   rfl, rfl, rfl⟩

/-! ### The cached statistics of CompactRowSetsOp -/

/-- Claim C19: CompactRowSetsOp::UpdateStats hands out the cached statistics,
leaving the operation and the tablet as they are, when the tablet has metrics,
the cached statistics are valid and the flush count and the row-set
compaction count are the ones recorded at the last computation; in every
other case it calls Tablet::UpdateCompactionStats on the cached statistics,
stores the outcome as the new cache, hands it out, and, if there are metrics,
records the two counts.  After Prepare the cache is not valid, so the next
UpdateStats computes the statistics again.  On a columnar tablet with metrics
a first UpdateStats computes (the policy reads the row sets once), a second
one with unchanged counts is served from the cache, and after a flush or
after Prepare the statistics are computed again. -/
theorem C19_UpdateStats_cache {S : Type} (env : CompactionEnv S) (t : Tablet S)
    (op : CompactRowSetsOp) :
    (∀ f c, env.metrics t.world = some (f, c) → op.prev_stats_.valid = true →
      f = op.last_num_mrs_flushed_ → c = op.last_num_rs_compacted_ →
      op.UpdateStats env t = (op, op.prev_stats_, t)) ∧
    (∀ f c, env.metrics t.world = some (f, c) →
      ¬ (op.prev_stats_.valid = true ∧ f = op.last_num_mrs_flushed_ ∧
          c = op.last_num_rs_compacted_) →
      op.UpdateStats env t =
        ({ prev_stats_ := (t.UpdateCompactionStats env op.prev_stats_).1,
           last_num_mrs_flushed_ := f, last_num_rs_compacted_ := c },
         (t.UpdateCompactionStats env op.prev_stats_).1,
         (t.UpdateCompactionStats env op.prev_stats_).2)) ∧
    (env.metrics t.world = none →
      op.UpdateStats env t =
        ({ op with prev_stats_ := (t.UpdateCompactionStats env op.prev_stats_).1 },
         (t.UpdateCompactionStats env op.prev_stats_).1,
         (t.UpdateCompactionStats env op.prev_stats_).2)) ∧
    (op.Prepare.1 = true ∧ op.Prepare.2.prev_stats_.valid = false ∧
      (op.Prepare.2.UpdateStats env t).2.1 =
        (t.UpdateCompactionStats env op.Prepare.2.prev_stats_).1 ∧
      (op.Prepare.2.UpdateStats env t).2.2 =
        (t.UpdateCompactionStats env op.Prepare.2.prev_stats_).2 ∧
      (op.Prepare.2.UpdateStats env t).1.prev_stats_ =
        (t.UpdateCompactionStats env op.Prepare.2.prev_stats_).1) ∧
    (CompactRowSetsOp.new.UpdateStats sampleCompactionEnv
        (freshTablet TableType.KUDU_COLUMNAR_TABLE_TYPE) =
      (⟨⟨true, true, 4⟩, 0, 0⟩, ⟨true, true, 4⟩,
       { freshTablet TableType.KUDU_COLUMNAR_TABLE_TYPE with world := [StorageOp.read] }) ∧
     CompactRowSetsOp.UpdateStats sampleCompactionEnv
        { freshTablet TableType.KUDU_COLUMNAR_TABLE_TYPE with world := [StorageOp.read] }
        ⟨⟨true, true, 4⟩, 0, 0⟩ =
      (⟨⟨true, true, 4⟩, 0, 0⟩, ⟨true, true, 4⟩,
       { freshTablet TableType.KUDU_COLUMNAR_TABLE_TYPE with world := [StorageOp.read] }) ∧
     CompactRowSetsOp.UpdateStats sampleCompactionEnv
        { freshTablet TableType.KUDU_COLUMNAR_TABLE_TYPE with
          world := [StorageOp.read, StorageOp.flushed] }
        ⟨⟨true, true, 4⟩, 0, 0⟩ =
      (⟨⟨true, true, 4⟩, 1, 0⟩, ⟨true, true, 4⟩,
       { freshTablet TableType.KUDU_COLUMNAR_TABLE_TYPE with
         world := [StorageOp.read, StorageOp.flushed, StorageOp.read] }) ∧
     CompactRowSetsOp.UpdateStats sampleCompactionEnv
        { freshTablet TableType.KUDU_COLUMNAR_TABLE_TYPE with world := [StorageOp.read] }
        (CompactRowSetsOp.Prepare ⟨⟨true, true, 4⟩, 0, 0⟩).2 =
      (⟨⟨true, true, 4⟩, 0, 0⟩, ⟨true, true, 4⟩,
       { freshTablet TableType.KUDU_COLUMNAR_TABLE_TYPE with
         world := [StorageOp.read, StorageOp.read] })) := by
  refine ⟨?_, ?_, ?_, ?_, ⟨rfl, rfl, rfl, rfl⟩⟩
  · intro f c hm hv hf hc
    unfold CompactRowSetsOp.UpdateStats
    rw [hm]
    simp only
    rw [if_pos ⟨hv, hf, hc⟩]
  · intro f c hm hn
    unfold CompactRowSetsOp.UpdateStats
    rw [hm]
    simp only
    rw [if_neg hn]
  · intro hm
    unfold CompactRowSetsOp.UpdateStats
    rw [hm]
  · have hv : op.Prepare.2.prev_stats_.valid = false := rfl
    refine ⟨rfl, hv, ?_⟩
    cases hm : env.metrics t.world with
    | none =>
      unfold CompactRowSetsOp.UpdateStats
      rw [hm]
      exact ⟨rfl, rfl, rfl⟩
    | some p =>
      obtain ⟨f, c⟩ := p
      have hn : ¬ (op.Prepare.2.prev_stats_.valid = true ∧
          f = op.Prepare.2.last_num_mrs_flushed_ ∧
          c = op.Prepare.2.last_num_rs_compacted_) := by
        rw [hv]
        simp
      unfold CompactRowSetsOp.UpdateStats
      rw [hm]
      simp only
      rw [if_neg hn]
      exact ⟨rfl, rfl, rfl⟩

/-! ### Two runs of the replay end alike -/

theorem EnvAgree_refl {W : Type} (env : Env W) : EnvAgree Eq env env where
  table_type := rfl
  kUnknownTerm := rfl
  kMin := rfl
  max_clock_sync_error_usec := rfl
  AddPhysicalTimeToHybridTime := rfl
  UpdateClock := by intro w1 w2 h hw; rw [hw]
  UpdateMonotonicCounter := by intro w1 w2 h hw; rw [hw]
  LogAppend := by intro w1 w2 e hw; rw [hw]; exact ⟨rfl, rfl⟩
  Play := by intro w1 w2 o r c hw; rw [hw]; exact ⟨rfl, rfl⟩
  OfflineAdjustSafeTime := by intro w1 w2 h hw; rw [hw]
  GetMaxSafeTimeToReadAt := by intro w1 w2 hw; rw [hw]
  MaxPersistentOpId := by intro w1 w2 hw; rw [hw]
  RewindSchemaForBootstrap := by intro w1 w2 e hw; rw [hw]; exact ⟨rfl, rfl⟩
  OpenNewLog := by intro w1 w2 hw; rw [hw]; exact ⟨rfl, rfl⟩

/-- Agreeing environments are both on a RocksDB-backed table or both on the
legacy backend. -/
theorem non_kudu_agree {W1 W2 : Type} {R : W1 → W2 → Prop} {e1 : Env W1} {e2 : Env W2}
    (h : EnvAgree R e1 e2) : non_kudu e1 = non_kudu e2 := by
  unfold non_kudu
  rw [h.table_type]

/-- HandleOperation returns the same status in both runs and keeps the worlds
related. -/
theorem HandleOperation_agree {W1 W2 : Type} {R : W1 → W2 → Prop} {e1 : Env W1}
    {e2 : Env W2} (h : EnvAgree R e1 e2) (w1 : W1) (w2 : W2) (hw : R w1 w2)
    (op_type : OperationType) (replicate : ReplicateMsg) (commit : Option CommitMsg) :
    (HandleOperation e1 w1 op_type replicate commit).1 =
      (HandleOperation e2 w2 op_type replicate commit).1 ∧
    R (HandleOperation e1 w1 op_type replicate commit).2
      (HandleOperation e2 w2 op_type replicate commit).2 := by
  cases op_type <;> first
    | exact h.Play w1 w2 _ replicate commit hw
    | exact ⟨rfl, hw⟩

/-- HandleEntryPair returns the same status in both runs and keeps the worlds
related. -/
theorem HandleEntryPair_agree {W1 W2 : Type} {R : W1 → W2 → Prop} {e1 : Env W1}
    {e2 : Env W2} (h : EnvAgree R e1 e2) (w1 : W1) (w2 : W2) (hw : R w1 w2)
    (replicate_entry : LogEntryPB) (commit_entry : Option LogEntryPB) :
    (HandleEntryPair e1 w1 replicate_entry commit_entry).1 =
      (HandleEntryPair e2 w2 replicate_entry commit_entry).1 ∧
    R (HandleEntryPair e1 w1 replicate_entry commit_entry).2
      (HandleEntryPair e2 w2 replicate_entry commit_entry).2 := by
  unfold HandleEntryPair
  simp only
  generalize hop : (match Option.map (fun c => c.commit) commit_entry with
    | none => replicate_entry.replicate.op_type
    | some c => c.op_type) = op_type
  obtain ⟨hs, hr⟩ := HandleOperation_agree h w1 w2 hw op_type replicate_entry.replicate
    (Option.map (fun c => c.commit) commit_entry)
  rw [hs, h.AddPhysicalTimeToHybridTime, h.max_clock_sync_error_usec]
  by_cases c1 : (!(HandleOperation e2 w2 op_type replicate_entry.replicate
      (Option.map (fun c => c.commit) commit_entry)).1.ok) = true
  · rw [if_pos c1, if_pos c1]
    exact ⟨rfl, hr⟩
  · rw [if_neg c1, if_neg c1]
    by_cases c2 : op_type = OperationType.NO_OP ∨ op_type = OperationType.CHANGE_CONFIG_OP
    · rw [if_pos c2, if_pos c2]
      exact ⟨rfl, hr⟩
    · rw [if_neg c2, if_neg c2]
      exact ⟨rfl, h.OfflineAdjustSafeTime _ _ _ hr⟩

/-- The application of the committed pending replicates leaves the same
replay state in both runs. -/
theorem ApplyCommittedLoop_agree {W1 W2 : Type} {R : W1 → W2 → Prop}
    (h1 : W1 → LogEntryPB → W1) (h2 : W2 → LogEntryPB → W2)
    (hh : ∀ w1 w2 e, R w1 w2 → R (h1 w1 e) (h2 w2 e)) :
    ∀ (pending : OpIndexToEntryMap) (state : ReplayState) (w1 : W1) (w2 : W2), R w1 w2 →
      (ApplyCommittedLoop h1 state w1 pending).1 = (ApplyCommittedLoop h2 state w2 pending).1 ∧
      R (ApplyCommittedLoop h1 state w1 pending).2 (ApplyCommittedLoop h2 state w2 pending).2 := by
  intro pending
  induction pending with
  | nil =>
    intro state w1 w2 hw
    exact ⟨rfl, hw⟩
  | cons p rest ih =>
    intro state w1 w2 hw
    obtain ⟨k, e⟩ := p
    unfold ApplyCommittedLoop
    by_cases c : CanApply state k e = true
    · rw [if_pos c, if_pos c]
      exact ih _ _ _ (hh _ _ _ hw)
    · rw [if_neg c, if_neg c]
      exact ⟨rfl, hw⟩

/-- HandleReplicateMessage ends alike in both runs. -/
theorem HandleReplicateMessage_agree {W1 W2 : Type} {R : W1 → W2 → Prop} {e1 : Env W1}
    {e2 : Env W2} (h : EnvAgree R e1 e2) (tb1 : TabletBootstrap W1)
    (tb2 : TabletBootstrap W2) (htb : TbAgree R tb1 tb2) (state : ReplayState)
    (entry : LogEntryPB) :
    OutcomeAgree R (HandleReplicateMessage e1 tb1 state entry)
      (HandleReplicateMessage e2 tb2 state entry) := by
  obtain ⟨w1, st1, fs1⟩ := tb1
  obtain ⟨w2, st2, fs2⟩ := tb2
  obtain ⟨hw, hst, hfs⟩ := htb
  simp only at hw hst hfs
  subst hst hfs
  have hnk := non_kudu_agree h
  have hnote : ∀ s r, NoteLastStoredIndex e1 s r = NoteLastStoredIndex e2 s r := by
    intro s r
    unfold NoteLastStoredIndex
    rw [hnk]
  unfold HandleReplicateMessage
  simp only [hnote, hnk]
  rcases hcs : state.CheckSequentialReplicateId entry.replicate with ⟨s, state1⟩
  cases s <;> simp only
  case OK =>
    have hw2 : R (e1.UpdateMonotonicCounter (e1.UpdateClock w1 entry.replicate.hybrid_time)
          entry.replicate.monotonic_counter)
        (e2.UpdateMonotonicCounter (e2.UpdateClock w2 entry.replicate.hybrid_time)
          entry.replicate.monotonic_counter) :=
      h.UpdateMonotonicCounter _ _ _ (h.UpdateClock _ _ _ hw)
    obtain ⟨hls, hlr⟩ := h.LogAppend _ _ entry hw2
    rcases hl1 : e1.LogAppend (e1.UpdateMonotonicCounter
        (e1.UpdateClock w1 entry.replicate.hybrid_time) entry.replicate.monotonic_counter)
        entry with ⟨s1, w31⟩
    rcases hl2 : e2.LogAppend (e2.UpdateMonotonicCounter
        (e2.UpdateClock w2 entry.replicate.hybrid_time) entry.replicate.monotonic_counter)
        entry with ⟨s2, w32⟩
    rw [hl1, hl2] at hls hlr
    simp only at hls hlr
    subst hls
    cases s1 <;> simp only
    case OK =>
      by_cases c1 : non_kudu e2 = true ∧ entry.replicate.id.index ≤
          (NoteLastStoredIndex e2 state1 entry.replicate).last_stored_op_id.index
      · rw [if_pos c1, if_pos c1]
        exact ⟨rfl, ⟨hlr, rfl, rfl⟩, rfl⟩
      · rw [if_neg c1, if_neg c1]
        cases hins : InsertPendingReplicate (NoteLastStoredIndex e2 state1 entry.replicate)
            entry with
        | none => exact True.intro
        | some p =>
          obtain ⟨state3, overwritten⟩ := p
          simp only
          by_cases c2 : non_kudu e2 = true
          · rw [if_pos c2, if_pos c2]
            by_cases c3 : (!entry.replicate.has_committed_op_id) = true
            · rw [if_pos c3, if_pos c3]
              exact True.intro
            · rw [if_neg c3, if_neg c3]
              obtain ⟨ha1, ha2⟩ := ApplyCommittedLoop_agree
                (fun w e => (HandleEntryPair e1 w e none).2)
                (fun w e => (HandleEntryPair e2 w e none).2)
                (fun w1 w2 e hww => (HandleEntryPair_agree h w1 w2 hww e none).2)
                (state3.UpdateCommittedOpId entry.replicate.committed_op_id).pending_replicates
                (state3.UpdateCommittedOpId entry.replicate.committed_op_id) w31 w32 hlr
              exact ⟨rfl, ⟨ha2, rfl, rfl⟩, ha1⟩
          · rw [if_neg c2, if_neg c2]
            exact ⟨rfl, ⟨hlr, rfl, rfl⟩, rfl⟩
    all_goals exact ⟨rfl, ⟨hlr, rfl, rfl⟩, rfl⟩
  all_goals exact ⟨rfl, ⟨hw, rfl, rfl⟩, rfl⟩

/-- ApplyCommitMessage ends alike in both runs. -/
theorem ApplyCommitMessage_agree {W1 W2 : Type} {R : W1 → W2 → Prop} {e1 : Env W1}
    {e2 : Env W2} (h : EnvAgree R e1 e2) (tb1 : TabletBootstrap W1)
    (tb2 : TabletBootstrap W2) (htb : TbAgree R tb1 tb2) (state : ReplayState)
    (commit_entry : LogEntryPB) :
    (ApplyCommitMessage e1 tb1 state commit_entry).1 =
      (ApplyCommitMessage e2 tb2 state commit_entry).1 ∧
    TbAgree R (ApplyCommitMessage e1 tb1 state commit_entry).2.1
      (ApplyCommitMessage e2 tb2 state commit_entry).2.1 ∧
    (ApplyCommitMessage e1 tb1 state commit_entry).2.2 =
      (ApplyCommitMessage e2 tb2 state commit_entry).2.2 := by
  obtain ⟨w1, st1, fs1⟩ := tb1
  obtain ⟨w2, st2, fs2⟩ := tb2
  obtain ⟨hw, hst, hfs⟩ := htb
  simp only at hw hst hfs
  subst hst hfs
  unfold ApplyCommitMessage
  simp only
  cases hf : find state.pending_replicates commit_entry.commit.commited_op_id.index with
  | none => exact ⟨rfl, ⟨hw, rfl, rfl⟩, rfl⟩
  | some pending_replicate_entry =>
    simp only
    by_cases c1 : (!OpIdEquals commit_entry.commit.commited_op_id
        pending_replicate_entry.replicate.id) = true
    · rw [if_pos c1, if_pos c1]
      exact ⟨rfl, ⟨hw, rfl, rfl⟩, rfl⟩
    · rw [if_neg c1, if_neg c1]
      obtain ⟨hs, hr⟩ := HandleEntryPair_agree h w1 w2 hw pending_replicate_entry
        (some commit_entry)
      rw [hs]
      by_cases c2 : (!(HandleEntryPair e2 w2 pending_replicate_entry
          (some commit_entry)).1.ok) = true
      · rw [if_pos c2, if_pos c2]
        exact ⟨rfl, ⟨hr, rfl, rfl⟩, rfl⟩
      · rw [if_neg c2, if_neg c2]
        exact ⟨rfl, ⟨hr, rfl, rfl⟩, rfl⟩

/-- The flush of the buffered commits ends alike in both runs. -/
theorem ApplyBufferedCommits_agree {W1 W2 : Type} {R : W1 → W2 → Prop} {e1 : Env W1}
    {e2 : Env W2} (h : EnvAgree R e1 e2) :
    ∀ (buffered : OpIndexToEntryMap) (tb1 : TabletBootstrap W1) (tb2 : TabletBootstrap W2),
      TbAgree R tb1 tb2 → ∀ (state : ReplayState) (last_applied : OpId),
      (ApplyBufferedCommits e1 tb1 state last_applied buffered).1 =
        (ApplyBufferedCommits e2 tb2 state last_applied buffered).1 ∧
      TbAgree R (ApplyBufferedCommits e1 tb1 state last_applied buffered).2.1
        (ApplyBufferedCommits e2 tb2 state last_applied buffered).2.1 ∧
      (ApplyBufferedCommits e1 tb1 state last_applied buffered).2.2 =
        (ApplyBufferedCommits e2 tb2 state last_applied buffered).2.2 := by
  intro buffered
  induction buffered with
  | nil =>
    intro tb1 tb2 htb state last_applied
    exact ⟨rfl, htb, rfl⟩
  | cons p rest ih =>
    intro tb1 tb2 htb state last_applied
    obtain ⟨k, buffered_commit_entry⟩ := p
    unfold ApplyBufferedCommits
    by_cases c1 : k = last_applied.index + 1
    · rw [if_pos c1, if_pos c1]
      simp only
      obtain ⟨hs, ht, hr⟩ := ApplyCommitMessage_agree h tb1 tb2 htb
        { state with pending_commits := rest } buffered_commit_entry
      rw [hs]
      by_cases c2 : (!(ApplyCommitMessage e2 tb2 { state with pending_commits := rest }
          buffered_commit_entry).1.ok) = true
      · rw [if_pos c2, if_pos c2]
        exact ⟨hs, ht, hr⟩
      · rw [if_neg c2, if_neg c2, hr]
        exact ih _ _ ht _ _
    · rw [if_neg c1, if_neg c1]
      exact ⟨rfl, htb, rfl⟩

/-- The orphaned-commit branch ends alike in both runs. -/
theorem HandleOrphanedCommit_agree {W1 W2 : Type} {R : W1 → W2 → Prop}
    (tb1 : TabletBootstrap W1) (tb2 : TabletBootstrap W2) (htb : TbAgree R tb1 tb2)
    (state : ReplayState) (commit_entry : LogEntryPB) :
    OutcomeAgree R (some (HandleOrphanedCommit tb1 state commit_entry))
      (some (HandleOrphanedCommit tb2 state commit_entry)) := by
  obtain ⟨w1, st1, fs1⟩ := tb1
  obtain ⟨w2, st2, fs2⟩ := tb2
  obtain ⟨hw, hst, hfs⟩ := htb
  simp only at hw hst hfs
  subst hst hfs
  unfold HandleOrphanedCommit
  simp only
  by_cases c1 : (!(CheckOrphanedCommitAlreadyFlushed fs1 commit_entry.commit).ok) = true
  · rw [if_pos c1, if_pos c1]
    exact ⟨rfl, ⟨hw, rfl, rfl⟩, rfl⟩
  · rw [if_neg c1, if_neg c1]
    exact ⟨rfl, ⟨hw, rfl, rfl⟩, rfl⟩

/-- HandleCommitMessage ends alike in both runs. -/
theorem HandleCommitMessage_agree {W1 W2 : Type} {R : W1 → W2 → Prop} {e1 : Env W1}
    {e2 : Env W2} (h : EnvAgree R e1 e2) (tb1 : TabletBootstrap W1)
    (tb2 : TabletBootstrap W2) (htb : TbAgree R tb1 tb2) (state : ReplayState)
    (commit_entry : LogEntryPB) :
    OutcomeAgree R (HandleCommitMessage e1 tb1 state commit_entry)
      (HandleCommitMessage e2 tb2 state commit_entry) := by
  unfold HandleCommitMessage
  rw [h.table_type]
  by_cases c0 : e2.table_type ≠ TableType.KUDU_COLUMNAR_TABLE_TYPE
  · rw [if_pos c0, if_pos c0]
    exact True.intro
  · rw [if_neg c0, if_neg c0]
    simp only
    cases hp : (state.UpdateCommittedOpId commit_entry.commit.commited_op_id).pending_replicates
      with
    | nil => exact HandleOrphanedCommit_agree tb1 tb2 htb _ _
    | cons p rest =>
      obtain ⟨first, e⟩ := p
      simp only
      by_cases c1 : first > commit_entry.commit.commited_op_id.index
      · rw [if_pos c1, if_pos c1]
        exact HandleOrphanedCommit_agree tb1 tb2 htb _ _
      · rw [if_neg c1, if_neg c1]
        by_cases c2 : first ≠ commit_entry.commit.commited_op_id.index
        · rw [if_pos c2, if_pos c2]
          by_cases c3 : (!ContainsKey ((first, e) :: rest)
              commit_entry.commit.commited_op_id.index) = true
          · rw [if_pos c3, if_pos c3]
            exact ⟨rfl, htb, rfl⟩
          · rw [if_neg c3, if_neg c3]
            by_cases c4 : (!(emplace
                (state.UpdateCommittedOpId commit_entry.commit.commited_op_id).pending_commits
                commit_entry.commit.commited_op_id.index commit_entry).2) = true
            · rw [if_pos c4, if_pos c4]
              exact True.intro
            · rw [if_neg c4, if_neg c4]
              exact ⟨rfl, htb, rfl⟩
        · rw [if_neg c2, if_neg c2]
          obtain ⟨hs, ht, hr⟩ := ApplyCommitMessage_agree h tb1 tb2 htb
            (state.UpdateCommittedOpId commit_entry.commit.commited_op_id) commit_entry
          rw [hs]
          by_cases c5 : (!(ApplyCommitMessage e2 tb2
              (state.UpdateCommittedOpId commit_entry.commit.commited_op_id)
              commit_entry).1.ok) = true
          · rw [if_pos c5, if_pos c5]
            exact ⟨hs, ht, hr⟩
          · rw [if_neg c5, if_neg c5, hr]
            exact ApplyBufferedCommits_agree h _ _ _ ht _ _

/-- HandleEntry ends alike in both runs. -/
theorem HandleEntry_agree {W1 W2 : Type} {R : W1 → W2 → Prop} {e1 : Env W1}
    {e2 : Env W2} (h : EnvAgree R e1 e2) (tb1 : TabletBootstrap W1)
    (tb2 : TabletBootstrap W2) (htb : TbAgree R tb1 tb2) (state : ReplayState)
    (entry : LogEntryPB) :
    OutcomeAgree R (HandleEntry e1 tb1 state entry) (HandleEntry e2 tb2 state entry) := by
  unfold HandleEntry
  rw [h.table_type]
  cases entry.type <;> simp only
  · exact ⟨rfl, htb, rfl⟩
  · exact HandleReplicateMessage_agree h tb1 tb2 htb state entry
  · by_cases c0 : e2.table_type = TableType.KUDU_COLUMNAR_TABLE_TYPE
    · rw [if_pos c0, if_pos c0]
      exact HandleCommitMessage_agree h tb1 tb2 htb state entry
    · rw [if_neg c0, if_neg c0]
      by_cases c1 : entry.has_commit = true ∧ entry.commit.op_type = OperationType.NO_OP
      · rw [if_pos c1, if_pos c1]
        exact ⟨rfl, htb, rfl⟩
      · rw [if_neg c1, if_neg c1]
        exact True.intro

/-- The replay of the entries of a segment returns the same status at every
entry and ends alike in both runs. -/
theorem ReplayEntries_agree {W1 W2 : Type} {R : W1 → W2 → Prop} {e1 : Env W1}
    {e2 : Env W2} (h : EnvAgree R e1 e2) :
    ∀ (entries : List LogEntryPB) (tb1 : TabletBootstrap W1) (tb2 : TabletBootstrap W2),
      TbAgree R tb1 tb2 → ∀ state : ReplayState,
      EntryOutcomes e1 tb1 state entries = EntryOutcomes e2 tb2 state entries ∧
      OutcomeAgree R (ReplayEntries e1 tb1 state entries)
        (ReplayEntries e2 tb2 state entries) := by
  intro entries
  induction entries with
  | nil =>
    intro tb1 tb2 htb state
    exact ⟨rfl, rfl, htb, rfl⟩
  | cons entry rest ih =>
    intro tb1 tb2 htb state
    have hag := HandleEntry_agree h tb1 tb2 htb state entry
    unfold ReplayEntries EntryOutcomes
    cases hx : HandleEntry e1 tb1 state entry with
    | none =>
      cases hy : HandleEntry e2 tb2 state entry with
      | none => exact ⟨rfl, True.intro⟩
      | some b =>
        rw [hx, hy] at hag
        exact hag.elim
    | some a =>
      cases hy : HandleEntry e2 tb2 state entry with
      | none =>
        rw [hx, hy] at hag
        exact hag.elim
      | some b =>
        rw [hx, hy] at hag
        obtain ⟨sa, ta, ra⟩ := a
        obtain ⟨sb, tb, rb⟩ := b
        obtain ⟨hs, ht, hr⟩ := hag
        simp only at hs ht hr
        subst hs hr
        cases sa <;> simp only
        case OK =>
          obtain ⟨ih1, ih2⟩ := ih ta tb ht ra
          exact ⟨by rw [ih1], ih2⟩
        all_goals exact ⟨trivial, rfl, ht, rfl⟩

/-- The replay of the segments ends alike in both runs. -/
theorem ReplaySegments_agree {W1 W2 : Type} {R : W1 → W2 → Prop} {e1 : Env W1}
    {e2 : Env W2} (h : EnvAgree R e1 e2) :
    ∀ (segments : List Segment) (tb1 : TabletBootstrap W1) (tb2 : TabletBootstrap W2),
      TbAgree R tb1 tb2 → ∀ state : ReplayState,
      OutcomeAgree R (ReplaySegments e1 tb1 state segments)
        (ReplaySegments e2 tb2 state segments) := by
  intro segments
  induction segments with
  | nil =>
    intro tb1 tb2 htb state
    exact ⟨rfl, htb, rfl⟩
  | cons segment rest ih =>
    intro tb1 tb2 htb state
    have hag := (ReplayEntries_agree h segment.entries tb1 tb2 htb state).2
    unfold ReplaySegments
    cases hx : ReplayEntries e1 tb1 state segment.entries with
    | none =>
      cases hy : ReplayEntries e2 tb2 state segment.entries with
      | none => exact True.intro
      | some b =>
        rw [hx, hy] at hag
        exact hag.elim
    | some a =>
      cases hy : ReplayEntries e2 tb2 state segment.entries with
      | none =>
        rw [hx, hy] at hag
        exact hag.elim
      | some b =>
        rw [hx, hy] at hag
        obtain ⟨sa, ta, ra⟩ := a
        obtain ⟨sb, tb, rb⟩ := b
        obtain ⟨hs, ht, hr⟩ := hag
        simp only at hs ht hr
        subst hs hr
        cases sa <;> simp only
        case OK =>
          by_cases c : (!segment.read_status.ok) = true
          · rw [if_pos c, if_pos c]
            exact ⟨rfl, ht, rfl⟩
          · rw [if_neg c, if_neg c]
            exact ih ta tb ht ra
        all_goals exact ⟨rfl, ht, rfl⟩

/-- The end of PlaySegments ends alike in both runs. -/
theorem FinishPlaySegments_agree {W1 W2 : Type} {R : W1 → W2 → Prop} {e1 : Env W1}
    {e2 : Env W2} (h : EnvAgree R e1 e2) (tb1 : TabletBootstrap W1)
    (tb2 : TabletBootstrap W2) (htb : TbAgree R tb1 tb2) (state : ReplayState)
    (consensus_info : ConsensusBootstrapInfo) :
    OutcomeAgree R (some (FinishPlaySegments e1 tb1 state consensus_info))
      (some (FinishPlaySegments e2 tb2 state consensus_info)) := by
  obtain ⟨w1, st1, fs1⟩ := tb1
  obtain ⟨w2, st2, fs2⟩ := tb2
  obtain ⟨hw, hst, hfs⟩ := htb
  simp only at hw hst hfs
  subst hst hfs
  have horph : OrphanedReplicates e1 state = OrphanedReplicates e2 state := by
    unfold OrphanedReplicates
    rw [h.table_type]
  unfold FinishPlaySegments
  simp only [horph]
  rw [h.table_type, h.kMin]
  cases CheckPendingCommits fs1 state.pending_replicates state.pending_commits <;> simp only
  case OK =>
    by_cases c0 : e2.table_type ≠ TableType.KUDU_COLUMNAR_TABLE_TYPE
    · rw [if_pos c0, if_pos c0]
      have hw1 := h.OfflineAdjustSafeTime w1 w2 state.rocksdb_last_entry_hybrid_time hw
      rw [h.GetMaxSafeTimeToReadAt _ _ hw1]
      by_cases c1 : e2.GetMaxSafeTimeToReadAt
          (e2.OfflineAdjustSafeTime w2 state.rocksdb_last_entry_hybrid_time) = e2.kMin ∧
          state.rocksdb_applied_index > 0
      · rw [if_pos c1, if_pos c1]
        exact ⟨rfl, ⟨hw1, rfl, rfl⟩, rfl⟩
      · rw [if_neg c1, if_neg c1]
        exact ⟨rfl, ⟨hw1, rfl, rfl⟩, rfl⟩
    · rw [if_neg c0, if_neg c0]
      exact ⟨rfl, ⟨hw, rfl, rfl⟩, rfl⟩
  all_goals exact ⟨rfl, ⟨hw, rfl, rfl⟩, rfl⟩

/-- The replay loop followed by the end of PlaySegments ends alike in both
runs. -/
theorem ReplayAndFinish_agree {W1 W2 : Type} {R : W1 → W2 → Prop} {e1 : Env W1}
    {e2 : Env W2} (h : EnvAgree R e1 e2) (tb1 : TabletBootstrap W1)
    (tb2 : TabletBootstrap W2) (htb : TbAgree R tb1 tb2) (state : ReplayState)
    (segments : List Segment) (consensus_info : ConsensusBootstrapInfo) :
    OutcomeAgree R (ReplayAndFinish e1 tb1 state segments consensus_info)
      (ReplayAndFinish e2 tb2 state segments consensus_info) := by
  have hag := ReplaySegments_agree h segments tb1 tb2 htb state
  unfold ReplayAndFinish
  cases hx : ReplaySegments e1 tb1 state segments with
  | none =>
    cases hy : ReplaySegments e2 tb2 state segments with
    | none => exact True.intro
    | some b =>
      rw [hx, hy] at hag
      exact hag.elim
  | some a =>
    cases hy : ReplaySegments e2 tb2 state segments with
    | none =>
      rw [hx, hy] at hag
      exact hag.elim
    | some b =>
      rw [hx, hy] at hag
      obtain ⟨sa, ta, ra⟩ := a
      obtain ⟨sb, tb, rb⟩ := b
      obtain ⟨hs, ht, hr⟩ := hag
      simp only at hs ht hr
      subst hs hr
      cases sa <;> simp only
      case OK => exact FinishPlaySegments_agree h ta tb ht ra consensus_info
      all_goals exact ⟨rfl, ht, rfl⟩

/-- PlaySegments ends alike in both runs. -/
theorem PlaySegments_agree {W1 W2 : Type} {R : W1 → W2 → Prop} {e1 : Env W1}
    {e2 : Env W2} (h : EnvAgree R e1 e2) (tb1 : TabletBootstrap W1)
    (tb2 : TabletBootstrap W2) (htb : TbAgree R tb1 tb2) (snapshot_status : Status)
    (segments : List Segment) (consensus_info : ConsensusBootstrapInfo) :
    OutcomeAgree R (PlaySegments e1 tb1 snapshot_status segments consensus_info)
      (PlaySegments e2 tb2 snapshot_status segments consensus_info) := by
  obtain ⟨w1, st1, fs1⟩ := tb1
  obtain ⟨w2, st2, fs2⟩ := tb2
  obtain ⟨hw, hst, hfs⟩ := htb
  simp only at hw hst hfs
  subst hst hfs
  unfold PlaySegments
  simp only
  rw [non_kudu_agree h, h.kUnknownTerm, h.kMin, h.MaxPersistentOpId w1 w2 hw]
  by_cases c0 : (!snapshot_status.ok) = true
  · rw [if_pos c0, if_pos c0]
    exact ⟨rfl, ⟨hw, rfl, rfl⟩, rfl⟩
  · rw [if_neg c0, if_neg c0]
    have hrw : (RewindSchema e1 w1 segments).1 = (RewindSchema e2 w2 segments).1 ∧
        R (RewindSchema e1 w1 segments).2 (RewindSchema e2 w2 segments).2 := by
      unfold RewindSchema
      rw [h.table_type]
      cases segments with
      | nil => exact ⟨rfl, hw⟩
      | cons segment rest =>
        simp only
        by_cases c : e2.table_type = TableType.KUDU_COLUMNAR_TABLE_TYPE
        · rw [if_pos c, if_pos c]
          exact h.RewindSchemaForBootstrap w1 w2 segment hw
        · rw [if_neg c, if_neg c]
          exact ⟨rfl, hw⟩
    obtain ⟨hrs, hrr⟩ := hrw
    rw [hrs]
    by_cases c1 : (!(RewindSchema e2 w2 segments).1.ok) = true
    · rw [if_pos c1, if_pos c1]
      exact ⟨rfl, ⟨hrr, rfl, rfl⟩, rfl⟩
    · rw [if_neg c1, if_neg c1]
      obtain ⟨hos, hor⟩ := h.OpenNewLog _ _ hrr
      rw [hos]
      by_cases c2 : (!(e2.OpenNewLog (RewindSchema e2 w2 segments).2).1.ok) = true
      · rw [if_pos c2, if_pos c2]
        exact ⟨rfl, ⟨hor, rfl, rfl⟩, rfl⟩
      · rw [if_neg c2, if_neg c2]
        exact ReplayAndFinish_agree h _ _ ⟨hor, rfl, rfl⟩ _ _ _

/-- The environments sampleEnv and quietEnv answer alike, whatever their
worlds hold. -/
theorem sampleEnv_quietEnv_agree (table_type : TableType) :
    EnvAgree (fun _ _ => True) (sampleEnv table_type) (quietEnv table_type) where
  table_type := rfl
  kUnknownTerm := rfl
  kMin := rfl
  max_clock_sync_error_usec := rfl
  AddPhysicalTimeToHybridTime := rfl
  UpdateClock := fun _ _ _ _ => trivial
  UpdateMonotonicCounter := fun _ _ _ _ => trivial
  LogAppend := fun _ _ _ _ => ⟨rfl, trivial⟩
  Play := fun _ _ _ _ _ _ => ⟨rfl, trivial⟩
  OfflineAdjustSafeTime := fun _ _ _ _ => trivial
  GetMaxSafeTimeToReadAt := fun _ _ _ => rfl
  MaxPersistentOpId := fun _ _ _ => rfl
  RewindSchemaForBootstrap := fun _ _ _ _ => ⟨rfl, trivial⟩
  OpenNewLog := fun _ _ _ => ⟨rfl, trivial⟩

/-- Claim C20: replay is deterministic.  Take two runs whose collaborators
answer alike (EnvAgree) and that start in the same situation (TbAgree: related
worlds, the same statistics, the same flushed-stores snapshot) from the same
ReplayState.  Fed the same sequence of log entries, HandleEntry returns the
same status at every entry in both runs, both runs abort on a CHECK or
neither does, and when they return they return the same status and the same
ReplayState, hence the same prev_op_id, committed_op_id, pending_replicates and
pending_commits and the same orphaned replicates; PlaySegments on the same
segments ends alike in both runs, with the same status and the same consensus
bootstrap information (last ids and orphaned replicates). -/
theorem C20_replay_deterministic {W1 W2 : Type} (R : W1 → W2 → Prop) (e1 : Env W1)
    (e2 : Env W2) (h : EnvAgree R e1 e2) (tb1 : TabletBootstrap W1)
    (tb2 : TabletBootstrap W2) (htb : TbAgree R tb1 tb2) (state : ReplayState) :
    (∀ entry : LogEntryPB,
      OutcomeAgree R (HandleEntry e1 tb1 state entry) (HandleEntry e2 tb2 state entry)) ∧
    (∀ entries : List LogEntryPB,
      EntryOutcomes e1 tb1 state entries = EntryOutcomes e2 tb2 state entries ∧
      (ReplayEntries e1 tb1 state entries).isSome =
        (ReplayEntries e2 tb2 state entries).isSome ∧
      ∀ r1 r2, ReplayEntries e1 tb1 state entries = some r1 →
        ReplayEntries e2 tb2 state entries = some r2 →
        r1.1 = r2.1 ∧ r1.2.2 = r2.2.2 ∧
        r1.2.2.prev_op_id = r2.2.2.prev_op_id ∧
        r1.2.2.committed_op_id = r2.2.2.committed_op_id ∧
        r1.2.2.pending_replicates = r2.2.2.pending_replicates ∧
        r1.2.2.pending_commits = r2.2.2.pending_commits ∧
        OrphanedReplicates e1 r1.2.2 = OrphanedReplicates e2 r2.2.2 ∧
        TbAgree R r1.2.1 r2.2.1) ∧
    (∀ (snapshot_status : Status) (segments : List Segment)
        (consensus_info : ConsensusBootstrapInfo),
      (PlaySegments e1 tb1 snapshot_status segments consensus_info).isSome =
        (PlaySegments e2 tb2 snapshot_status segments consensus_info).isSome ∧
      ∀ r1 r2, PlaySegments e1 tb1 snapshot_status segments consensus_info = some r1 →
        PlaySegments e2 tb2 snapshot_status segments consensus_info = some r2 →
        r1.1 = r2.1 ∧ r1.2.2 = r2.2.2 ∧ TbAgree R r1.2.1 r2.2.1) := by
  have key : ∀ {α : Type} (x : Option (Status × TabletBootstrap W1 × α))
      (y : Option (Status × TabletBootstrap W2 × α)), OutcomeAgree R x y →
      x.isSome = y.isSome ∧
      ∀ r1 r2, x = some r1 → y = some r2 → r1.1 = r2.1 ∧ TbAgree R r1.2.1 r2.2.1 ∧
        r1.2.2 = r2.2.2 := by
    intro α x y hxy
    cases x with
    | none =>
      cases y with
      | none => exact ⟨rfl, fun r1 r2 h1 => by cases h1⟩
      | some b => exact hxy.elim
    | some a =>
      cases y with
      | none => exact hxy.elim
      | some b =>
        refine ⟨rfl, ?_⟩
        intro r1 r2 h1 h2
        cases h1
        cases h2
        exact hxy
  refine ⟨fun entry => HandleEntry_agree h tb1 tb2 htb state entry, ?_, ?_⟩
  · intro entries
    obtain ⟨ho, hag⟩ := ReplayEntries_agree h entries tb1 tb2 htb state
    obtain ⟨k1, k2⟩ := key _ _ hag
    refine ⟨ho, k1, ?_⟩
    intro r1 r2 h1 h2
    obtain ⟨hs, ht, hr⟩ := k2 r1 r2 h1 h2
    refine ⟨hs, hr, by rw [hr], by rw [hr], by rw [hr], by rw [hr], ?_, ht⟩
    unfold OrphanedReplicates
    rw [hr, h.table_type]
  · intro snapshot_status segments consensus_info
    obtain ⟨k1, k2⟩ := key _ _
      (PlaySegments_agree h tb1 tb2 htb snapshot_status segments consensus_info)
    refine ⟨k1, ?_⟩
    intro r1 r2 h1 h2
    obtain ⟨hs, ht, hr⟩ := k2 r1 r2 h1 h2
    exact ⟨hs, hr, ht⟩

/-- C20 on the legacy backend: a run that records every replayed index in its
world and a run that records nothing replay the entries (1,1), (1,2), the
commit of (1,1) and an out-of-sequence (1,5) with the same outcome at every
entry: OK three times, then Corruption. -/
theorem C20_replay_deterministic_witness :
    EnvAgree (fun _ _ => True) (sampleEnv TableType.KUDU_COLUMNAR_TABLE_TYPE)
      (quietEnv TableType.KUDU_COLUMNAR_TABLE_TYPE) ∧
    TbAgree (fun _ _ => True) (freshBootstrap ⟨0, []⟩)
      ({ world := (), stats_ := ⟨0, 0, 0, 0, 0, 0, 0, 0⟩, flushed_stores_ := ⟨0, []⟩ } :
        TabletBootstrap Unit) ∧
    EntryOutcomes (sampleEnv TableType.KUDU_COLUMNAR_TABLE_TYPE) (freshBootstrap ⟨0, []⟩)
        legacyStart
        [replicateEntry ⟨1, 1⟩ ⟨0, 0⟩, replicateEntry ⟨1, 2⟩ ⟨0, 0⟩, commitEntry ⟨1, 1⟩ [],
         replicateEntry ⟨1, 5⟩ ⟨0, 0⟩] =
      EntryOutcomes (quietEnv TableType.KUDU_COLUMNAR_TABLE_TYPE)
        { world := (), stats_ := ⟨0, 0, 0, 0, 0, 0, 0, 0⟩, flushed_stores_ := ⟨0, []⟩ }
        legacyStart
        [replicateEntry ⟨1, 1⟩ ⟨0, 0⟩, replicateEntry ⟨1, 2⟩ ⟨0, 0⟩, commitEntry ⟨1, 1⟩ [],
         replicateEntry ⟨1, 5⟩ ⟨0, 0⟩] ∧
    EntryOutcomes (sampleEnv TableType.KUDU_COLUMNAR_TABLE_TYPE) (freshBootstrap ⟨0, []⟩)
        legacyStart
        [replicateEntry ⟨1, 1⟩ ⟨0, 0⟩, replicateEntry ⟨1, 2⟩ ⟨0, 0⟩, commitEntry ⟨1, 1⟩ [],
         replicateEntry ⟨1, 5⟩ ⟨0, 0⟩] =
      [some Status.OK, some Status.OK, some Status.OK, some Status.Corruption] :=
  ⟨sampleEnv_quietEnv_agree _, ⟨trivial, rfl, rfl⟩,
   ((C20_replay_deterministic (fun _ _ => True) (sampleEnv TableType.KUDU_COLUMNAR_TABLE_TYPE)
      (quietEnv TableType.KUDU_COLUMNAR_TABLE_TYPE) (sampleEnv_quietEnv_agree _)
      (freshBootstrap ⟨0, []⟩) _ ⟨trivial, rfl, rfl⟩ legacyStart).2.1 _).1,
   rfl⟩

/-! ### The checked insertion into pending_replicates -/

/-- A key the map contains is the key of one of its entries. -/
theorem mem_of_ContainsKey (m : OpIndexToEntryMap) (i : Int) (h : ContainsKey m i = true) :
    ∃ v, (i, v) ∈ m := by
  induction m with
  | nil => simp [ContainsKey, find] at h
  | cons p rest ih =>
    obtain ⟨k, v⟩ := p
    by_cases hk : k = i
    · subst hk
      exact ⟨v, List.mem_cons_self _ _⟩
    · have h2 : ContainsKey rest i = true := by
        unfold ContainsKey find at h
        rw [if_neg hk] at h
        exact h
      obtain ⟨v2, hv2⟩ := ih h2
      exact ⟨v2, List.mem_cons_of_mem _ hv2⟩

/-- Claim C27: the CHECK on the emplace of HandleReplicateMessage never fails.
For every pending_replicates and every index i the emplace that follows the
overwrite step reports an insertion, so InsertPendingReplicate always returns
and the new entry is pending at i afterwards; on a well-formed map no entry
with key i is left by the overwrite step.  On the legacy backend, where this
CHECK is the only one of HandleReplicateMessage, the function always returns. -/
theorem C27_insert_check_never_fails :
    (∀ (m : OpIndexToEntryMap) (i : Int) (e : LogEntryPB),
      (emplace (OverwritePending m i).1 i e).2 = true) ∧
    (∀ (m : OpIndexToEntryMap) (i : Int), MapWF m →
      ContainsKey (OverwritePending m i).1 i = false) ∧
    (∀ (state : ReplayState) (entry : LogEntryPB),
      ∃ r, InsertPendingReplicate state entry = some r ∧
        (entry.replicate.id.index, entry) ∈ r.1.pending_replicates) ∧
    (∀ {W : Type} (env : Env W) (tb : TabletBootstrap W) (state : ReplayState)
        (entry : LogEntryPB), env.table_type = TableType.KUDU_COLUMNAR_TABLE_TYPE →
      ∃ r, HandleReplicateMessage env tb state entry = some r) ∧
    (InsertPendingReplicate pendingOneToThree (replicateEntry ⟨2, 2⟩ ⟨0, 0⟩)).map
        (fun r => (keys r.1.pending_replicates, r.2)) = some ([1, 2], 2) := by
  have hins : ∀ (state : ReplayState) (entry : LogEntryPB),
      ∃ r, InsertPendingReplicate state entry = some r ∧
        (entry.replicate.id.index, entry) ∈ r.1.pending_replicates := by
    intro state entry
    refine ⟨_, InsertPendingReplicate_eq state entry, ?_⟩
    simp [PendingAfterInsert]
  refine ⟨?_, ?_, hins, ?_, rfl⟩
  · intro m i e
    have h := InsertPendingReplicate_eq
      { legacyStart with pending_replicates := m }
      { replicateEntry ⟨0, i⟩ ⟨0, 0⟩ with
        replicate := { e.replicate with id := ⟨0, i⟩ } }
    unfold InsertPendingReplicate at h
    simp only at h
    by_cases c : (!(emplace (OverwritePending m i).1 i
        { replicateEntry ⟨0, i⟩ ⟨0, 0⟩ with
          replicate := { e.replicate with id := ⟨0, i⟩ } }).2) = true
    · rw [if_pos c] at h
      cases h
    · have hk : ∀ (l : OpIndexToEntryMap) (v1 v2 : LogEntryPB),
          (emplace l i v1).2 = (emplace l i v2).2 := by
        intro l v1 v2
        induction l with
        | nil => rfl
        | cons p rest ih =>
          obtain ⟨k, v⟩ := p
          unfold emplace
          split_ifs
          · rfl
          · rfl
          · exact ih
      rw [hk _ e]
      simpa using c
  · intro m i hwf
    cases hc : ContainsKey (OverwritePending m i).1 i with
    | false => rfl
    | true =>
      exfalso
      unfold OverwritePending at hc
      cases hlb : lower_bound m i with
      | nil =>
        rw [hlb] at hc
        simp only at hc
        obtain ⟨v, rest, h2⟩ := lower_bound_of_ContainsKey m i hwf hc
        rw [hlb] at h2
        cases h2
      | cons q rest =>
        obtain ⟨k, v⟩ := q
        rw [hlb] at hc
        simp only at hc
        by_cases hk : k = i
        · rw [if_pos hk] at hc
          simp only at hc
          obtain ⟨v2, hv2⟩ := mem_of_ContainsKey _ i hc
          have := (mem_erase_from_lower_bound m i _ hv2).2
          simp at this
        · rw [if_neg hk] at hc
          simp only at hc
          obtain ⟨v2, rest2, h2⟩ := lower_bound_of_ContainsKey m i hwf hc
          rw [hlb] at h2
          injection h2 with h3 _
          injection h3 with h4 _
          exact hk h4
  · intro W env tb state entry hk
    have hnk : non_kudu env = false := by
      unfold non_kudu
      simp [hk]
    unfold HandleReplicateMessage
    simp only [hnk, Bool.false_eq_true, false_and, if_false]
    rcases hcs : state.CheckSequentialReplicateId entry.replicate with ⟨s, state1⟩
    cases s <;> simp only
    case OK =>
      rcases hla : env.LogAppend (env.UpdateMonotonicCounter
          (env.UpdateClock tb.world entry.replicate.hybrid_time)
          entry.replicate.monotonic_counter) entry with ⟨s2, w3⟩
      cases s2 <;> simp only
      case OK =>
        obtain ⟨r, hr, -⟩ := hins (NoteLastStoredIndex env state1 entry.replicate) entry
        rw [hr]
        exact ⟨_, rfl⟩
      all_goals exact ⟨_, rfl⟩
    all_goals exact ⟨_, rfl⟩

/-! ### Orphaned commits on the legacy backend -/

/-- AreAllStoresAlreadyFlushed holds exactly when every store mutated by every
operation result of the commit is reported flushed. -/
theorem AreAllStoresAlreadyFlushed_iff (fs : FlushedStoresSnapshot) (commit : CommitMsg) :
    AreAllStoresAlreadyFlushed fs commit = true ↔
      ∀ op ∈ commit.result, ∀ store ∈ op.mutated_stores,
        fs.WasStoreAlreadyFlushed store = true := by
  unfold AreAllStoresAlreadyFlushed
  simp only [List.all_eq_true]

/-- Claim C22: on the legacy backend, HandleCommitMessage on an orphaned COMMIT
(nothing is pending, or the index of the commit is below the first pending
replicate index) returns; it returns OK exactly when every store mutated by
every operation result of the commit is already flushed and Corruption
exactly when one of them is not; pending_replicates and pending_commits are
left as they were in both cases. -/
theorem C22_orphaned_commit {W : Type} (env : Env W) (tb : TabletBootstrap W)
    (state : ReplayState) (commit_entry : LogEntryPB)
    (hk : env.table_type = TableType.KUDU_COLUMNAR_TABLE_TYPE)
    (horphan : state.pending_replicates = [] ∨
      ∃ first e rest, state.pending_replicates = (first, e) :: rest ∧
        commit_entry.commit.commited_op_id.index < first) :
    ∃ r, HandleCommitMessage env tb state commit_entry = some r ∧
      (r.1 = Status.OK ↔
        ∀ op ∈ commit_entry.commit.result, ∀ store ∈ op.mutated_stores,
          tb.flushed_stores_.WasStoreAlreadyFlushed store = true) ∧
      (r.1 = Status.Corruption ↔
        ∃ op ∈ commit_entry.commit.result, ∃ store ∈ op.mutated_stores,
          tb.flushed_stores_.WasStoreAlreadyFlushed store = false) ∧
      r.2.2.pending_replicates = state.pending_replicates ∧
      r.2.2.pending_commits = state.pending_commits ∧
      r.2.1.world = tb.world := by
  obtain ⟨-, hpr, hpc, -, -⟩ :=
    UpdateCommittedOpId_frame state commit_entry.commit.commited_op_id
  have hres : HandleCommitMessage env tb state commit_entry =
      some (HandleOrphanedCommit tb
        (state.UpdateCommittedOpId commit_entry.commit.commited_op_id) commit_entry) := by
    unfold HandleCommitMessage
    have c0 : ¬ (env.table_type ≠ TableType.KUDU_COLUMNAR_TABLE_TYPE) := fun h => h hk
    rw [if_neg c0]
    simp only
    rcases horphan with h0 | ⟨first, e, rest, h1, h2⟩
    · rw [← hpr] at h0
      rw [h0]
    · rw [← hpr] at h1
      rw [h1]
      simp only
      rw [if_pos (by omega)]
  refine ⟨_, hres, ?_⟩
  have hall := AreAllStoresAlreadyFlushed_iff tb.flushed_stores_ commit_entry.commit
  cases hf : AreAllStoresAlreadyFlushed tb.flushed_stores_ commit_entry.commit with
  | true =>
    have hval : HandleOrphanedCommit tb
        (state.UpdateCommittedOpId commit_entry.commit.commited_op_id) commit_entry =
        (Status.OK,
         { tb with
           stats_ := { tb.stats_ with orphaned_commits := tb.stats_.orphaned_commits + 1 } },
         state.UpdateCommittedOpId commit_entry.commit.commited_op_id) := by
      unfold HandleOrphanedCommit CheckOrphanedCommitAlreadyFlushed
      simp [hf, Status.ok]
    rw [hval]
    rw [hf] at hall
    have hall2 := hall.mp rfl
    refine ⟨⟨fun _ => hall2, fun _ => rfl⟩, ⟨(fun h => nomatch h), ?_⟩, hpr, hpc, rfl⟩
    rintro ⟨op, hop, store, hs, hfalse⟩
    rw [hall2 op hop store hs] at hfalse
    cases hfalse
  | false =>
    have hval : HandleOrphanedCommit tb
        (state.UpdateCommittedOpId commit_entry.commit.commited_op_id) commit_entry =
        (Status.Corruption, tb,
         state.UpdateCommittedOpId commit_entry.commit.commited_op_id) := by
      unfold HandleOrphanedCommit CheckOrphanedCommitAlreadyFlushed
      simp [hf, Status.ok]
    rw [hval]
    rw [hf] at hall
    refine ⟨⟨(fun h => nomatch h), fun h => ?_⟩, ⟨fun _ => ?_, fun _ => rfl⟩, hpr, hpc, rfl⟩
    · have := hall.mpr h
      cases this
    · by_contra hne
      have : ∀ op ∈ commit_entry.commit.result, ∀ store ∈ op.mutated_stores,
          tb.flushed_stores_.WasStoreAlreadyFlushed store = true := by
        intro op hop store hs
        by_contra hc
        exact hne ⟨op, hop, store, hs, by simpa using hc⟩
      have := hall.mpr this
      cases this

/-- C22 on the legacy backend with the replicate (1,5) pending and a snapshot
whose last durable MemRowSet is 3: the orphaned commit of (1,2) is accepted
when its only store is MemRowSet 3 and rejected with Corruption when it is
MemRowSet 4. -/
theorem C22_orphaned_commit_witness :
    (sampleEnv TableType.KUDU_COLUMNAR_TABLE_TYPE).table_type =
      TableType.KUDU_COLUMNAR_TABLE_TYPE ∧
    (∃ r, HandleCommitMessage (sampleEnv TableType.KUDU_COLUMNAR_TABLE_TYPE)
        (freshBootstrap ⟨3, []⟩)
        { legacyStart with pending_replicates := [(5, replicateEntry ⟨1, 5⟩ ⟨0, 0⟩)] }
        (commitEntry ⟨1, 2⟩ [⟨false, false, [⟨true, 3, 0, 0⟩]⟩]) = some r ∧
      r.2.2.pending_replicates = [(5, replicateEntry ⟨1, 5⟩ ⟨0, 0⟩)]) ∧
    (HandleCommitMessage (sampleEnv TableType.KUDU_COLUMNAR_TABLE_TYPE)
        (freshBootstrap ⟨3, []⟩)
        { legacyStart with pending_replicates := [(5, replicateEntry ⟨1, 5⟩ ⟨0, 0⟩)] }
        (commitEntry ⟨1, 2⟩ [⟨false, false, [⟨true, 3, 0, 0⟩]⟩])).map (fun r => r.1) =
      some Status.OK ∧
    (HandleCommitMessage (sampleEnv TableType.KUDU_COLUMNAR_TABLE_TYPE)
        (freshBootstrap ⟨3, []⟩)
        { legacyStart with pending_replicates := [(5, replicateEntry ⟨1, 5⟩ ⟨0, 0⟩)] }
        (commitEntry ⟨1, 2⟩ [⟨false, false, [⟨true, 4, 0, 0⟩]⟩])).map (fun r => r.1) =
      some Status.Corruption := by
  refine ⟨rfl, ?_, rfl, rfl⟩
  obtain ⟨r, hr, -, -, hpr, -, -⟩ := C22_orphaned_commit
    (sampleEnv TableType.KUDU_COLUMNAR_TABLE_TYPE) (freshBootstrap ⟨3, []⟩)
    { legacyStart with pending_replicates := [(5, replicateEntry ⟨1, 5⟩ ⟨0, 0⟩)] }
    (commitEntry ⟨1, 2⟩ [⟨false, false, [⟨true, 3, 0, 0⟩]⟩]) rfl
    (Or.inr ⟨5, _, [], rfl, by decide⟩)
  exact ⟨r, hr, hpr⟩

/-! ### Write replay: filtering of flushed operations -/

/-- Claim C26: without an original result FilterInsert and FilterMutate return
OK and leave the operation and the bootstrap alone.  With an original result,
FilterInsert returns Corruption unless the result lists exactly one mutated
store and that store has an mrs_id, FilterMutate returns Corruption unless the
result lists one or two mutated stores; both return OK otherwise, and a
Corruption leaves the operation unmarked. -/
theorem C26_filter_corruption {W : Type} (tb : TabletBootstrap W) (op : RowOp) :
    FilterInsert tb op none = (Status.OK, tb, op) ∧
    FilterMutate tb op none = (Status.OK, tb, op) ∧
    (∀ r : OperationResultPB,
      ((FilterInsert tb op (some r)).1 = Status.Corruption ↔
        ¬ ∃ store, r.mutated_stores = [store] ∧ store.has_mrs_id = true) ∧
      ((FilterInsert tb op (some r)).1 = Status.OK ↔
        ∃ store, r.mutated_stores = [store] ∧ store.has_mrs_id = true) ∧
      ((FilterInsert tb op (some r)).1 = Status.Corruption →
        (FilterInsert tb op (some r)).2 = (tb, op))) ∧
    (∀ r : OperationResultPB,
      ((FilterMutate tb op (some r)).1 = Status.Corruption ↔
        ¬ (r.mutated_stores.length = 1 ∨ r.mutated_stores.length = 2)) ∧
      ((FilterMutate tb op (some r)).1 = Status.OK ↔
        (r.mutated_stores.length = 1 ∨ r.mutated_stores.length = 2)) ∧
      ((FilterMutate tb op (some r)).1 = Status.Corruption →
        (FilterMutate tb op (some r)).2 = (tb, op))) := by
  refine ⟨rfl, rfl, ?_, ?_⟩
  · intro r
    unfold FilterInsert
    simp only
    rcases hs : r.mutated_stores with _ | ⟨store, _ | ⟨s2, rest⟩⟩
    · simp
    · simp only
      cases hm : store.has_mrs_id with
      | false => simp [hm]
      | true =>
        by_cases hf : tb.flushed_stores_.WasStoreAlreadyFlushed store = true
        · simp [hf, hm]
        · simp [hf, hm]
    · simp
  · intro r
    unfold FilterMutate
    simp only
    by_cases hn : r.mutated_stores.length = 0 ∨ r.mutated_stores.length > 2
    · rw [if_pos hn]
      simp only [true_iff, implies_true, and_true]
      refine ⟨by omega, ?_⟩
      constructor
      · intro h
        cases h
      · intro h
        omega
    · rw [if_neg hn]
      have hlen : r.mutated_stores.length = 1 ∨ r.mutated_stores.length = 2 := by omega
      by_cases hu : NumUnflushedStores tb.flushed_stores_ r.mutated_stores = 0
      · rw [if_pos hu]
        simp [hlen]
      · rw [if_neg hu]
        simp [hlen]

/-- No store is counted unflushed exactly when every store is reported
flushed. -/
theorem NumUnflushedStores_eq_zero_iff (fs : FlushedStoresSnapshot)
    (stores : List MemStoreTargetPB) :
    NumUnflushedStores fs stores = 0 ↔
      ∀ store ∈ stores, fs.WasStoreAlreadyFlushed store = true := by
  unfold NumUnflushedStores
  rw [List.length_eq_zero, List.filter_eq_nil_iff]
  constructor
  · intro h store hs
    simpa using h store hs
  · intro h store hs
    simpa using h store hs

/-- Claim C21: for a mutation whose original result lists one or two mutated
stores, FilterMutate returns OK; it marks the operation failed with
AlreadyPresent, counting it as ignored, exactly when every recorded store is
already flushed, and leaves the operation and the statistics alone when a
store is unflushed, in particular when both of two targets are.  In
FilterAndApplyOperations such a mutation (an UPDATE or DELETE without result
yet, whose original result neither failed nor carries the flushed flag) is
therefore skipped, the world untouched, when every recorded store is flushed,
and handed to ApplyKuduRowOperation otherwise. -/
theorem C21_mutation_reapplied_unless_flushed {W : Type} (env : RowReplayEnv W)
    (tb : TabletBootstrap W) (op : RowOp) (r : OperationResultPB)
    (hlen : r.mutated_stores.length = 1 ∨ r.mutated_stores.length = 2)
    (hunset : op.result = RowOpResult.unset) :
    (FilterMutate tb op (some r)).1 = Status.OK ∧
    ((FilterMutate tb op (some r)).2.2.result = RowOpResult.failed Status.AlreadyPresent ↔
      ∀ store ∈ r.mutated_stores, tb.flushed_stores_.WasStoreAlreadyFlushed store = true) ∧
    ((∀ store ∈ r.mutated_stores, tb.flushed_stores_.WasStoreAlreadyFlushed store = true) →
      FilterMutate tb op (some r) =
        (Status.OK,
         { tb with
           stats_ := { tb.stats_ with mutations_ignored := tb.stats_.mutations_ignored + 1 } },
         op.SetFailed Status.AlreadyPresent)) ∧
    ((∃ store ∈ r.mutated_stores, tb.flushed_stores_.WasStoreAlreadyFlushed store = false) →
      FilterMutate tb op (some r) = (Status.OK, tb, op)) ∧
    ((op.type = RowOperationType.UPDATE ∨ op.type = RowOperationType.DELETE) →
      r.has_failed_status = false → r.flushed = false →
      ((∀ store ∈ r.mutated_stores,
          tb.flushed_stores_.WasStoreAlreadyFlushed store = true) →
        FilterAndApplyOne env tb op (some r) =
          some (Status.OK,
            { tb with
              stats_ :=
                { tb.stats_ with
                  mutations_seen := tb.stats_.mutations_seen + 1,
                  mutations_ignored := tb.stats_.mutations_ignored + 1 } },
            op.SetFailed Status.AlreadyPresent)) ∧
      ((∃ store ∈ r.mutated_stores,
          tb.flushed_stores_.WasStoreAlreadyFlushed store = false) →
        (env.ApplyKuduRowOperation tb.world op).1.result ≠ RowOpResult.unset →
        FilterAndApplyOne env tb op (some r) =
          some (if (env.ApplyKuduRowOperation tb.world op).1.has_failed_status then
                  Status.Corruption
                else Status.OK,
            { tb with
              world := (env.ApplyKuduRowOperation tb.world op).2,
              stats_ := { tb.stats_ with mutations_seen := tb.stats_.mutations_seen + 1 } },
            (env.ApplyKuduRowOperation tb.world op).1))) := by
  have hn : ¬ (r.mutated_stores.length = 0 ∨ r.mutated_stores.length > 2) := by omega
  have hall : ∀ tb2 : TabletBootstrap W,
      (∀ store ∈ r.mutated_stores, tb2.flushed_stores_.WasStoreAlreadyFlushed store = true) →
      FilterMutate tb2 op (some r) =
        (Status.OK,
         { tb2 with
           stats_ :=
             { tb2.stats_ with mutations_ignored := tb2.stats_.mutations_ignored + 1 } },
         op.SetFailed Status.AlreadyPresent) := by
    intro tb2 h
    unfold FilterMutate
    simp only
    rw [if_neg hn, if_pos ((NumUnflushedStores_eq_zero_iff _ _).mpr h)]
  have hsome : ∀ tb2 : TabletBootstrap W,
      (∃ store ∈ r.mutated_stores,
        tb2.flushed_stores_.WasStoreAlreadyFlushed store = false) →
      FilterMutate tb2 op (some r) = (Status.OK, tb2, op) := by
    intro tb2 h
    have hz : ¬ NumUnflushedStores tb2.flushed_stores_ r.mutated_stores = 0 := by
      rw [NumUnflushedStores_eq_zero_iff]
      intro hc
      obtain ⟨store, hs, hf⟩ := h
      rw [hc store hs] at hf
      cases hf
    unfold FilterMutate
    simp only
    rw [if_neg hn, if_neg hz]
  have hdich : (∀ store ∈ r.mutated_stores,
        tb.flushed_stores_.WasStoreAlreadyFlushed store = true) ∨
      (∃ store ∈ r.mutated_stores,
        tb.flushed_stores_.WasStoreAlreadyFlushed store = false) := by
    by_cases h : ∀ store ∈ r.mutated_stores,
        tb.flushed_stores_.WasStoreAlreadyFlushed store = true
    · exact Or.inl h
    · right
      push_neg at h
      obtain ⟨store, hs, hf⟩ := h
      exact ⟨store, hs, by simpa using hf⟩
  refine ⟨?_, ?_, hall tb, hsome tb, ?_⟩
  · rcases hdich with h | h
    · rw [hall tb h]
    · rw [hsome tb h]
  · constructor
    · intro hres
      rcases hdich with h | h
      · exact h
      · rw [hsome tb h] at hres
        simp only at hres
        rw [hunset] at hres
        cases hres
    · intro h
      rw [hall tb h]
      rfl
  · intro htype hfailed hflag
    have hstep : FilterAndApplyOne env tb op (some r) =
        (if (!(FilterMutate
              { tb with
                stats_ := { tb.stats_ with mutations_seen := tb.stats_.mutations_seen + 1 } }
              op (some r)).1.ok) = true then
          some (FilterMutate
              { tb with
                stats_ := { tb.stats_ with mutations_seen := tb.stats_.mutations_seen + 1 } }
              op (some r))
        else
          ApplyUnlessFiltered env
            (FilterMutate
              { tb with
                stats_ := { tb.stats_ with mutations_seen := tb.stats_.mutations_seen + 1 } }
              op (some r)).2.1
            (FilterMutate
              { tb with
                stats_ := { tb.stats_ with mutations_seen := tb.stats_.mutations_seen + 1 } }
              op (some r)).2.2) := by
      unfold FilterAndApplyOne
      rcases htype with ht | ht <;> simp [ht, hfailed, hflag]
    refine ⟨?_, ?_⟩
    · intro h
      rw [hstep, hall
        { tb with
          stats_ := { tb.stats_ with mutations_seen := tb.stats_.mutations_seen + 1 } } h]
      have c1 : ¬ ((!Status.OK.ok) = true) := by decide
      rw [if_neg c1]
      unfold ApplyUnlessFiltered
      simp [RowOp.SetFailed]
    · intro h happlied
      rw [hstep, hsome
        { tb with
          stats_ := { tb.stats_ with mutations_seen := tb.stats_.mutations_seen + 1 } } h]
      have c1 : ¬ ((!Status.OK.ok) = true) := by decide
      rw [if_neg c1]
      unfold ApplyUnlessFiltered
      simp only
      have c2 : ¬ (op.result ≠ RowOpResult.unset) := fun hc => hc hunset
      rw [if_neg c2, if_neg happlied]
      by_cases c3 : (env.ApplyKuduRowOperation tb.world op).1.has_failed_status = true
      · rw [if_pos c3, if_pos c3]
      · rw [if_neg c3, if_neg c3]

/-- C21 on a bootstrap whose last durable MemRowSet is 3: an UPDATE of key 7
recorded in the MemRowSets 4 and 5, both unflushed, passes FilterMutate with
its result unset and is applied again (its key is logged in the world); the
same UPDATE recorded in the MemRowSets 2 and 3 is marked AlreadyPresent and
not applied. -/
theorem C21_mutation_reapplied_unless_flushed_witness :
    ((⟨false, false, [⟨true, 4, 0, 0⟩, ⟨true, 5, 0, 0⟩]⟩ : OperationResultPB).mutated_stores.length
        = 1 ∨
      (⟨false, false, [⟨true, 4, 0, 0⟩, ⟨true, 5, 0, 0⟩]⟩ : OperationResultPB).mutated_stores.length
        = 2) ∧
    (updateOf 7).result = RowOpResult.unset ∧
    FilterMutate (freshBootstrap ⟨3, []⟩) (updateOf 7)
        (some ⟨false, false, [⟨true, 4, 0, 0⟩, ⟨true, 5, 0, 0⟩]⟩) =
      (Status.OK, freshBootstrap ⟨3, []⟩, updateOf 7) ∧
    (FilterAndApplyOne sampleRowReplayEnv (freshBootstrap ⟨3, []⟩) (updateOf 7)
        (some ⟨false, false, [⟨true, 4, 0, 0⟩, ⟨true, 5, 0, 0⟩]⟩)).map
        (fun x => (x.1, x.2.1.world, x.2.1.stats_.mutations_ignored)) =
      some (Status.OK, [7], 0) ∧
    (FilterAndApplyOne sampleRowReplayEnv (freshBootstrap ⟨3, []⟩) (updateOf 7)
        (some ⟨false, false, [⟨true, 2, 0, 0⟩, ⟨true, 3, 0, 0⟩]⟩)).map
        (fun x => (x.1, x.2.1.world, x.2.1.stats_.mutations_ignored, x.2.2.result)) =
      some (Status.OK, [], 1, RowOpResult.failed Status.AlreadyPresent) :=
  ⟨Or.inr rfl, rfl,
   (C21_mutation_reapplied_unless_flushed sampleRowReplayEnv (freshBootstrap ⟨3, []⟩)
      (updateOf 7) ⟨false, false, [⟨true, 4, 0, 0⟩, ⟨true, 5, 0, 0⟩]⟩ (Or.inr rfl) rfl).2.2.2.1
      ⟨⟨true, 4, 0, 0⟩, by simp, by decide⟩,
   rfl, rfl⟩

/-! ### Write replay: the statistics -/

/-- Applying an operation leaves the statistics alone. -/
theorem ApplyUnlessFiltered_stats {W : Type} (env : RowReplayEnv W) (tb : TabletBootstrap W)
    (op : RowOp) (r : Status × TabletBootstrap W × RowOp)
    (h : ApplyUnlessFiltered env tb op = some r) : r.2.1.stats_ = tb.stats_ := by
  unfold ApplyUnlessFiltered at h
  simp only at h
  split_ifs at h <;> (injection h with h; subst h; rfl)

/-- FilterInsert changes at most inserts_ignored, by at most one. -/
theorem FilterInsert_stats {W : Type} (tb : TabletBootstrap W) (op : RowOp)
    (o : Option OperationResultPB) :
    (FilterInsert tb op o).2.1.stats_ = tb.stats_ ∨
    (FilterInsert tb op o).2.1.stats_ =
      { tb.stats_ with inserts_ignored := tb.stats_.inserts_ignored + 1 } := by
  unfold FilterInsert
  cases o with
  | none => exact Or.inl rfl
  | some r =>
    simp only
    rcases r.mutated_stores with _ | ⟨store, _ | ⟨s2, rest⟩⟩
    · exact Or.inl rfl
    · simp only
      split_ifs
      · exact Or.inl rfl
      · exact Or.inr rfl
      · exact Or.inl rfl
    · exact Or.inl rfl

/-- FilterMutate changes at most mutations_ignored, by at most one. -/
theorem FilterMutate_stats {W : Type} (tb : TabletBootstrap W) (op : RowOp)
    (o : Option OperationResultPB) :
    (FilterMutate tb op o).2.1.stats_ = tb.stats_ ∨
    (FilterMutate tb op o).2.1.stats_ =
      { tb.stats_ with mutations_ignored := tb.stats_.mutations_ignored + 1 } := by
  unfold FilterMutate
  cases o with
  | none => exact Or.inl rfl
  | some r =>
    simp only
    split_ifs
    · exact Or.inl rfl
    · exact Or.inr rfl
    · exact Or.inl rfl

/-- The statistics after the loop body for one operation. -/
theorem FilterAndApplyOne_stats {W : Type} (env : RowReplayEnv W) (tb : TabletBootstrap W)
    (op : RowOp) (orig : Option OperationResultPB) (r : Status × TabletBootstrap W × RowOp)
    (h : FilterAndApplyOne env tb op orig = some r) :
    ∃ ds di ms mi : Nat,
      r.2.1.stats_ =
        { tb.stats_ with
          inserts_seen := tb.stats_.inserts_seen + ds,
          inserts_ignored := tb.stats_.inserts_ignored + di,
          mutations_seen := tb.stats_.mutations_seen + ms,
          mutations_ignored := tb.stats_.mutations_ignored + mi } ∧
      (di ≤ ds ∧ mi ≤ ms ∧ ds + ms ≤ 1 ∧
      ((orig.map (fun o => o.has_failed_status)).getD false = true → ds = 0 ∧ ms = 0) ∧
      ((orig.map (fun o => o.has_failed_status)).getD false = false →
        (op.type = RowOperationType.INSERT → ds = 1) ∧
        (op.type = RowOperationType.UPDATE ∨ op.type = RowOperationType.DELETE → ms = 1))) := by
  unfold FilterAndApplyOne at h
  by_cases hfail : (orig.map (fun o => o.has_failed_status)).getD false = true
  · rw [if_pos hfail] at h
    injection h with h
    subst h
    refine ⟨0, 0, 0, 0, rfl, ?_⟩
    simp [hfail]
  · rw [if_neg hfail] at h
    have hfail2 : (orig.map (fun o => o.has_failed_status)).getD false = false := by
      simpa using hfail
    cases ht : op.type with
    | UNKNOWN => rw [ht] at h; cases h
    | SPLIT_ROW => rw [ht] at h; cases h
    | INSERT =>
      rw [ht] at h
      simp only at h
      by_cases hflag : (orig.map (fun o => !o.flushed)).getD true = true
      · rw [if_pos hflag] at h
        have hst := FilterInsert_stats
          { tb with stats_ := { tb.stats_ with inserts_seen := tb.stats_.inserts_seen + 1 } }
          op orig
        have hres : r.2.1.stats_ = (FilterInsert
            { tb with stats_ := { tb.stats_ with inserts_seen := tb.stats_.inserts_seen + 1 } }
            op orig).2.1.stats_ := by
          split_ifs at h
          · injection h with h
            subst h
            rfl
          · exact ApplyUnlessFiltered_stats env _ _ r h
        cases hst with
        | inl hst =>
          refine ⟨1, 0, 0, 0, ?_, ?_⟩
          · rw [hres, hst]
            rfl
          · simp [hfail2]
        | inr hst =>
          refine ⟨1, 1, 0, 0, ?_, ?_⟩
          · rw [hres, hst]
            rfl
          · simp [hfail2]
      · rw [if_neg hflag] at h
        injection h with h
        subst h
        refine ⟨1, 1, 0, 0, ?_, ?_⟩
        · rfl
        · simp [hfail2]
    | UPDATE =>
      rw [ht] at h
      simp only at h
      by_cases hflag : (orig.map (fun o => !o.flushed)).getD true = true
      · rw [if_pos hflag] at h
        have hst := FilterMutate_stats
          { tb with stats_ := { tb.stats_ with mutations_seen := tb.stats_.mutations_seen + 1 } }
          op orig
        have hres : r.2.1.stats_ = (FilterMutate
            { tb with stats_ := { tb.stats_ with mutations_seen := tb.stats_.mutations_seen + 1 } }
            op orig).2.1.stats_ := by
          split_ifs at h
          · injection h with h
            subst h
            rfl
          · exact ApplyUnlessFiltered_stats env _ _ r h
        cases hst with
        | inl hst =>
          refine ⟨0, 0, 1, 0, ?_, ?_⟩
          · rw [hres, hst]
            rfl
          · simp [hfail2]
        | inr hst =>
          refine ⟨0, 0, 1, 1, ?_, ?_⟩
          · rw [hres, hst]
            rfl
          · simp [hfail2]
      · rw [if_neg hflag] at h
        injection h with h
        subst h
        refine ⟨0, 0, 1, 1, ?_, ?_⟩
        · rfl
        · simp [hfail2]
    | DELETE =>
      rw [ht] at h
      simp only at h
      by_cases hflag : (orig.map (fun o => !o.flushed)).getD true = true
      · rw [if_pos hflag] at h
        have hst := FilterMutate_stats
          { tb with stats_ := { tb.stats_ with mutations_seen := tb.stats_.mutations_seen + 1 } }
          op orig
        have hres : r.2.1.stats_ = (FilterMutate
            { tb with stats_ := { tb.stats_ with mutations_seen := tb.stats_.mutations_seen + 1 } }
            op orig).2.1.stats_ := by
          split_ifs at h
          · injection h with h
            subst h
            rfl
          · exact ApplyUnlessFiltered_stats env _ _ r h
        cases hst with
        | inl hst =>
          refine ⟨0, 0, 1, 0, ?_, ?_⟩
          · rw [hres, hst]
            rfl
          · simp [hfail2]
        | inr hst =>
          refine ⟨0, 0, 1, 1, ?_, ?_⟩
          · rw [hres, hst]
            rfl
          · simp [hfail2]
      · rw [if_neg hflag] at h
        injection h with h
        subst h
        refine ⟨0, 0, 1, 1, ?_, ?_⟩
        · rfl
        · simp [hfail2]

/-- The statistics after FilterAndApplyOperations: the counters of seen
operations grow by at most the number of operations, each counter of ignored
operations by at most the growth of its counter of seen operations. -/
theorem FilterAndApplyOperations_stats {W : Type} (env : RowReplayEnv W) :
    ∀ (ops : List RowOp) (tb : TabletBootstrap W) (orig : Option (List OperationResultPB))
      (r : Status × TabletBootstrap W × List RowOp),
      FilterAndApplyOperations env tb ops orig = some r →
      ∃ ds di ms mi : Nat,
        r.2.1.stats_ =
          { tb.stats_ with
            inserts_seen := tb.stats_.inserts_seen + ds,
            inserts_ignored := tb.stats_.inserts_ignored + di,
            mutations_seen := tb.stats_.mutations_seen + ms,
            mutations_ignored := tb.stats_.mutations_ignored + mi } ∧
        di ≤ ds ∧ mi ≤ ms ∧ ds + ms ≤ ops.length := by
  intro ops
  induction ops with
  | nil =>
    intro tb orig r h
    unfold FilterAndApplyOperations at h
    injection h with h
    subst h
    exact ⟨0, 0, 0, 0, rfl, le_refl _, le_refl _, le_refl _⟩
  | cons op rest ih =>
    intro tb orig r h
    have hone : ∀ x, FilterAndApplyOne env tb op (orig.bind (fun l => l.head?)) = some x →
        (match (some x : Option (Status × TabletBootstrap W × RowOp)) with
          | none => none
          | some (Status.OK, tb1, op1) =>
            (FilterAndApplyOperations env tb1 rest (orig.map (fun l => l.tail))).map
              (fun r => (r.1, r.2.1, op1 :: r.2.2))
          | some (s, tb1, op1) => some (s, tb1, op1 :: rest)) = some r →
        ∃ ds di ms mi : Nat,
          r.2.1.stats_ =
            { tb.stats_ with
              inserts_seen := tb.stats_.inserts_seen + ds,
              inserts_ignored := tb.stats_.inserts_ignored + di,
              mutations_seen := tb.stats_.mutations_seen + ms,
              mutations_ignored := tb.stats_.mutations_ignored + mi } ∧
          di ≤ ds ∧ mi ≤ ms ∧ ds + ms ≤ (op :: rest).length := by
      intro x hx hr
      obtain ⟨ds, di, ms, mi, hst, h1, h2, h3, -, -⟩ :=
        FilterAndApplyOne_stats env tb op _ x hx
      obtain ⟨s, tb1, op1⟩ := x
      simp only at hst
      have hearly : r.2.1 = tb1 → ∃ ds di ms mi : Nat,
          r.2.1.stats_ =
            { tb.stats_ with
              inserts_seen := tb.stats_.inserts_seen + ds,
              inserts_ignored := tb.stats_.inserts_ignored + di,
              mutations_seen := tb.stats_.mutations_seen + ms,
              mutations_ignored := tb.stats_.mutations_ignored + mi } ∧
            di ≤ ds ∧ mi ≤ ms ∧ ds + ms ≤ (op :: rest).length := by
        intro he
        refine ⟨ds, di, ms, mi, by rw [he, hst], h1, h2, ?_⟩
        simp only [List.length_cons]
        omega
      cases s
      case OK =>
        simp only at hr
        cases hrec : FilterAndApplyOperations env tb1 rest (orig.map (fun l => l.tail)) with
        | none => rw [hrec] at hr; cases hr
        | some r2 =>
          rw [hrec] at hr
          simp only [Option.map_some'] at hr
          injection hr with hr
          subst hr
          obtain ⟨ds2, di2, ms2, mi2, hst2, k1, k2, k3⟩ := ih tb1 _ r2 hrec
          refine ⟨ds + ds2, di + di2, ms + ms2, mi + mi2, ?_, by omega, by omega, ?_⟩
          · simp only
            rw [hst2, hst]
            simp only [Nat.add_assoc]
          · simp only [List.length_cons]
            omega
      all_goals
        simp only at hr
        injection hr with hr
        subst hr
        exact hearly rfl
    unfold FilterAndApplyOperations at h
    cases horig : orig with
    | none =>
      rw [horig] at h hone
      simp only at h
      cases hx : FilterAndApplyOne env tb op ((none : Option (List OperationResultPB)).bind (fun l => l.head?)) with
      | none => rw [hx] at h; cases h
      | some x =>
        rw [hx] at h
        exact hone x hx h
    | some l =>
      rw [horig] at h hone
      cases l with
      | nil => cases h
      | cons a l2 =>
        simp only at h
        cases hx : FilterAndApplyOne env tb op
            (Option.bind (some (a :: l2)) fun l => l.head?) with
        | none => rw [hx] at h; cases h
        | some x =>
          rw [hx] at h
          exact hone x hx h

/-- Claim C28: in FilterAndApplyOperations every replayed operation increases
the counter of seen operations of its kind by exactly one (inserts_seen for an
INSERT, mutations_seen for an UPDATE or DELETE) and the matching counter of
ignored operations by at most one, touching no other counter, and an
operation that originally failed changes no counter; so over every run each
counter of ignored operations grows by no more than its counter of seen
operations, and inserts_ignored <= inserts_seen and mutations_ignored <=
mutations_seen hold after the run when they held before it. -/
theorem C28_ignored_le_seen {W : Type} (env : RowReplayEnv W) (tb : TabletBootstrap W) :
    (∀ (op : RowOp) (orig : Option OperationResultPB)
        (r : Status × TabletBootstrap W × RowOp),
      FilterAndApplyOne env tb op orig = some r →
      ∃ ds di ms mi : Nat,
        r.2.1.stats_ =
          { tb.stats_ with
            inserts_seen := tb.stats_.inserts_seen + ds,
            inserts_ignored := tb.stats_.inserts_ignored + di,
            mutations_seen := tb.stats_.mutations_seen + ms,
            mutations_ignored := tb.stats_.mutations_ignored + mi } ∧
        (di ≤ ds ∧ mi ≤ ms ∧ ds + ms ≤ 1 ∧
        ((orig.map (fun o => o.has_failed_status)).getD false = true → ds = 0 ∧ ms = 0) ∧
        ((orig.map (fun o => o.has_failed_status)).getD false = false →
          (op.type = RowOperationType.INSERT → ds = 1) ∧
          (op.type = RowOperationType.UPDATE ∨ op.type = RowOperationType.DELETE →
            ms = 1)))) ∧
    (∀ (ops : List RowOp) (orig : Option (List OperationResultPB))
        (r : Status × TabletBootstrap W × List RowOp),
      FilterAndApplyOperations env tb ops orig = some r →
      r.2.1.stats_.inserts_ignored + tb.stats_.inserts_seen ≤
        r.2.1.stats_.inserts_seen + tb.stats_.inserts_ignored ∧
      r.2.1.stats_.mutations_ignored + tb.stats_.mutations_seen ≤
        r.2.1.stats_.mutations_seen + tb.stats_.mutations_ignored ∧
      tb.stats_.inserts_ignored ≤ r.2.1.stats_.inserts_ignored ∧
      tb.stats_.mutations_ignored ≤ r.2.1.stats_.mutations_ignored ∧
      r.2.1.stats_.inserts_seen + r.2.1.stats_.mutations_seen ≤
        tb.stats_.inserts_seen + tb.stats_.mutations_seen + ops.length ∧
      (tb.stats_.inserts_ignored ≤ tb.stats_.inserts_seen →
        r.2.1.stats_.inserts_ignored ≤ r.2.1.stats_.inserts_seen) ∧
      (tb.stats_.mutations_ignored ≤ tb.stats_.mutations_seen →
        r.2.1.stats_.mutations_ignored ≤ r.2.1.stats_.mutations_seen)) ∧
    (FilterAndApplyOperations sampleRowReplayEnv (freshBootstrap ⟨3, []⟩)
        [insertOf 1, updateOf 2, updateOf 3, insertOf 4]
        (some [⟨false, false, [⟨true, 2, 0, 0⟩]⟩, ⟨false, true, []⟩,
               ⟨false, false, [⟨true, 5, 0, 0⟩]⟩, ⟨true, false, []⟩])).map
        (fun r => (r.1, r.2.1.stats_, r.2.1.world)) =
      some (Status.OK, ⟨0, 0, 0, 2, 2, 1, 0, 0⟩, [3]) := by
  refine ⟨fun op orig r h => FilterAndApplyOne_stats env tb op orig r h, ?_, rfl⟩
  intro ops orig r h
  obtain ⟨ds, di, ms, mi, hst, h1, h2, h3⟩ := FilterAndApplyOperations_stats env ops tb orig r h
  rw [hst]
  simp only
  refine ⟨by omega, by omega, by omega, by omega, by omega, ?_, ?_⟩
  · intro h0
    omega
  · intro h0
    omega

/-! ### Replay of a configuration change -/

/-- Claim C29: PlayChangeConfigRequest replaces the committed configuration
with the replicated one, stamped with the index of the replicate as
opid_index, exactly when that index is strictly greater than the opid_index
of the committed configuration, and leaves the consensus metadata as it was
otherwise; the opid_index of the committed configuration after the call is
the maximum of the previous one and the index of the replicate, and it never
decreases along a sequence of calls.  The status is OK without a commit
message and the one of AppendCommitMsg with one. -/
theorem C29_PlayChangeConfigRequest {W : Type}
    (AppendCommitMsg : W → CommitMsg → Status × W) (cmeta : ConsensusMetadata) (w : W) :
    (∀ (replicate_msg : ReplicateMsg) (new_config : RaftConfigPB)
        (commit_msg : Option CommitMsg),
      (replicate_msg.id.index > cmeta.committed_config.opid_index →
        (PlayChangeConfigRequest AppendCommitMsg cmeta w replicate_msg new_config
            commit_msg).2.1 =
          { committed_config :=
              { new_config with
                has_opid_index := true, opid_index := replicate_msg.id.index } }) ∧
      (replicate_msg.id.index ≤ cmeta.committed_config.opid_index →
        (PlayChangeConfigRequest AppendCommitMsg cmeta w replicate_msg new_config
            commit_msg).2.1 = cmeta) ∧
      (PlayChangeConfigRequest AppendCommitMsg cmeta w replicate_msg new_config
          commit_msg).2.1.committed_config.opid_index =
        max cmeta.committed_config.opid_index replicate_msg.id.index ∧
      (commit_msg = none →
        (PlayChangeConfigRequest AppendCommitMsg cmeta w replicate_msg new_config
            commit_msg).1 = Status.OK ∧
        (PlayChangeConfigRequest AppendCommitMsg cmeta w replicate_msg new_config
            commit_msg).2.2 = w) ∧
      (∀ c, commit_msg = some c →
        (PlayChangeConfigRequest AppendCommitMsg cmeta w replicate_msg new_config
            commit_msg).1 = (AppendCommitMsg w c).1 ∧
        (PlayChangeConfigRequest AppendCommitMsg cmeta w replicate_msg new_config
            commit_msg).2.2 = (AppendCommitMsg w c).2)) ∧
    (∀ calls : List (ReplicateMsg × RaftConfigPB × Option CommitMsg),
      cmeta.committed_config.opid_index ≤
        (PlayChangeConfigRequests AppendCommitMsg cmeta w calls).1.committed_config.opid_index ∧
      ∀ call ∈ calls, call.1.id.index ≤
        (PlayChangeConfigRequests AppendCommitMsg cmeta w
          calls).1.committed_config.opid_index) := by
  have hstep : ∀ (cm : ConsensusMetadata) (w0 : W) (replicate_msg : ReplicateMsg)
      (new_config : RaftConfigPB) (commit_msg : Option CommitMsg),
      (PlayChangeConfigRequest AppendCommitMsg cm w0 replicate_msg new_config
          commit_msg).2.1 =
        if replicate_msg.id.index > cm.committed_config.opid_index then
          { cm with
            committed_config :=
              { new_config with
                has_opid_index := true, opid_index := replicate_msg.id.index } }
        else cm := by
    intro cm w0 replicate_msg new_config commit_msg
    unfold PlayChangeConfigRequest
    cases commit_msg <;> rfl
  have hmax : ∀ (cm : ConsensusMetadata) (w0 : W) (replicate_msg : ReplicateMsg)
      (new_config : RaftConfigPB) (commit_msg : Option CommitMsg),
      (PlayChangeConfigRequest AppendCommitMsg cm w0 replicate_msg new_config
          commit_msg).2.1.committed_config.opid_index =
        max cm.committed_config.opid_index replicate_msg.id.index := by
    intro cm w0 replicate_msg new_config commit_msg
    rw [hstep]
    by_cases c : replicate_msg.id.index > cm.committed_config.opid_index
    · rw [if_pos c]
      simp only
      omega
    · rw [if_neg c]
      omega
  refine ⟨?_, ?_⟩
  · intro replicate_msg new_config commit_msg
    refine ⟨?_, ?_, hmax _ _ _ _ _, ?_, ?_⟩
    · intro h
      rw [hstep, if_pos h]
    · intro h
      have c : ¬ (replicate_msg.id.index > cmeta.committed_config.opid_index) := by omega
      rw [hstep, if_neg c]
    · intro h
      subst h
      exact ⟨rfl, rfl⟩
    · intro c h
      subst h
      exact ⟨rfl, rfl⟩
  · intro calls
    induction calls generalizing cmeta w with
    | nil => exact ⟨le_refl _, fun call h => by cases h⟩
    | cons call rest ih =>
      obtain ⟨replicate_msg, new_config, commit_msg⟩ := call
      unfold PlayChangeConfigRequests
      simp only
      obtain ⟨h1, h2⟩ := ih
        (PlayChangeConfigRequest AppendCommitMsg cmeta w replicate_msg new_config
          commit_msg).2.1
        (PlayChangeConfigRequest AppendCommitMsg cmeta w replicate_msg new_config
          commit_msg).2.2
      have hm := hmax cmeta w replicate_msg new_config commit_msg
      refine ⟨by omega, ?_⟩
      intro call hc
      rcases List.mem_cons.mp hc with h0 | h0
      · subst h0
        simp only
        omega
      · exact h2 call h0

/-! ### The monotonic counter -/

/-- The loop of UpdateMonotonicCounter returns the maximum of the counter and
the value, whatever calls of compare_exchange_weak fail spuriously, given one
iteration more than the number of listed failures. -/
theorem UpdateMonotonicCounterLoop_eq (value : Int) :
    ∀ (spurious : List Bool) (fuel : Nat) (counter : Int), spurious.length + 1 ≤ fuel →
      UpdateMonotonicCounterLoop value fuel spurious counter counter =
        some (max counter value) := by
  intro spurious
  induction spurious with
  | nil =>
    intro fuel counter hf
    obtain ⟨n, rfl⟩ : ∃ n, fuel = n + 1 := ⟨fuel - 1, by simp at hf; omega⟩
    unfold UpdateMonotonicCounterLoop
    by_cases c : counter ≥ value
    · rw [if_pos c]
      congr 1
      omega
    · rw [if_neg c]
      simp only [compare_exchange_weak, List.headD_nil, and_self, if_true]
      congr 1
      omega
  | cons b rest ih =>
    intro fuel counter hf
    obtain ⟨n, rfl⟩ : ∃ n, fuel = n + 1 := ⟨fuel - 1, by simp at hf; omega⟩
    have hn : rest.length + 1 ≤ n := by
      simp only [List.length_cons] at hf
      omega
    unfold UpdateMonotonicCounterLoop
    by_cases c : counter ≥ value
    · rw [if_pos c]
      congr 1
      omega
    · rw [if_neg c]
      cases b with
      | false =>
        simp only [compare_exchange_weak, List.headD_cons, and_self, if_true]
        congr 1
        omega
      | true =>
        simp only [compare_exchange_weak, List.headD_cons, Bool.true_eq_false, and_false,
          if_false, Bool.false_eq_true, List.tail_cons]
        exact ih n counter hn

/-- Claim C24: Tablet::UpdateMonotonicCounter(value) returns, whatever calls
of compare_exchange_weak fail spuriously, and leaves monotonic_counter_ equal
to the maximum of the previous counter and value, the rest of the tablet
untouched; a call with value <= counter leaves the tablet unchanged; and the
counter never decreases over a sequence of calls, all of which return. -/
theorem C24_UpdateMonotonicCounter {S : Type} (t : Tablet S) :
    (∀ (spurious : List Bool) (value : Int),
      t.UpdateMonotonicCounter spurious value =
        some { t with monotonic_counter_ := max t.monotonic_counter_ value }) ∧
    (∀ (spurious : List Bool) (value : Int), value ≤ t.monotonic_counter_ →
      t.UpdateMonotonicCounter spurious value = some t) ∧
    (∀ calls : List (List Bool × Int),
      ∃ t2, t.UpdateMonotonicCounters calls = some t2 ∧
        t.monotonic_counter_ ≤ t2.monotonic_counter_ ∧
        (∀ call ∈ calls, call.2 ≤ t2.monotonic_counter_)) ∧
    (freshTablet TableType.YQL_TABLE_TYPE).UpdateMonotonicCounters
        [([true, true], 5), ([], 3), ([false, true], 9)] =
      some { freshTablet TableType.YQL_TABLE_TYPE with monotonic_counter_ := 9 } := by
  have h1 : ∀ (t0 : Tablet S) (spurious : List Bool) (value : Int),
      t0.UpdateMonotonicCounter spurious value =
        some { t0 with monotonic_counter_ := max t0.monotonic_counter_ value } := by
    intro t0 spurious value
    unfold Tablet.UpdateMonotonicCounter
    rw [UpdateMonotonicCounterLoop_eq value spurious _ _ (by omega)]
    rfl
  refine ⟨h1 t, ?_, ?_, rfl⟩
  · intro spurious value hle
    rw [h1, max_eq_left hle]
  · intro calls
    induction calls generalizing t with
    | nil => exact ⟨t, rfl, le_refl _, fun call h => by cases h⟩
    | cons call rest ih =>
      obtain ⟨spurious, value⟩ := call
      obtain ⟨t2, ht2, hle, hall⟩ :=
        ih { t with monotonic_counter_ := max t.monotonic_counter_ value }
      refine ⟨t2, ?_, ?_, ?_⟩
      · unfold Tablet.UpdateMonotonicCounters
        rw [h1]
        exact ht2
      · simp only at hle
        omega
      · intro call hc
        rcases List.mem_cons.mp hc with h0 | h0
        · subst h0
          simp only at hle ⊢
          omega
        · exact hall call h0

/-! ### The table of active readers -/

/-- A read point below every stored one has no count. -/
theorem ReaderCount_of_lt (m : List (Nat × Int)) (k : Nat)
    (h : ∀ p ∈ m, k < p.1) : ReaderCount m k = none := by
  induction m with
  | nil => rfl
  | cons p rest ih =>
    obtain ⟨k2, c⟩ := p
    have hk : k < k2 := h (k2, c) (List.mem_cons_self _ _)
    have hne : ¬ k2 = k := by omega
    unfold ReaderCount
    rw [if_neg hne]
    exact ih (fun p hp => h p (List.mem_cons_of_mem _ hp))

/-- The count of a read point on a table with a first entry. -/
theorem ReaderCount_cons (k2 : Nat) (c : Int) (rest : List (Nat × Int)) (x : Nat) :
    ReaderCount ((k2, c) :: rest) x = if k2 = x then some c else ReaderCount rest x := rfl

/-- The count of a read point after operator[] += d on a well-formed table. -/
theorem ReaderCount_AddToReaderCount (k : Nat) (d : Int) :
    ∀ (m : List (Nat × Int)), (m.map Prod.fst).Pairwise (fun a b => a < b) →
      ∀ x, ReaderCount (AddToReaderCount m k d) x =
        if x = k then some ((ReaderCount m k).getD 0 + d) else ReaderCount m x := by
  intro m
  induction m with
  | nil =>
    intro _ x
    unfold AddToReaderCount
    by_cases hx : x = k
    · subst hx
      simp [ReaderCount]
    · have hx2 : ¬ k = x := fun h => hx h.symm
      simp [ReaderCount, hx, hx2]
  | cons p rest ih =>
    intro hwf x
    obtain ⟨k2, c⟩ := p
    have hwf2 : (∀ a ∈ rest.map Prod.fst, k2 < a) ∧
        (rest.map Prod.fst).Pairwise (fun a b => a < b) := by
      simpa using hwf
    unfold AddToReaderCount
    by_cases h1 : k < k2
    · rw [if_pos h1]
      have hnone : ReaderCount ((k2, c) :: rest) k = none := by
        apply ReaderCount_of_lt
        intro p hp
        rcases List.mem_cons.mp hp with h0 | h0
        · rw [h0]
          exact h1
        · have := hwf2.1 p.1 (List.mem_map_of_mem _ h0)
          omega
      rw [hnone]
      by_cases hx : x = k
      · subst hx
        simp [ReaderCount]
      · have hx2 : ¬ k = x := fun h => hx h.symm
        rw [if_neg hx]
        conv_lhs => unfold ReaderCount
        rw [if_neg hx2]
    · rw [if_neg h1]
      by_cases h2 : k = k2
      · rw [if_pos h2]
        subst h2
        by_cases hx : x = k
        · subst hx
          simp [ReaderCount]
        · have hx2 : ¬ k = x := fun h => hx h.symm
          simp [ReaderCount, hx, hx2]
      · rw [if_neg h2]
        have h3 : ¬ k2 = k := fun h => h2 h.symm
        by_cases hx : x = k
        · subst hx
          rw [ReaderCount_cons, if_neg h3, ih hwf2.2, if_pos rfl, if_pos rfl, ReaderCount_cons,
            if_neg h3]
        · rw [if_neg hx]
          conv_lhs => unfold ReaderCount
          conv_rhs => unfold ReaderCount
          by_cases h4 : k2 = x
          · rw [if_pos h4, if_pos h4]
          · rw [if_neg h4, if_neg h4, ih hwf2.2, if_neg hx]

/-- The keys of the table after operator[] += d: the key added and the keys
present before. -/
theorem mem_keys_AddToReaderCount (k : Nat) (d : Int) :
    ∀ (m : List (Nat × Int)) (a : Nat),
      a ∈ (AddToReaderCount m k d).map Prod.fst → a = k ∨ a ∈ m.map Prod.fst := by
  intro m
  induction m with
  | nil =>
    intro a ha
    simp [AddToReaderCount] at ha
    exact Or.inl ha
  | cons p rest ih =>
    intro a ha
    obtain ⟨k2, c⟩ := p
    unfold AddToReaderCount at ha
    by_cases h1 : k < k2
    · rw [if_pos h1] at ha
      simp only [List.map_cons, List.mem_cons] at ha ⊢
      tauto
    · rw [if_neg h1] at ha
      by_cases h2 : k = k2
      · rw [if_pos h2] at ha
        simp only [List.map_cons, List.mem_cons] at ha ⊢
        tauto
      · rw [if_neg h2] at ha
        simp only [List.map_cons, List.mem_cons] at ha ⊢
        rcases ha with h0 | h0
        · exact Or.inr (Or.inl h0)
        · rcases ih a h0 with h5 | h5
          · exact Or.inl h5
          · exact Or.inr (Or.inr h5)

/-- Operator[] += d keeps the table well-formed. -/
theorem AddToReaderCount_wf (k : Nat) (d : Int) :
    ∀ (m : List (Nat × Int)), (m.map Prod.fst).Pairwise (fun a b => a < b) →
      ((AddToReaderCount m k d).map Prod.fst).Pairwise (fun a b => a < b) := by
  intro m
  induction m with
  | nil =>
    intro _
    simp [AddToReaderCount]
  | cons p rest ih =>
    intro hwf
    obtain ⟨k2, c⟩ := p
    have hwf2 : (∀ a ∈ rest.map Prod.fst, k2 < a) ∧
        (rest.map Prod.fst).Pairwise (fun a b => a < b) := by
      simpa using hwf
    unfold AddToReaderCount
    by_cases h1 : k < k2
    · rw [if_pos h1]
      simp only [List.map_cons, List.pairwise_cons, List.mem_cons]
      refine ⟨?_, hwf2.1, hwf2.2⟩
      intro a ha
      rcases ha with h0 | h0
      · rw [h0]
        exact h1
      · exact lt_trans h1 (hwf2.1 a h0)
    · rw [if_neg h1]
      by_cases h2 : k = k2
      · rw [if_pos h2]
        simpa using hwf
      · rw [if_neg h2]
        simp only [List.map_cons, List.pairwise_cons]
        refine ⟨?_, ih hwf2.2⟩
        intro a ha
        rcases mem_keys_AddToReaderCount k d rest a ha with h5 | h5
        · rw [h5]
          exact lt_of_le_of_ne (Nat.le_of_not_lt h1) (fun h => h2 h.symm)
        · exact hwf2.1 a h5

/-- The count of a read point after erase(timestamp). -/
theorem ReaderCount_filter (k : Nat) :
    ∀ (m : List (Nat × Int)) (x : Nat),
      ReaderCount (m.filter (fun p => decide (p.1 ≠ k))) x =
        if x = k then none else ReaderCount m x := by
  intro m
  induction m with
  | nil =>
    intro x
    simp [ReaderCount]
  | cons p rest ih =>
    intro x
    obtain ⟨k2, c⟩ := p
    by_cases h1 : k2 = k
    · subst h1
      have hf : ((k2, c) :: rest).filter (fun p => decide (p.1 ≠ k2)) =
          rest.filter (fun p => decide (p.1 ≠ k2)) := by
        simp [List.filter_cons]
      rw [hf, ih]
      by_cases hx : x = k2
      · rw [if_pos hx, if_pos hx]
      · rw [if_neg hx, if_neg hx]
        have hx2 : ¬ k2 = x := fun h => hx h.symm
        conv_rhs => unfold ReaderCount
        rw [if_neg hx2]
    · have hf : ((k2, c) :: rest).filter (fun p => decide (p.1 ≠ k)) =
          (k2, c) :: rest.filter (fun p => decide (p.1 ≠ k)) := by
        simp [List.filter_cons, h1]
      rw [hf]
      conv_lhs => unfold ReaderCount
      conv_rhs => unfold ReaderCount
      by_cases h4 : k2 = x
      · rw [if_pos h4, if_pos h4]
        have hx : ¬ x = k := by
          rw [← h4]
          exact h1
        rw [if_neg hx]
      · rw [if_neg h4, if_neg h4, ih]

/-- On a well-formed table a pair is stored exactly when it is the count of
its read point. -/
theorem mem_iff_ReaderCount :
    ∀ (m : List (Nat × Int)), (m.map Prod.fst).Pairwise (fun a b => a < b) →
      ∀ (x : Nat) (c : Int), (x, c) ∈ m ↔ ReaderCount m x = some c := by
  intro m
  induction m with
  | nil =>
    intro _ x c
    simp [ReaderCount]
  | cons p rest ih =>
    intro hwf x c
    obtain ⟨k2, c2⟩ := p
    have hwf2 : (∀ a ∈ rest.map Prod.fst, k2 < a) ∧
        (rest.map Prod.fst).Pairwise (fun a b => a < b) := by
      simpa using hwf
    unfold ReaderCount
    by_cases h4 : k2 = x
    · rw [if_pos h4]
      subst h4
      constructor
      · intro h
        rcases List.mem_cons.mp h with h0 | h0
        · injection h0 with _ h1
          rw [h1]
        · have := hwf2.1 k2 (List.mem_map_of_mem Prod.fst h0)
          simp at this
      · intro h
        injection h with h
        subst h
        exact List.mem_cons_self _ _
    · rw [if_neg h4, ← ih hwf2.2]
      constructor
      · intro h
        rcases List.mem_cons.mp h with h0 | h0
        · injection h0 with h1 _
          exact absurd h1.symm h4
        · exact h0
      · intro h
        exact List.mem_cons_of_mem _ h

/-- The net registrations of a sequence of calls followed by another. -/
theorem NetRegistrations_append (ts : Nat) :
    ∀ (a b : List ReaderCall),
      NetRegistrations ts (a ++ b) = NetRegistrations ts a + NetRegistrations ts b := by
  intro a
  induction a with
  | nil =>
    intro b
    simp [NetRegistrations]
  | cons c rest ih =>
    intro b
    cases c with
    | register x =>
      have h1 : NetRegistrations ts (ReaderCall.register x :: rest ++ b) =
          (if x = ts then 1 else 0) + NetRegistrations ts (rest ++ b) := rfl
      have h2 : NetRegistrations ts (ReaderCall.register x :: rest) =
          (if x = ts then 1 else 0) + NetRegistrations ts rest := rfl
      rw [h1, h2, ih]
      omega
    | unregister x =>
      have h1 : NetRegistrations ts (ReaderCall.unregister x :: rest ++ b) =
          (if x = ts then -1 else 0) + NetRegistrations ts (rest ++ b) := rfl
      have h2 : NetRegistrations ts (ReaderCall.unregister x :: rest) =
          (if x = ts then -1 else 0) + NetRegistrations ts rest := rfl
      rw [h1, h2, ih]
      omega

/-- The table of active readers after a sequence of matched calls: it is
well-formed, the count of every read point is its number of net registrations
when that is positive and absent otherwise, and no read point has a negative
number of net registrations. -/
theorem RunReaderCalls_invariant {S : Type} :
    ∀ (calls done : List ReaderCall) (t : Tablet S),
      (t.active_readers_cnt_.map Prod.fst).Pairwise (fun a b => a < b) →
      (∀ ts : Nat, ReaderCount t.active_readers_cnt_ ts =
        if 0 < NetRegistrations ts done then some (NetRegistrations ts done) else none) →
      (∀ ts : Nat, 0 ≤ NetRegistrations ts done) →
      MatchedReaderCalls done calls = true →
      (((RunReaderCalls t calls).active_readers_cnt_).map Prod.fst).Pairwise
        (fun a b => a < b) ∧
      (∀ ts : Nat, ReaderCount (RunReaderCalls t calls).active_readers_cnt_ ts =
        if 0 < NetRegistrations ts (done ++ calls) then
          some (NetRegistrations ts (done ++ calls))
        else none) ∧
      (∀ ts : Nat, 0 ≤ NetRegistrations ts (done ++ calls)) := by
  intro calls
  induction calls with
  | nil =>
    intro done t hwf hcount hnonneg _
    simp only [List.append_nil]
    exact ⟨hwf, hcount, hnonneg⟩
  | cons call rest ih =>
    intro done t hwf hcount hnonneg hmatched
    have happ : done ++ call :: rest = (done ++ [call]) ++ rest := by simp
    rw [happ]
    have hgetD : ∀ ts : Nat,
        (ReaderCount t.active_readers_cnt_ ts).getD 0 = NetRegistrations ts done := by
      intro ts
      rw [hcount ts]
      by_cases hp : 0 < NetRegistrations ts done
      · rw [if_pos hp]
        rfl
      · rw [if_neg hp]
        have := hnonneg ts
        simp only [Option.getD_none]
        omega
    cases call with
    | register read_point =>
      have hm : MatchedReaderCalls (done ++ [ReaderCall.register read_point]) rest = true := by
        simpa [MatchedReaderCalls] using hmatched
      have hnet : ∀ ts : Nat,
          NetRegistrations ts (done ++ [ReaderCall.register read_point]) =
            NetRegistrations ts done + (if read_point = ts then 1 else 0) := by
        intro ts
        rw [NetRegistrations_append]
        simp [NetRegistrations]
      refine ih (done ++ [ReaderCall.register read_point])
        (t.RegisterReaderTimestamp read_point) ?_ ?_ ?_ hm
      · exact AddToReaderCount_wf read_point 1 _ hwf
      · intro ts
        have hrc := ReaderCount_AddToReaderCount read_point 1 t.active_readers_cnt_ hwf ts
        have hrc2 : ReaderCount (t.RegisterReaderTimestamp read_point).active_readers_cnt_ ts =
            if ts = read_point then
              some ((ReaderCount t.active_readers_cnt_ read_point).getD 0 + 1)
            else ReaderCount t.active_readers_cnt_ ts := hrc
        rw [hrc2, hnet ts]
        by_cases hx : ts = read_point
        · subst hx
          have := hnonneg ts
          rw [if_pos rfl, if_pos rfl, hgetD, if_pos (by omega)]
        · have hx2 : ¬ read_point = ts := fun h => hx h.symm
          rw [if_neg hx, if_neg hx2, hcount ts]
          simp only [add_zero]
      · intro ts
        rw [hnet ts]
        have := hnonneg ts
        split_ifs <;> omega
    | unregister timestamp =>
      have hm0 : 0 < NetRegistrations timestamp done ∧
          MatchedReaderCalls (done ++ [ReaderCall.unregister timestamp]) rest = true := by
        simpa [MatchedReaderCalls] using hmatched
      obtain ⟨hpos, hm⟩ := hm0
      have hnet : ∀ ts : Nat,
          NetRegistrations ts (done ++ [ReaderCall.unregister timestamp]) =
            NetRegistrations ts done + (if timestamp = ts then -1 else 0) := by
        intro ts
        rw [NetRegistrations_append]
        simp [NetRegistrations]
      have hwf1 := AddToReaderCount_wf timestamp (-1) _ hwf
      have hrc := ReaderCount_AddToReaderCount timestamp (-1) t.active_readers_cnt_ hwf
      have hrc_ts : ReaderCount (AddToReaderCount t.active_readers_cnt_ timestamp (-1))
          timestamp = some (NetRegistrations timestamp done + -1) := by
        rw [hrc timestamp, if_pos rfl, hgetD]
      by_cases hone : NetRegistrations timestamp done = 1
      · have hu : (t.UnregisterReader timestamp).active_readers_cnt_ =
            (AddToReaderCount t.active_readers_cnt_ timestamp (-1)).filter
              (fun p => decide (p.1 ≠ timestamp)) := by
          unfold Tablet.UnregisterReader
          simp only
          rw [hrc_ts, hone]
          simp
        refine ih (done ++ [ReaderCall.unregister timestamp])
          (t.UnregisterReader timestamp) ?_ ?_ ?_ hm
        · rw [hu]
          exact List.Pairwise.sublist (List.Sublist.map _ (List.filter_sublist _)) hwf1
        · intro ts
          rw [hu, ReaderCount_filter, hnet ts]
          by_cases hx : ts = timestamp
          · subst hx
            rw [if_pos rfl, if_pos rfl, hone]
            simp
          · have hx2 : ¬ timestamp = ts := fun h => hx h.symm
            rw [if_neg hx, if_neg hx2, hrc ts, if_neg hx, hcount ts]
            simp only [add_zero]
        · intro ts
          rw [hnet ts]
          have := hnonneg ts
          split_ifs with hx
          · subst hx
            omega
          · omega
      · have hu : (t.UnregisterReader timestamp).active_readers_cnt_ =
            AddToReaderCount t.active_readers_cnt_ timestamp (-1) := by
          unfold Tablet.UnregisterReader
          simp only
          rw [hrc_ts]
          have hne : ¬ (some (NetRegistrations timestamp done + -1) = some (0 : Int)) := by
            intro h
            injection h with h
            omega
          rw [if_neg hne]
        refine ih (done ++ [ReaderCall.unregister timestamp])
          (t.UnregisterReader timestamp) ?_ ?_ ?_ hm
        · rw [hu]
          exact hwf1
        · intro ts
          rw [hu, hrc ts, hnet ts]
          by_cases hx : ts = timestamp
          · subst hx
            rw [if_pos rfl, if_pos rfl, hgetD, if_pos (by omega)]
          · have hx2 : ¬ timestamp = ts := fun h => hx h.symm
            rw [if_neg hx, if_neg hx2, hcount ts]
            simp only [add_zero]
        · intro ts
          rw [hnet ts]
          have := hnonneg ts
          split_ifs with hx
          · subst hx
            omega
          · omega

/-- Calls on the table of active readers leave the world alone. -/
theorem RunReaderCalls_world {S : Type} :
    ∀ (calls : List ReaderCall) (t : Tablet S), (RunReaderCalls t calls).world = t.world := by
  intro calls
  induction calls with
  | nil => intro t; rfl
  | cons call rest ih =>
    intro t
    unfold RunReaderCalls
    rw [ih]
    cases call with
    | register x => rfl
    | unregister x =>
      simp only [RunReaderCall, Tablet.UnregisterReader]
      split_ifs <;> rfl

/-- Claim C25: start from an empty table of active readers and make a
sequence of RegisterReaderTimestamp and UnregisterReader calls in which every
unregistration matches an earlier registration of the same timestamp that is
not yet unregistered.  Then the table holds exactly the timestamps with more
registrations than unregistrations, each once and with that positive count;
OldestReadPoint returns the MVCC safe read time when no such timestamp
exists, and otherwise the smallest of them, which is at most the timestamp of
every active reader. -/
theorem C25_active_readers {S : Type} (SafeTimestampToRead : S → HybridTime) (t : Tablet S)
    (calls : List ReaderCall) (hempty : t.active_readers_cnt_ = [])
    (hmatched : MatchedReaderCalls [] calls = true) :
    (∀ (ts : Nat) (c : Int), (ts, c) ∈ (RunReaderCalls t calls).active_readers_cnt_ ↔
      (c = NetRegistrations ts calls ∧ 0 < c)) ∧
    (((RunReaderCalls t calls).active_readers_cnt_).map Prod.fst).Pairwise
      (fun a b => a < b) ∧
    ((∀ ts : Nat, NetRegistrations ts calls ≤ 0) →
      (RunReaderCalls t calls).OldestReadPoint SafeTimestampToRead =
        SafeTimestampToRead t.world) ∧
    (∀ ts : Nat, 0 < NetRegistrations ts calls →
      0 < NetRegistrations ((RunReaderCalls t calls).OldestReadPoint SafeTimestampToRead)
        calls ∧
      (RunReaderCalls t calls).OldestReadPoint SafeTimestampToRead ≤ ts) := by
  obtain ⟨hwf, hcount, hnonneg⟩ := RunReaderCalls_invariant calls [] t
    (by rw [hempty]; exact List.Pairwise.nil)
    (by intro ts; rw [hempty]; rfl)
    (by intro ts; exact le_refl _) hmatched
  simp only [List.nil_append] at hcount hnonneg
  have hmem : ∀ (ts : Nat) (c : Int),
      (ts, c) ∈ (RunReaderCalls t calls).active_readers_cnt_ ↔
        (c = NetRegistrations ts calls ∧ 0 < c) := by
    intro ts c
    rw [mem_iff_ReaderCount _ hwf, hcount ts]
    by_cases hp : 0 < NetRegistrations ts calls
    · rw [if_pos hp]
      constructor
      · intro h
        injection h with h
        exact ⟨h.symm, by omega⟩
      · intro h
        rw [h.1]
    · rw [if_neg hp]
      constructor
      · intro h
        cases h
      · intro h
        exact absurd (by omega) hp
  refine ⟨hmem, hwf, ?_, ?_⟩
  · intro hall
    unfold Tablet.OldestReadPoint
    cases hm : (RunReaderCalls t calls).active_readers_cnt_ with
    | nil =>
      simp only
      rw [RunReaderCalls_world]
    | cons p rest =>
      obtain ⟨k, c⟩ := p
      exfalso
      have hin : (k, c) ∈ (RunReaderCalls t calls).active_readers_cnt_ := by
        rw [hm]
        exact List.mem_cons_self _ _
      have h1 := (hmem k c).mp hin
      have h2 := hall k
      omega
  · intro ts hpos
    have hin : (ts, NetRegistrations ts calls) ∈ (RunReaderCalls t calls).active_readers_cnt_ :=
      (hmem ts _).mpr ⟨rfl, hpos⟩
    unfold Tablet.OldestReadPoint
    cases hm : (RunReaderCalls t calls).active_readers_cnt_ with
    | nil =>
      rw [hm] at hin
      cases hin
    | cons p rest =>
      obtain ⟨k, c⟩ := p
      simp only
      have hk : (k, c) ∈ (RunReaderCalls t calls).active_readers_cnt_ := by
        rw [hm]
        exact List.mem_cons_self _ _
      have h1 := (hmem k c).mp hk
      refine ⟨by omega, ?_⟩
      rw [hm] at hin hwf
      rcases List.mem_cons.mp hin with h0 | h0
      · injection h0 with h2 _
        exact le_of_eq h2.symm
      · have hwf2 : (∀ a ∈ rest.map Prod.fst, k < a) ∧
            (rest.map Prod.fst).Pairwise (fun a b => a < b) := by
          simpa using hwf
        exact le_of_lt (hwf2.1 ts (List.mem_map_of_mem Prod.fst h0))

/-- C25 on a fresh tablet: after two registrations of 5, one of 3 and the
unregistration of one reader of each, the table holds the read point 5 once,
with count 1, and OldestReadPoint is 5. -/
theorem C25_active_readers_witness :
    (freshTablet TableType.YQL_TABLE_TYPE).active_readers_cnt_ = [] ∧
    MatchedReaderCalls []
      [ReaderCall.register 5, ReaderCall.register 3, ReaderCall.register 5,
       ReaderCall.unregister 5, ReaderCall.unregister 3] = true ∧
    (RunReaderCalls (freshTablet TableType.YQL_TABLE_TYPE)
      [ReaderCall.register 5, ReaderCall.register 3, ReaderCall.register 5,
       ReaderCall.unregister 5, ReaderCall.unregister 3]).active_readers_cnt_ = [(5, 1)] ∧
    (RunReaderCalls (freshTablet TableType.YQL_TABLE_TYPE)
      [ReaderCall.register 5, ReaderCall.register 3, ReaderCall.register 5,
       ReaderCall.unregister 5]).active_readers_cnt_ = [(3, 1), (5, 1)] ∧
    (RunReaderCalls (freshTablet TableType.YQL_TABLE_TYPE)
        [ReaderCall.register 5, ReaderCall.register 3, ReaderCall.register 5,
         ReaderCall.unregister 5, ReaderCall.unregister 3]).OldestReadPoint
        (fun w => w.length) ≤ 5 :=
  ⟨rfl, rfl, rfl, rfl,
   ((C25_active_readers (fun w => w.length) (freshTablet TableType.YQL_TABLE_TYPE)
      [ReaderCall.register 5, ReaderCall.register 3, ReaderCall.register 5,
       ReaderCall.unregister 5, ReaderCall.unregister 3] rfl rfl).2.2.2 5 (by decide)).2⟩

/-! ### The swap of row sets -/

/-- The first loop of ModifyRowSetTree keeps, in order, the row sets that are
not to be removed and counts the others. -/
theorem ModifyRowSetTreeLoop_eq (to_remove : List Nat) :
    ∀ old : List Nat,
      ModifyRowSetTreeLoop to_remove old =
        (old.filter (fun rs => decide (rs ∉ to_remove)),
         (old.filter (fun rs => decide (rs ∈ to_remove))).length) := by
  intro old
  induction old with
  | nil => rfl
  | cons rs rest ih =>
    unfold ModifyRowSetTreeLoop
    simp only [ih]
    by_cases h : rs ∈ to_remove
    · have hany : to_remove.any (fun x => decide (x = rs)) = true := by
        rw [List.any_eq_true]
        exact ⟨rs, h, by simp⟩
      rw [if_pos hany]
      simp [List.filter_cons, h]
    · have hany : ¬ (to_remove.any (fun x => decide (x = rs)) = true) := by
        rw [List.any_eq_true]
        rintro ⟨x, hx, hxe⟩
        have : x = rs := by simpa using hxe
        subst this
        exact h hx
      rw [if_neg hany]
      simp [List.filter_cons, h]

/-- Claim C23: for a tree whose row sets are pairwise distinct and a list
to_remove of pairwise distinct row sets that all occur in the tree,
Tablet::ModifyRowSetTree passes its count check (num_removed is the length of
to_remove) and, RowSetTree::Reset succeeding, builds the tree whose row sets
are those of the old tree without the ones of to_remove, in their order,
followed by the row sets of to_add in order; its size is the old size minus
the length of to_remove plus the length of to_add. -/
theorem C23_ModifyRowSetTree (Reset : List Nat → Status) (old_tree : RowSetTree)
    (to_remove to_add : List Nat) (hold : old_tree.all_rowsets.Nodup)
    (hrem : to_remove.Nodup) (hsub : ∀ rs ∈ to_remove, rs ∈ old_tree.all_rowsets)
    (hreset : (Reset (old_tree.all_rowsets.filter (fun rs => decide (rs ∉ to_remove)) ++
      to_add)).ok = true) :
    (ModifyRowSetTreeLoop to_remove old_tree.all_rowsets).2 = to_remove.length ∧
    ModifyRowSetTree Reset old_tree to_remove to_add =
      some { all_rowsets :=
        old_tree.all_rowsets.filter (fun rs => decide (rs ∉ to_remove)) ++ to_add } ∧
    (old_tree.all_rowsets.filter (fun rs => decide (rs ∉ to_remove)) ++ to_add).length +
        to_remove.length = old_tree.all_rowsets.length + to_add.length ∧
    (∀ rs, rs ∈ old_tree.all_rowsets.filter (fun rs => decide (rs ∉ to_remove)) ++ to_add ↔
      (rs ∈ old_tree.all_rowsets ∧ rs ∉ to_remove) ∨ rs ∈ to_add) ∧
    (old_tree.all_rowsets.filter (fun rs => decide (rs ∉ to_remove))).Sublist
      old_tree.all_rowsets := by
  have hperm : (old_tree.all_rowsets.filter (fun rs => decide (rs ∈ to_remove))).Perm
      to_remove := by
    rw [List.perm_ext_iff_of_nodup (hold.filter _) hrem]
    intro a
    rw [List.mem_filter]
    constructor
    · intro h
      simpa using h.2
    · intro h
      exact ⟨hsub a h, by simpa using h⟩
  have hcount : (old_tree.all_rowsets.filter (fun rs => decide (rs ∈ to_remove))).length =
      to_remove.length := hperm.length_eq
  have hsplit : (old_tree.all_rowsets.filter (fun rs => decide (rs ∈ to_remove))).length +
      (old_tree.all_rowsets.filter (fun rs => decide (rs ∉ to_remove))).length =
      old_tree.all_rowsets.length := by
    have h := (List.filter_append_perm (fun rs => decide (rs ∈ to_remove))
      old_tree.all_rowsets).length_eq
    rw [List.length_append] at h
    rw [← h]
    congr 2
    apply List.filter_congr
    intro x _
    simp
  refine ⟨?_, ?_, ?_, ?_, List.filter_sublist _⟩
  · rw [ModifyRowSetTreeLoop_eq]
    exact hcount
  · unfold ModifyRowSetTree
    simp only [ModifyRowSetTreeLoop_eq]
    have c1 : ¬ ((old_tree.all_rowsets.filter (fun rs => decide (rs ∈ to_remove))).length ≠
        to_remove.length) := fun h => h hcount
    have c2 : ¬ ((!(Reset (old_tree.all_rowsets.filter (fun rs => decide (rs ∉ to_remove)) ++
        to_add)).ok) = true) := by
      rw [hreset]
      decide
    rw [if_neg c1, if_neg c2]
  · rw [List.length_append]
    omega
  · intro rs
    rw [List.mem_append, List.mem_filter]
    simp

/-- C23 on the tree of the row sets 1, 2, 3, 4: removing 4 and 2 and adding 7
gives the tree 1, 3, 7; a list to_remove that names a row set twice fails the
count check. -/
theorem C23_ModifyRowSetTree_witness :
    (⟨[1, 2, 3, 4]⟩ : RowSetTree).all_rowsets.Nodup ∧
    ([4, 2] : List Nat).Nodup ∧
    ModifyRowSetTree (fun _ => Status.OK) ⟨[1, 2, 3, 4]⟩ [4, 2] [7] = some ⟨[1, 3, 7]⟩ ∧
    ModifyRowSetTree (fun _ => Status.OK) ⟨[1, 2, 3, 4]⟩ [2, 2] [7] = none ∧
    AtomicSwapRowSetsUnlocked (fun _ => Status.OK) TableType.KUDU_COLUMNAR_TABLE_TYPE
      (0, ⟨[1, 2, 3, 4]⟩) [4, 2] [7] = some (0, ⟨[1, 3, 7]⟩) :=
  ⟨by decide, by decide,
   (C23_ModifyRowSetTree (fun _ => Status.OK) ⟨[1, 2, 3, 4]⟩ [4, 2] [7] (by decide)
      (by decide) (by decide) rfl).2.1,
   rfl, rfl⟩

/-! ### Qualified names -/

/-- A string without NUL character is unchanged by c_str(). -/
theorem c_str_eq_self (s : String) (h : Char.ofNat 0 ∉ s.data) : c_str s = s := by
  unfold c_str
  have h2 : s.data.takeWhile (fun ch => decide (ch ≠ Char.ofNat 0)) = s.data := by
    rw [List.takeWhile_eq_self_iff]
    intro x hx
    have : x ≠ Char.ofNat 0 := fun hc => h (hc ▸ hx)
    simpa using this
  rw [h2]

/-- AnalyzeName on a name of two components, for a table or a type. -/
theorem AnalyzeName_two (kRedisKeyspaceName : String) (sem_context : SemContext)
    (object_type : ObjectType)
    (hobj : object_type = ObjectType.OBJECT_TABLE ∨ object_type = ObjectType.OBJECT_TYPE)
    (ks obj : String) :
    PTQualifiedName.AnalyzeName kRedisKeyspaceName sem_context ⟨[ks, obj]⟩ object_type =
      if ks = kRedisKeyspaceName then some (ErrorCode.INVALID_ARGUMENTS, ⟨[ks, obj]⟩)
      else some (ErrorCode.SUCCESS, ⟨[ks, obj]⟩) := by
  rcases hobj with h | h <;> subst h <;> rfl

/-- Claim C30: for the object types OBJECT_TABLE and OBJECT_TYPE, AnalyzeName
succeeds exactly in two cases: the name has two components and the first one
is not the reserved Redis keyspace, the name being left as it is; or the name
has one component, the current keyspace is not empty and, read as a C string,
is not the reserved Redis keyspace, and it is prepended to the name.  So a
success needs at most two components and leaves a name of exactly two
components, keyspace first, on which AnalyzeName succeeds again without
changing it; AnalyzeName returns on every name that has a component; and a
current keyspace without NUL character is prepended as it is. -/
theorem C30_AnalyzeName (kRedisKeyspaceName : String) (sem_context : SemContext)
    (n : PTQualifiedName) (object_type : ObjectType)
    (hobj : object_type = ObjectType.OBJECT_TABLE ∨ object_type = ObjectType.OBJECT_TYPE) :
    (∀ n2 : PTQualifiedName,
      n.AnalyzeName kRedisKeyspaceName sem_context object_type =
          some (ErrorCode.SUCCESS, n2) ↔
        (∃ ks obj, n.ptnames_ = [ks, obj] ∧ ks ≠ kRedisKeyspaceName ∧ n2 = n) ∨
        (∃ obj, n.ptnames_ = [obj] ∧ sem_context.current_keyspace ≠ "" ∧
          c_str sem_context.current_keyspace ≠ kRedisKeyspaceName ∧
          n2 = ⟨[c_str sem_context.current_keyspace, obj]⟩)) ∧
    (∀ n2 : PTQualifiedName,
      n.AnalyzeName kRedisKeyspaceName sem_context object_type =
          some (ErrorCode.SUCCESS, n2) →
        n.ptnames_.length ≤ 2 ∧ n2.ptnames_.length = 2 ∧
        n2.ptnames_.head? ≠ some kRedisKeyspaceName ∧
        n2.AnalyzeName kRedisKeyspaceName sem_context object_type =
          some (ErrorCode.SUCCESS, n2)) ∧
    (n.ptnames_ ≠ [] →
      ∃ r, n.AnalyzeName kRedisKeyspaceName sem_context object_type = some r) ∧
    (Char.ofNat 0 ∉ sem_context.current_keyspace.data →
      c_str sem_context.current_keyspace = sem_context.current_keyspace) := by
  have hiff : ∀ n2 : PTQualifiedName,
      n.AnalyzeName kRedisKeyspaceName sem_context object_type =
          some (ErrorCode.SUCCESS, n2) ↔
        (∃ ks obj, n.ptnames_ = [ks, obj] ∧ ks ≠ kRedisKeyspaceName ∧ n2 = n) ∨
        (∃ obj, n.ptnames_ = [obj] ∧ sem_context.current_keyspace ≠ "" ∧
          c_str sem_context.current_keyspace ≠ kRedisKeyspaceName ∧
          n2 = ⟨[c_str sem_context.current_keyspace, obj]⟩) := by
    intro n2
    obtain ⟨names⟩ := n
    rcases names with _ | ⟨a, _ | ⟨b, _ | ⟨c, rest⟩⟩⟩
    · have hnone : PTQualifiedName.AnalyzeName kRedisKeyspaceName sem_context ⟨[]⟩
          object_type = none := by
        rcases hobj with h | h <;> subst h <;> rfl
      rw [hnone]
      simp
    · have hone : PTQualifiedName.AnalyzeName kRedisKeyspaceName sem_context ⟨[a]⟩
          object_type =
          if sem_context.current_keyspace = "" then
            some (ErrorCode.NO_NAMESPACE_USED, ⟨[a]⟩)
          else if c_str sem_context.current_keyspace = kRedisKeyspaceName then
            some (ErrorCode.INVALID_ARGUMENTS, ⟨[c_str sem_context.current_keyspace, a]⟩)
          else some (ErrorCode.SUCCESS, ⟨[c_str sem_context.current_keyspace, a]⟩) := by
        rcases hobj with h | h <;> subst h <;> rfl
      rw [hone]
      by_cases h1 : sem_context.current_keyspace = ""
      · rw [if_pos h1]
        simp [h1]
      · rw [if_neg h1]
        by_cases h2 : c_str sem_context.current_keyspace = kRedisKeyspaceName
        · rw [if_pos h2]
          simp [h2]
        · rw [if_neg h2]
          constructor
          · intro h
            injection h with h
            injection h with _ h
            exact Or.inr ⟨a, rfl, h1, h2, h.symm⟩
          · intro h
            rcases h with ⟨ks, obj, h3, _, _⟩ | ⟨obj, h3, _, _, h4⟩
            · simp at h3
            · have h5 : a = obj := by simpa using h3
              rw [h4, h5]
    · rw [AnalyzeName_two kRedisKeyspaceName sem_context object_type hobj]
      by_cases h1 : a = kRedisKeyspaceName
      · rw [if_pos h1]
        simp [h1]
      · rw [if_neg h1]
        constructor
        · intro h
          injection h with h
          injection h with _ h
          exact Or.inl ⟨a, b, rfl, h1, h.symm⟩
        · intro h
          rcases h with ⟨ks, obj, _, _, h3⟩ | ⟨obj, h3, _⟩
          · rw [h3]
          · simp at h3
    · have hmany : PTQualifiedName.AnalyzeName kRedisKeyspaceName sem_context
          ⟨a :: b :: c :: rest⟩ object_type =
          some (ErrorCode.SQL_STATEMENT_INVALID, ⟨a :: b :: c :: rest⟩) := by
        rcases hobj with h | h <;> subst h <;>
          simp [PTQualifiedName.AnalyzeName]
      rw [hmany]
      simp
  refine ⟨hiff, ?_, ?_, c_str_eq_self _⟩
  · intro n2 h
    rcases (hiff n2).mp h with ⟨ks, obj, h1, h2, h3⟩ | ⟨obj, h1, h2, h3, h4⟩
    · rw [h3]
      obtain ⟨names⟩ := n
      simp only at h1
      subst h1
      refine ⟨by simp, rfl, by simpa using h2, ?_⟩
      rw [AnalyzeName_two kRedisKeyspaceName sem_context object_type hobj, if_neg h2]
    · subst h4
      refine ⟨by rw [h1]; simp, rfl, by simpa using h3, ?_⟩
      rw [AnalyzeName_two kRedisKeyspaceName sem_context object_type hobj, if_neg h3]
  · intro hne
    obtain ⟨names⟩ := n
    rcases names with _ | ⟨a, rest⟩
    · exact absurd rfl hne
    · rcases hobj with h | h <;> subst h <;>
        (simp only [PTQualifiedName.AnalyzeName, PTQualifiedName.CheckReservedKeyspace,
          PTQualifiedName.Prepend]
         split_ifs <;> exact ⟨_, rfl⟩)

/-- C30 with the current keyspace ks and the reserved keyspace system_redis:
the table name t is completed to ks.t, analysing ks.t again leaves it as it
is, and the names system_redis.t and a.b.c are rejected. -/
theorem C30_AnalyzeName_witness :
    (ObjectType.OBJECT_TABLE = ObjectType.OBJECT_TABLE ∨
      ObjectType.OBJECT_TABLE = ObjectType.OBJECT_TYPE) ∧
    (PTQualifiedName.new "t").AnalyzeName "system_redis" ⟨"ks"⟩ ObjectType.OBJECT_TABLE =
      some (ErrorCode.SUCCESS, ⟨["ks", "t"]⟩) ∧
    (⟨["ks", "t"]⟩ : PTQualifiedName).AnalyzeName "system_redis" ⟨"ks"⟩
        ObjectType.OBJECT_TABLE = some (ErrorCode.SUCCESS, ⟨["ks", "t"]⟩) ∧
    (⟨["system_redis", "t"]⟩ : PTQualifiedName).AnalyzeName "system_redis" ⟨"ks"⟩
        ObjectType.OBJECT_TABLE = some (ErrorCode.INVALID_ARGUMENTS, ⟨["system_redis", "t"]⟩) ∧
    (⟨["a", "b", "c"]⟩ : PTQualifiedName).AnalyzeName "system_redis" ⟨"ks"⟩
        ObjectType.OBJECT_TABLE = some (ErrorCode.SQL_STATEMENT_INVALID, ⟨["a", "b", "c"]⟩) ∧
    (PTQualifiedName.new "t").AnalyzeName "system_redis" ⟨""⟩ ObjectType.OBJECT_TABLE =
      some (ErrorCode.NO_NAMESPACE_USED, ⟨["t"]⟩) := by
  refine ⟨Or.inl rfl, by decide, ?_, by decide, by decide, by decide⟩
  exact ((C30_AnalyzeName "system_redis" ⟨"ks"⟩ (PTQualifiedName.new "t")
    ObjectType.OBJECT_TABLE (Or.inl rfl)).2.1 ⟨["ks", "t"]⟩ (by decide)).2.2.2

end yb
